import Mathlib

/-! GStreamer decoder bridge (`modules/codec/gstdecode.c`)

A shallow embedding of the decoder module: the format negotiator
(`vlc_to_gst_fmt`), the engine selector and pipeline construction
(`OpenDecoder`), the per-call driver (`DecodeBlock`), the sink callback
(`frame_handoff_cb`) and the teardown (`CloseDecoder`).

Calls into GStreamer, GLib and the host are either modelled by their
documented contract (containers, the list sort, the rank comparator, the
64-bit scale) or taken as an explicit environment record whose fields say
whether a given library call succeeds.  Every function returns, next to its
result, the ordered trace of the library calls it made.
-/

namespace GstDecode

/-! ## Host constants -/

/-- Constants the module names but which are defined in host headers outside
this translation unit (`vlc_fourcc.h`, `vlc_config.h`, `vlc_block.h`).  They
are kept symbolic; `VLC_FOURCC` codes are 32-bit words. -/
structure HostConsts where
  VLC_CODEC_H264 : Nat
  VLC_CODEC_MP4V : Nat
  VLC_CODEC_VP8 : Nat
  VLC_CODEC_MPGV : Nat
  VLC_CODEC_FLV1 : Nat
  VLC_CODEC_WMV1 : Nat
  VLC_CODEC_WMV2 : Nat
  VLC_CODEC_WMV3 : Nat
  VLC_CODEC_VC1 : Nat
  VLC_TS_INVALID : Int
  BLOCK_FLAG_DISCONTINUITY : Nat
  BLOCK_FLAG_CORRUPTED : Nat
  deriving Repr

/-- Little-endian four character code, as the host packs it. -/
def VLC_FOURCC (a b c d : Char) : Nat :=
  a.toNat + 256 * b.toNat + 65536 * c.toNat + 16777216 * d.toNat

/-- One concrete assignment of the host constants (the values of the VLC 2.x
headers), used to evaluate the definitions on concrete inputs. -/
def hostDefaults : HostConsts where
  VLC_CODEC_H264 := VLC_FOURCC 'h' '2' '6' '4'
  VLC_CODEC_MP4V := VLC_FOURCC 'm' 'p' '4' 'v'
  VLC_CODEC_VP8 := VLC_FOURCC 'V' 'P' '8' '0'
  VLC_CODEC_MPGV := VLC_FOURCC 'm' 'p' 'g' 'v'
  VLC_CODEC_FLV1 := VLC_FOURCC 'F' 'L' 'V' '1'
  VLC_CODEC_WMV1 := VLC_FOURCC 'W' 'M' 'V' '1'
  VLC_CODEC_WMV2 := VLC_FOURCC 'W' 'M' 'V' '2'
  VLC_CODEC_WMV3 := VLC_FOURCC 'W' 'M' 'V' '3'
  VLC_CODEC_VC1 := VLC_FOURCC 'W' 'V' 'C' '1'
  VLC_TS_INVALID := 0
  BLOCK_FLAG_DISCONTINUITY := 1
  BLOCK_FLAG_CORRUPTED := 4096

/-- Return codes of the host (`vlc_common.h`), by name. -/
inductive VlcRet
  | VLC_SUCCESS
  | VLC_EGENERIC
  | VLC_ENOMEM
  | VLC_ENOMOD
  deriving DecidableEq, Repr

/-! ## GStreamer clock constants and the 64-bit scale -/

def G_MAXUINT64 : Nat := 2 ^ 64 - 1

/-- `GST_CLOCK_TIME_NONE` is `(GstClockTime) -1`. -/
def GST_CLOCK_TIME_NONE : Nat := 2 ^ 64 - 1

/-- Nanoseconds in a second (`GstClockTime` unit). -/
def GST_SECOND : Nat := 1000000000

/-- `GST_SECOND / 1000`. -/
def GST_MSECOND : Nat := 1000000

/-- Conversion of a signed 64-bit value to `guint64` at a call site. -/
def toU64 (x : Int) : Nat := (x % 2 ^ 64).toNat

/-- `gst_util_uint64_scale (val, num, denom)`: `val * num / denom` rounded
down, `G_MAXUINT64` when the result does not fit or `denom` is zero. -/
def gst_util_uint64_scale (val num denom : Nat) : Nat :=
  if denom = 0 then G_MAXUINT64
  else if val * num / denom > G_MAXUINT64 then G_MAXUINT64
  else val * num / denom

/-! ## Data model -/

/-- `video_format_t`, the fields the module reads and writes. -/
structure video_format_t where
  i_width : Nat := 0
  i_height : Nat := 0
  i_sar_num : Nat := 0
  i_sar_den : Nat := 0
  i_frame_rate : Nat := 0
  i_frame_rate_base : Nat := 0
  deriving DecidableEq, Repr

/-- `es_format_t`: `p_extra` is the address of the out-of-band configuration
bytes and `i_extra` their count. -/
structure es_format_t where
  i_cat : Nat := 0
  i_codec : Nat := 0
  video : video_format_t := {}
  i_extra : Nat := 0
  p_extra : Nat := 0
  deriving DecidableEq, Repr

/-- `block_t`: `p_start`/`i_size` delimit the allocation, `p_buffer`/`i_buffer`
the payload; time fields are `mtime_t` (signed 64-bit). -/
structure block_t where
  p_start : Nat := 0
  i_size : Nat := 0
  p_buffer : Nat := 0
  i_buffer : Nat := 0
  i_flags : Nat := 0
  i_pts : Int := 0
  i_dts : Int := 0
  i_length : Int := 0
  deriving DecidableEq, Repr

/-- `GstBuffer`: the wrapped memory (`data`, `maxsize`, `offset`, `size`), the
block handed over as `user_data` with `block_Release` as destroy notify (when
there is one), and the three clock fields. -/
structure GstBuffer where
  data : Nat := 0
  maxsize : Nat := 0
  offset : Nat := 0
  size : Nat := 0
  notify : Option block_t := none
  pts : Nat := GST_CLOCK_TIME_NONE
  dts : Nat := GST_CLOCK_TIME_NONE
  duration : Nat := GST_CLOCK_TIME_NONE
  deriving DecidableEq, Repr

/-- `gst_buffer_new_wrapped_full (flags, data, maxsize, offset, size,
user_data, notify)` when it succeeds. -/
def gst_buffer_new_wrapped_full (data maxsize offset size : Nat)
    (user_data : Option block_t) : GstBuffer :=
  { data := data, maxsize := maxsize, offset := offset, size := size, notify := user_data }

/-- Typed field values of a `GstStructure`, as handed to `gst_structure_set`. -/
inductive GValue
  | str (s : String)
  | int (i : Int)
  | bool (b : Bool)
  | fraction (num den : Int)
  | buffer (b : GstBuffer)
  deriving DecidableEq, Repr

/-- `GstStructure`: a media type name and named fields. -/
structure GstStructure where
  name : String
  fields : List (String × GValue) := []
  deriving DecidableEq, Repr

abbrev GstCaps := List GstStructure

def gst_structure_new_empty (name : String) : GstStructure := { name := name }

/-- Field update: the value of an existing field is replaced, a new field is
added at the end. -/
def setField : List (String × GValue) → String → GValue → List (String × GValue)
  | [], n, v => [(n, v)]
  | (m, w) :: fs, n, v => if m = n then (n, v) :: fs else (m, w) :: setField fs n v

/-- `gst_structure_set (s, name, type, value, NULL)` for one field. -/
def gst_structure_set (s : GstStructure) (n : String) (v : GValue) : GstStructure :=
  { s with fields := setField s.fields n v }

def getField : List (String × GValue) → String → Option GValue
  | [], _ => none
  | (m, w) :: fs, n => if m = n then some w else getField fs n

/-- Value of a field, if the structure has it. -/
def gst_structure_get (s : GstStructure) (n : String) : Option GValue :=
  getField s.fields n

def gst_structure_has_field (s : GstStructure) (n : String) : Bool :=
  (gst_structure_get s n).isSome

/-- `gst_structure_get_string`: `NULL` unless the field is a string. -/
def gst_structure_get_string (s : GstStructure) (n : String) : Option String :=
  match gst_structure_get s n with
  | some (GValue.str v) => some v
  | _ => none

/-- `gst_structure_get_int`: the value when the field exists and is an int. -/
def gst_structure_get_int (s : GstStructure) (n : String) : Option Int :=
  match gst_structure_get s n with
  | some (GValue.int v) => some v
  | _ => none

/-- `gst_structure_get_fraction`: the pair when the field is a fraction. -/
def gst_structure_get_fraction (s : GstStructure) (n : String) : Option (Int × Int) :=
  match gst_structure_get s n with
  | some (GValue.fraction a b) => some (a, b)
  | _ => none

/-! ## Format negotiator -/

/-- The `switch` of `vlc_to_gst_fmt`: the media type and codec specific
fields of each supported codec, `none` for the `default` label. -/
def codec_structure (K : HostConsts) (i_codec : Nat) : Option GstStructure :=
  if i_codec = K.VLC_CODEC_H264 then
    some (gst_structure_set (gst_structure_new_empty "video/x-h264")
      "alignment" (GValue.str "au"))
  else if i_codec = K.VLC_CODEC_MP4V then
    some (gst_structure_set (gst_structure_set (gst_structure_new_empty "video/mpeg")
      "mpegversion" (GValue.int 4)) "systemstream" (GValue.bool false))
  else if i_codec = K.VLC_CODEC_VP8 then
    some (gst_structure_new_empty "video/x-vp8")
  else if i_codec = K.VLC_CODEC_MPGV then
    some (gst_structure_set (gst_structure_set (gst_structure_new_empty "video/mpeg")
      "mpegversion" (GValue.int 2)) "systemstream" (GValue.bool false))
  else if i_codec = K.VLC_CODEC_FLV1 then
    some (gst_structure_set (gst_structure_new_empty "video/x-flash-video")
      "flvversion" (GValue.int 1))
  else if i_codec = K.VLC_CODEC_WMV1 then
    some (gst_structure_set (gst_structure_set (gst_structure_new_empty "video/x-wmv")
      "wmvversion" (GValue.int 1)) "format" (GValue.str "WMV1"))
  else if i_codec = K.VLC_CODEC_WMV2 then
    some (gst_structure_set (gst_structure_set (gst_structure_new_empty "video/x-wmv")
      "wmvversion" (GValue.int 2)) "format" (GValue.str "WMV2"))
  else if i_codec = K.VLC_CODEC_WMV3 then
    some (gst_structure_set (gst_structure_set (gst_structure_new_empty "video/x-wmv")
      "wmvversion" (GValue.int 3)) "format" (GValue.str "WMV3"))
  else if i_codec = K.VLC_CODEC_VC1 then
    some (gst_structure_set (gst_structure_set (gst_structure_new_empty "video/x-wmv")
      "wmvversion" (GValue.int 3)) "format" (GValue.str "WVC1"))
  else none

/-- `G_MAXINT`, the largest `gint`. -/
def G_MAXINT : Int := 2 ^ 31 - 1

/-- An `unsigned` argument of a variadic `gst_structure_set` call as the
collector reads it back (`va_arg` at type `gint`): the same 32 bits in two's
complement, so values from `2 ^ 31` on come out negative. -/
def as_gint (x : Nat) : Int :=
  if x % 2 ^ 32 < 2 ^ 31 then ((x % 2 ^ 32 : Nat) : Int)
  else ((x % 2 ^ 32 : Nat) : Int) - 2 ^ 32

/-- `gst_value_set_fraction`: the fraction is stored reduced to lowest terms,
with the sign moved to the numerator (the divisions are exact). -/
def gst_value_set_fraction (numerator denominator : Int) : GValue :=
  let n := if denominator < 0 then -numerator else numerator
  let d := if denominator < 0 then -denominator else denominator
  let gcd : Int := Int.gcd n d
  if gcd ≠ 0 then GValue.fraction (n / gcd) (d / gcd) else GValue.fraction n d

/-- Collection of the two `unsigned` arguments of a `GST_TYPE_FRACTION` field
in a variadic `gst_structure_set` call (`gst_value_collect_fraction`): both
are read as `gint`; a zero denominator or a term below `-G_MAXINT` is refused
and the field is then not set (`none`); otherwise the value is the one
`gst_value_set_fraction` stores. -/
def gst_value_collect_fraction (numerator denominator : Nat) : Option GValue :=
  if as_gint denominator = 0 ∨ as_gint numerator < -G_MAXINT ∨
      as_gint denominator < -G_MAXINT then none
  else some (gst_value_set_fraction (as_gint numerator) (as_gint denominator))

/-- A `gst_structure_set` call with one `GST_TYPE_FRACTION` field and two
`unsigned` arguments: the field is set to the collected value, and left alone
when the collector refuses the arguments. -/
def gst_structure_set_fraction (s : GstStructure) (n : String)
    (numerator denominator : Nat) : GstStructure :=
  match gst_value_collect_fraction numerator denominator with
  | some f => gst_structure_set s n f
  | none => s

/-- Geometry step of `vlc_to_gst_fmt`: width and height, passed as
`G_TYPE_INT` arguments, when both are non-zero. -/
def attach_geometry (v : video_format_t) (s : GstStructure) : GstStructure :=
  if v.i_width ≠ 0 ∧ v.i_height ≠ 0 then
    gst_structure_set (gst_structure_set s "width" (GValue.int (as_gint v.i_width)))
      "height" (GValue.int (as_gint v.i_height))
  else s

/-- Frame rate step of `vlc_to_gst_fmt`. -/
def attach_framerate (v : video_format_t) (s : GstStructure) : GstStructure :=
  if v.i_frame_rate ≠ 0 ∧ v.i_frame_rate_base ≠ 0 then
    gst_structure_set_fraction s "framerate" v.i_frame_rate v.i_frame_rate_base
  else s

/-- Aspect ratio step of `vlc_to_gst_fmt`. -/
def attach_aspect_ratio (v : video_format_t) (s : GstStructure) : GstStructure :=
  if v.i_sar_num ≠ 0 ∧ v.i_sar_den ≠ 0 then
    gst_structure_set_fraction s "pixel-aspect-ratio" v.i_sar_num v.i_sar_den
  else s

/-- `vlc_to_gst_fmt`.  `wrap_ok` says whether wrapping the configuration bytes
(`gst_buffer_new_wrapped_full`) yields a buffer; `none` is the `NULL` return.
The `unsigned` fields of `video_format_t` are passed to `gst_structure_set`
as `G_TYPE_INT` and `GST_TYPE_FRACTION` arguments, which are collected as
`gint`. -/
def vlc_to_gst_fmt (K : HostConsts) (wrap_ok : Bool) (p_fmt : es_format_t) :
    Option GstStructure :=
  match codec_structure K p_fmt.i_codec with
  | none => none
  | some s0 =>
    let s3 := attach_aspect_ratio p_fmt.video
      (attach_framerate p_fmt.video (attach_geometry p_fmt.video s0))
    if p_fmt.i_extra ≠ 0 then
      if wrap_ok then
        some (gst_structure_set s3 "codec_data"
          (GValue.buffer (gst_buffer_new_wrapped_full p_fmt.p_extra p_fmt.i_extra 0
            p_fmt.i_extra none)))
      else none
    else some s3

/-! ## Engine registry and selection -/

/-- `GstElementFactory` (a `GstPluginFeature`): its name and rank. -/
structure GstElementFactory where
  name : String
  rank : Nat
  deriving DecidableEq, Repr

/-- `GstElement`, identified by the factory (or bin name) it was made from. -/
structure GstElement where
  factory : String
  deriving DecidableEq, Repr

/-- `sink_src_caps_t`. -/
structure sink_src_caps_t where
  p_sinkcaps : GstCaps
  p_srccaps : GstCaps
  deriving DecidableEq, Repr

/-- Sign of `strcmp` on two character code sequences: the first position
where they differ decides, a proper initial segment comes first. -/
def strcmp_codes : List Nat → List Nat → Int
  | [], [] => 0
  | [], _ :: _ => -1
  | _ :: _, [] => 1
  | x :: xs, y :: ys => if x < y then -1 else if y < x then 1 else strcmp_codes xs ys

/-- Sign of `strcmp` on element names. -/
def strcmp (a b : String) : Int :=
  strcmp_codes (a.toList.map Char.toNat) (b.toList.map Char.toNat)

/-- `gst_plugin_feature_rank_compare_func`, the GStreamer comparator for
sorting features by rank and then by name: the rank difference (higher rank
first) and, for equal ranks, the `strcmp` of the names. -/
def gst_plugin_feature_rank_compare_func (p1 p2 : GstElementFactory) : Int :=
  let diff : Int := (p2.rank : Int) - (p1.rank : Int)
  if diff ≠ 0 then diff else strcmp p1.name p2.name

/-- `g_list_sort`: GLib merge sort; the list is cut in two halves, each is
sorted, and the merge takes the head of the left half when `compare (l, r) <= 0`. -/
def g_list_sort {α : Type} (l : List α) (compare_func : α → α → Int) : List α :=
  l.mergeSort (fun a b => decide (compare_func a b ≤ 0))

/-- `g_list_find_custom`: the first element on which `func` returns 0. -/
def g_list_find_custom {α β : Type} (l : List α) (data : β) (func : α → β → Int) :
    Option α :=
  l.find? (fun x => decide (func x data = 0))

/-- `find_decoder_func`: 0 when the factory can sink the query caps and can
source the raw caps, 1 otherwise.  The two capability tests are the
registry's (`gst_element_factory_can_sink_any_caps`, `..._can_src_any_caps`). -/
def find_decoder_func (can_sink_any_caps can_src_any_caps : GstElementFactory → GstCaps → Bool)
    (p_p1 : GstElementFactory) (p_p2 : sink_src_caps_t) : Int :=
  if can_sink_any_caps p_p1 p_p2.p_sinkcaps && can_src_any_caps p_p1 p_p2.p_srccaps
  then 0 else 1

/-! ## Status messages -/

/-- `GstMessageType`; `OTHER` stands for every type the module does not name. -/
inductive GstMessageType
  | GST_MESSAGE_EOS
  | GST_MESSAGE_ERROR
  | GST_MESSAGE_WARNING
  | GST_MESSAGE_INFO
  | GST_MESSAGE_ASYNC_DONE
  | OTHER (code : Nat)
  deriving DecidableEq, Repr

structure GstMessage where
  type : GstMessageType
  src : String := ""
  text : String := ""
  deriving DecidableEq, Repr

/-- `GstBus` as the ordered list of posted, not yet popped messages. -/
abbrev GstBus := List GstMessage

/-- `gst_bus_pop_filtered`: the first posted message whose type is in the
mask; the messages posted before it are discarded. -/
def gst_bus_pop_filtered : GstBus → (GstMessageType → Bool) → Option GstMessage × GstBus
  | [], _ => (none, [])
  | m :: rest, types =>
    if types m.type then (some m, rest) else gst_bus_pop_filtered rest types

/-- `gst_bus_timed_pop_filtered`: as above on the messages already posted
followed by those that arrive within the timeout. -/
def gst_bus_timed_pop_filtered (bus : GstBus) (arriving : List GstMessage)
    (types : GstMessageType → Bool) : Option GstMessage × GstBus :=
  gst_bus_pop_filtered (bus ++ arriving) types

/-- The message a `GST_ELEMENT_ERROR (..., STREAM, FAILED, ...)` posts. -/
def stream_error : GstMessage :=
  { type := GstMessageType.GST_MESSAGE_ERROR, src := "decoder", text := "vlc stream error" }

/-- `default_msg_handler`: logs errors, warnings and infos; the result is
`true` for an error message only. -/
def default_msg_handler (p_msg : GstMessage) : Bool :=
  match p_msg.type with
  | GstMessageType.GST_MESSAGE_ERROR => true
  | GstMessageType.GST_MESSAGE_WARNING => false
  | GstMessageType.GST_MESSAGE_INFO => false
  | _ => false

/-! ## Decoder state -/

/-- `GstVideoInfo` as filled by `gst_video_info_from_caps`. -/
structure GstVideoInfo where
  format : String := ""
  width : Nat := 0
  height : Nat := 0
  deriving DecidableEq, Repr

/-- `decoder_sys_t`; `none` is a `NULL` handle.  The queue and the bus are
represented by their contents. -/
structure decoder_sys_t where
  p_decoder : Option GstElement := none
  p_decode_src : Option GstElement := none
  p_decode_in : Option GstElement := none
  p_decode_out : Option GstElement := none
  p_bus : Option GstBus := none
  vinfo : GstVideoInfo := {}
  p_que : Option (List GstBuffer) := none
  b_prerolled : Bool := false
  b_running : Bool := false
  deriving DecidableEq, Repr

/-- `decoder_t`, the fields the module touches.  `pf_decode_video` says
whether `DecodeBlock` has been installed. -/
structure decoder_t where
  fmt_in : es_format_t := {}
  fmt_out : es_format_t := {}
  b_error : Bool := false
  b_need_packetized : Bool := false
  pf_decode_video : Bool := false
  p_sys : Option decoder_sys_t := none
  deriving DecidableEq, Repr

/-- The handles stored in `decoder_sys_t`. -/
inductive Handle
  | que
  | bus
  | decode_src
  | decode_in
  | decode_out
  | decoder
  deriving DecidableEq, Repr

/-- Library calls recorded in traces. -/
inductive Event
  | calloc_sys
  | free_sys
  | structure_free
  | sinkcaps_unref
  | srccaps_unref
  | feature_list_free
  | factory_create (f : GstElementFactory)
  | created (h : Handle)
  | object_ref (h : Handle)
  | object_unref (h : Handle)
  | set_bus
  | bin_add_many
  | set_state_playing
  | set_state_null
  | app_src_end_of_stream
  | bus_timed_pop (timeout : Nat)
  | seek_simple
  | buffer_unref (b : GstBuffer)
  | block_Release (b : block_t)
  | buffer_new_wrapped (b : block_t)
  | app_src_push_buffer (b : GstBuffer)
  | message_unref (m : GstMessage)
  | queue_pop (b : GstBuffer)
  deriving DecidableEq, Repr

/-! ## Teardown -/

/-- What the engine does while `CloseDecoder` runs: the messages reaching the
bus within the 2 second bound, and whether the state change to NULL succeeds. -/
structure CloseEnv where
  arriving : List GstMessage := []
  set_null_ok : Bool := true

structure CloseResult where
  dec : decoder_t
  trace : List Event
  deriving DecidableEq, Repr

def eos_or_error (t : GstMessageType) : Bool :=
  t = GstMessageType.GST_MESSAGE_EOS || t = GstMessageType.GST_MESSAGE_ERROR

/-- First part of `CloseDecoder` (`if( p_sys->b_running )`): send EOS and wait
for EOS or an error.  Returns the error flag, the bus and the calls made. -/
def close_wait (env : CloseEnv) (b_error : Bool) (sys : decoder_sys_t) :
    Bool × Option GstBus × List Event :=
  if sys.b_running then
    let tr := [Event.app_src_end_of_stream, Event.bus_timed_pop 2000000000]
    match sys.p_bus with
    | none => (b_error, none, tr)
    | some bus =>
      match gst_bus_timed_pop_filtered bus env.arriving eos_or_error with
      | (none, bus1) => (b_error, some bus1, tr)
      | (some m, bus1) =>
        match m.type with
        | GstMessageType.GST_MESSAGE_EOS => (b_error, some bus1, tr ++ [Event.message_unref m])
        | _ => (default_msg_handler m, some bus1, tr ++ [Event.message_unref m])
  else (b_error, sys.p_bus, [])

/-- The calls releasing one handle when it is not `NULL`. -/
def unref_if {α : Type} (field : Option α) (h : Handle) : List Event :=
  match field with
  | none => []
  | some _ => [Event.object_unref h]

/-- `CloseDecoder`.  `p_dec->p_sys` is not reassigned by the function; the
record it points to is given back as it is when `free` is called. -/
def CloseDecoder (env : CloseEnv) (p_dec : decoder_t) : CloseResult :=
  match p_dec.p_sys with
  | none => { dec := p_dec, trace := [] }
  | some sys =>
    let w := close_wait env p_dec.b_error sys
    let tr_que :=
      match sys.p_que with
      | none => []
      | some q => q.map Event.buffer_unref ++ [Event.object_unref Handle.que]
    let tr_state := if sys.b_running then [Event.set_state_null] else []
    let tr_obj :=
      unref_if w.2.1 Handle.bus ++ unref_if sys.p_decode_src Handle.decode_src ++
      unref_if sys.p_decode_in Handle.decode_in ++ unref_if sys.p_decode_out Handle.decode_out ++
      unref_if sys.p_decoder Handle.decoder
    { dec := { p_dec with
               b_error := w.1
               p_sys := some { sys with p_bus := w.2.1, p_que := sys.p_que.map (fun _ => []) } }
      trace := w.2.2 ++ tr_que ++ tr_state ++ tr_obj ++ [Event.free_sys] }

/-! ## Open: selection and pipeline construction -/

/-- What the libraries answer while `OpenDecoder` runs: each field is the
outcome of one call (`true` when the call yields a non-`NULL` handle, or
succeeds).  `decoders` is the list `gst_element_factory_list_get_elements`
returns for decoders of rank at least `GST_RANK_MARGINAL`, in registry
enumeration order (the empty list is `NULL`). -/
structure OpenEnv where
  wrap_ok : Bool := true
  calloc_ok : Bool := true
  use_decodebin : Bool := false
  decoders : List GstElementFactory := []
  can_sink_any_caps : GstElementFactory → GstCaps → Bool := fun _ _ => true
  can_src_any_caps : GstElementFactory → GstCaps → Bool := fun _ _ => true
  factory_create_ok : GstElementFactory → Bool := fun _ => true
  queue_new_ok : Bool := true
  appsrc_ok : Bool := true
  decodebin_ok : Bool := true
  fakesink_ok : Bool := true
  bin_new_ok : Bool := true
  bus_new_ok : Bool := true
  link_src_in_ok : Bool := true
  link_in_out_ok : Bool := true
  set_state_ok : Bool := true
  close : CloseEnv := {}

structure OpenResult where
  ret : VlcRet
  dec : decoder_t
  trace : List Event
  deriving DecidableEq, Repr

/-- The `fail:` label of `OpenDecoder`: drop the caps and the feature list
that are still held, run `CloseDecoder`, return `i_rval`. -/
def open_fail (env : OpenEnv) (p_dec : decoder_t) (sys : decoder_sys_t)
    (sinkcaps srccaps p_list : Bool) (i_rval : VlcRet) (tr : List Event) : OpenResult :=
  let c := CloseDecoder env.close { p_dec with p_sys := some sys }
  { ret := i_rval
    dec := c.dec
    trace := tr ++ (if sinkcaps then [Event.sinkcaps_unref] else []) ++
      (if srccaps then [Event.srccaps_unref] else []) ++
      (if p_list then [Event.feature_list_free] else []) ++ c.trace }

/-- `OpenDecoder` from the first link to the end. -/
def open_link (env : OpenEnv) (p_dec : decoder_t) (sys : decoder_sys_t)
    (tr : List Event) : OpenResult :=
  if !env.link_src_in_ok then
    open_fail env p_dec sys false false false VlcRet.VLC_EGENERIC tr
  else if !env.use_decodebin && !env.link_in_out_ok then
    open_fail env p_dec sys false false false VlcRet.VLC_EGENERIC tr
  else
    let d1 := { p_dec with fmt_out := { p_dec.fmt_out with i_cat := p_dec.fmt_in.i_cat } }
    let tr1 := tr ++ [Event.set_state_playing]
    if !env.set_state_ok then
      open_fail env d1 sys false false false VlcRet.VLC_EGENERIC tr1
    else
      { ret := VlcRet.VLC_SUCCESS
        dec := { d1 with
                 b_need_packetized := true
                 pf_decode_video := true
                 p_sys := some { sys with b_running := true } }
        trace := tr1 }

/-- `OpenDecoder` at the creation of the bus; the bus is set on the bin, the
three stages are added to the bin and referenced, then the links are made. -/
def open_bus (env : OpenEnv) (p_dec : decoder_t) (sys : decoder_sys_t)
    (tr : List Event) : OpenResult :=
  if !env.bus_new_ok then
    open_fail env p_dec sys false false false VlcRet.VLC_ENOMOD tr
  else
    open_link env p_dec { sys with p_bus := some [] }
      (tr ++ [Event.created Handle.bus, Event.set_bus, Event.bin_add_many,
        Event.object_ref Handle.decode_src, Event.object_ref Handle.decode_in,
        Event.object_ref Handle.decode_out])

/-- `OpenDecoder` at `gst_bin_new ("decoder")`. -/
def open_bin (env : OpenEnv) (p_dec : decoder_t) (sys : decoder_sys_t)
    (tr : List Event) : OpenResult :=
  if !env.bin_new_ok then
    open_fail env p_dec sys false false false VlcRet.VLC_ENOMOD tr
  else
    open_bus env p_dec { sys with p_decoder := some { factory := "decoder" } }
      (tr ++ [Event.created Handle.decoder])

/-- `OpenDecoder` at the creation of the fakesink. -/
def open_sink (env : OpenEnv) (p_dec : decoder_t) (sys : decoder_sys_t)
    (tr : List Event) : OpenResult :=
  if !env.fakesink_ok then
    open_fail env p_dec sys false false false VlcRet.VLC_ENOMOD tr
  else
    open_bin env p_dec { sys with p_decode_out := some { factory := "fakesink" } }
      (tr ++ [Event.created Handle.decode_out])

/-- `OpenDecoder` at `if( dbin )`: the decodebin is created in auto mode. -/
def open_decodebin (env : OpenEnv) (p_dec : decoder_t) (sys : decoder_sys_t)
    (tr : List Event) : OpenResult :=
  if env.use_decodebin then
    if !env.decodebin_ok then
      open_fail env p_dec sys false false false VlcRet.VLC_ENOMOD tr
    else
      open_sink env p_dec { sys with p_decode_in := some { factory := "decodebin" } }
        (tr ++ [Event.created Handle.decode_in])
  else open_sink env p_dec sys tr

/-- `OpenDecoder` at the creation of the appsrc; the sink caps are handed to
it and dropped. -/
def open_src (env : OpenEnv) (p_dec : decoder_t) (sys : decoder_sys_t)
    (tr : List Event) : OpenResult :=
  if !env.appsrc_ok then
    open_fail env p_dec sys true false false VlcRet.VLC_ENOMOD tr
  else
    open_decodebin env p_dec { sys with p_decode_src := some { factory := "appsrc" } }
      (tr ++ [Event.created Handle.decode_src, Event.sinkcaps_unref])

/-- `OpenDecoder` from the reset of the two flags and the creation of the
queue on. -/
def open_build (env : OpenEnv) (p_dec : decoder_t) (sys0 : decoder_sys_t)
    (tr : List Event) : OpenResult :=
  let sys := { sys0 with b_prerolled := false, b_running := false }
  if !env.queue_new_ok then
    open_fail env p_dec sys true false false VlcRet.VLC_ENOMEM tr
  else
    open_src env p_dec { sys with p_que := some [] } (tr ++ [Event.created Handle.que])

/-- `OpenDecoder` from the enumeration of the decoders to the release of the
feature list: the engine selector. -/
def open_select (env : OpenEnv) (p_dec : decoder_t) (sys : decoder_sys_t)
    (caps : sink_src_caps_t) (tr : List Event) : OpenResult :=
  let find := find_decoder_func env.can_sink_any_caps env.can_src_any_caps
  match env.decoders with
  | [] => open_fail env p_dec sys true true false VlcRet.VLC_ENOMOD tr
  | p_list =>
    if !env.use_decodebin then
      match g_list_sort p_list gst_plugin_feature_rank_compare_func with
      | [] => open_fail env p_dec sys true true false VlcRet.VLC_ENOMOD tr
      | sorted =>
        match g_list_find_custom sorted caps find with
        | none => open_fail env p_dec sys true true true VlcRet.VLC_ENOMOD tr
        | some f =>
          if !env.factory_create_ok f then
            open_fail env p_dec sys true true true VlcRet.VLC_ENOMOD
              (tr ++ [Event.factory_create f])
          else
            open_build env p_dec { sys with p_decode_in := some { factory := f.name } }
              (tr ++ [Event.factory_create f, Event.created Handle.decode_in,
                Event.feature_list_free, Event.srccaps_unref])
    else
      match g_list_find_custom p_list caps find with
      | none => open_fail env p_dec sys true true true VlcRet.VLC_ENOMOD tr
      | some _ => open_build env p_dec sys (tr ++ [Event.feature_list_free, Event.srccaps_unref])

/-- `OpenDecoder`.  An unsupported codec returns `VLC_EGENERIC` before
anything is allocated; `calloc` gives a zeroed `decoder_sys_t`. -/
def OpenDecoder (K : HostConsts) (env : OpenEnv) (p_dec : decoder_t) : OpenResult :=
  match vlc_to_gst_fmt K env.wrap_ok p_dec.fmt_in with
  | none => { ret := VlcRet.VLC_EGENERIC, dec := p_dec, trace := [] }
  | some p_str =>
    if !env.calloc_ok then
      { ret := VlcRet.VLC_ENOMEM, dec := p_dec, trace := [Event.structure_free] }
    else
      let caps : sink_src_caps_t :=
        { p_sinkcaps := [p_str], p_srccaps := [gst_structure_new_empty "video/x-raw"] }
      open_select env p_dec {} caps [Event.calloc_sys]

/-- The factory `OpenDecoder` hands to `gst_element_factory_create` in
explicit mode, for the caps query `caps`: the `p_l->data` of the source. -/
def selected_factory (env : OpenEnv) (caps : sink_src_caps_t) : Option GstElementFactory :=
  g_list_find_custom (g_list_sort env.decoders gst_plugin_feature_rank_compare_func) caps
    (find_decoder_func env.can_sink_any_caps env.can_src_any_caps)

/-! ## Output format resolver and sink callback -/

/-- Store of a `gint` through a pointer to an `unsigned int` field. -/
def toU32 (x : Int) : Nat := (x % 2 ^ 32).toNat

/-- What the libraries answer in the callbacks: `gst_video_info_from_caps`
and the host lookup `vlc_fourcc_GetCodecFromString (VIDEO_ES, ...)`, whose
result 0 means that the tag is not known. -/
structure CbEnv where
  video_info_from_caps : GstCaps → Option GstVideoInfo
  GetCodecFromString : Option String → Nat

/-- Geometry step of `set_vout_format`: the two `gst_structure_get_int` calls. -/
def resolve_geometry (p_str : GstStructure) (v : video_format_t) : video_format_t :=
  let v := match gst_structure_get_int p_str "width" with
    | some w => { v with i_width := toU32 w }
    | none => v
  match gst_structure_get_int p_str "height" with
  | some h => { v with i_height := toU32 h }
  | none => v

/-- Aspect ratio step of `set_vout_format`, with the fallback to 1:1. -/
def resolve_sar (p_str : GstStructure) (v : video_format_t) : video_format_t :=
  let par := gst_structure_get_fraction p_str "pixel-aspect-ratio"
  let v := match par with
    | some (n, d) => { v with i_sar_num := toU32 n, i_sar_den := toU32 d }
    | none => v
  if par.isNone || v.i_sar_num = 0 || v.i_sar_den = 0
  then { v with i_sar_num := 1, i_sar_den := 1 } else v

/-- Frame rate step of `set_vout_format`, with the fallback to the input. -/
def resolve_frame_rate (p_str : GstStructure) (p_infmt : es_format_t) (v : video_format_t) :
    video_format_t :=
  let fr := gst_structure_get_fraction p_str "framerate"
  let v := match fr with
    | some (n, d) => { v with i_frame_rate := toU32 n, i_frame_rate_base := toU32 d }
    | none => v
  if fr.isNone || v.i_frame_rate = 0 || v.i_frame_rate_base = 0
  then { v with i_frame_rate := p_infmt.video.i_frame_rate,
                i_frame_rate_base := p_infmt.video.i_frame_rate_base } else v

/-- `set_vout_format`: the result flag and `*p_outfmt` after the call. The
pixel format is looked up first and stored even when it is 0, in which case
nothing else is written. -/
def set_vout_format (GetCodecFromString : Option String → Nat) (p_str : GstStructure)
    (p_infmt p_outfmt : es_format_t) : Bool × es_format_t :=
  let o := { p_outfmt with i_codec := GetCodecFromString (gst_structure_get_string p_str "format") }
  if o.i_codec = 0 then (false, o)
  else
    (true, { o with
      video := resolve_frame_rate p_str p_infmt
        (resolve_sar p_str (resolve_geometry p_str o.video)) })

/-- `GST_ELEMENT_ERROR (p_sys->p_decoder, STREAM, FAILED, ...)`: an error
message is posted on the bus of the pipeline. -/
def post_stream_error (p_dec : decoder_t) : decoder_t :=
  { p_dec with
    p_sys := p_dec.p_sys.map (fun sys =>
      { sys with p_bus := sys.p_bus.map (fun bus => bus ++ [stream_error]) }) }

/-- `set_out_fmt` on a pad whose current caps are `p_caps`. -/
def set_out_fmt (env : CbEnv) (p_dec : decoder_t) (p_caps : GstCaps) : Bool × decoder_t :=
  match env.video_info_from_caps p_caps with
  | none => (false, post_stream_error p_dec)
  | some vinfo =>
    let d : decoder_t :=
      { p_dec with
        p_sys := p_dec.p_sys.map (fun (sys : decoder_sys_t) => { sys with vinfo := vinfo }) }
    let p_str := p_caps.headD (gst_structure_new_empty "")
    let r := set_vout_format env.GetCodecFromString p_str d.fmt_in d.fmt_out
    if !r.1 then (false, post_stream_error { d with fmt_out := r.2 })
    else (true, { d with fmt_out := r.2 })

/-- `gst_atomic_queue_push (p_sys->p_que, gst_buffer_ref (p_buf))`. -/
def queue_push (p_dec : decoder_t) (p_buf : GstBuffer) : decoder_t :=
  { p_dec with
    p_sys := p_dec.p_sys.map (fun sys =>
      { sys with p_que := sys.p_que.map (fun q => q ++ [p_buf]) }) }

/-- `frame_handoff_cb`: `pad_caps` is `none` when the pad has no current caps. -/
def frame_handoff_cb (env : CbEnv) (p_dec : decoder_t) (p_buf : GstBuffer)
    (pad_caps : Option GstCaps) : decoder_t :=
  if p_dec.fmt_out.i_codec = 0 then
    match pad_caps with
    | none => post_stream_error p_dec
    | some p_caps =>
      let r := set_out_fmt env p_dec p_caps
      if !r.1 then r.2 else queue_push r.2 p_buf
  else queue_push p_dec p_buf

/-! ## Pictures and the frame copy -/

/-- `plane_t`: the pixel bytes, the pitch and the number of lines. -/
structure plane_t where
  p_pixels : List Nat := []
  i_pitch : Nat := 0
  i_lines : Nat := 0
  deriving DecidableEq, Repr

/-- `picture_t`. -/
structure picture_t where
  date : Int := 0
  p : List plane_t := []
  i_planes : Nat := 0
  deriving DecidableEq, Repr

/-- One plane of a mapped `GstVideoFrame`: `GST_VIDEO_FRAME_PLANE_DATA`,
`..._PLANE_STRIDE`, `..._COMP_WIDTH`, `..._COMP_PSTRIDE`, `..._COMP_HEIGHT`. -/
structure frame_plane_t where
  data : List Nat := []
  stride : Nat := 0
  comp_width : Nat := 0
  comp_pstride : Nat := 0
  comp_height : Nat := 0
  deriving DecidableEq, Repr

structure GstVideoFrame where
  planes : List frame_plane_t := []
  deriving DecidableEq, Repr

/-- `memcpy (dst + d_off, src + s_off, n)` on byte lists. -/
def memcpy (dst : List Nat) (d_off : Nat) (src : List Nat) (s_off n : Nat) : List Nat :=
  dst.take d_off ++ ((src.drop s_off).take n ++ dst.drop (d_off + n))

/-- Inner loop of `gst_CopyPicture` for one plane. -/
def copy_plane (dst : plane_t) (src : frame_plane_t) : plane_t :=
  let i_w := src.comp_width * src.comp_pstride
  { dst with
    p_pixels := List.foldl
      (fun px i_line => memcpy px (i_line * dst.i_pitch) src.data (i_line * src.stride) i_w)
      dst.p_pixels (List.range (min dst.i_lines src.comp_height)) }

/-- `gst_CopyPicture`. -/
def gst_CopyPicture (p_pic : picture_t) (p_frame : GstVideoFrame) : picture_t :=
  { p_pic with
    p := p_pic.p.enum.map (fun ip =>
      if ip.1 < p_pic.i_planes then
        match p_frame.planes.get? ip.1 with
        | some fp => copy_plane ip.2 fp
        | none => ip.2
      else ip.2) }

/-! ## Decode driver -/

/-- What the libraries and the host answer during one `DecodeBlock` call:
whether the input wrap yields a buffer, whether `gst_app_src_push_buffer`
returns `GST_FLOW_OK`, the picture `decoder_NewPicture` hands out (if any) and
the result of `gst_video_frame_map`.  The engine does not run inside a call:
what it queues or posts is applied between calls. -/
structure DecodeEnv where
  wrap_ok : Bool := true
  push_ok : Bool := true
  new_picture : Option picture_t := none
  frame_map : GstVideoInfo → GstBuffer → Option GstVideoFrame := fun _ _ => none

/-- Result of a `DecodeBlock` call: the decoder after the call, the returned
picture, the caller slot `*pp_block` (`none` when `pp_block` itself is `NULL`)
and the calls made. -/
structure DecodeResult where
  dec : decoder_t
  pic : Option picture_t
  pp_block : Option (Option block_t)
  trace : List Event
  deriving DecidableEq, Repr

/-- The `done:` label: the slot is cleared and `p_pic` returned. -/
def decode_done (p_dec : decoder_t) (sys : decoder_sys_t) (p_pic : Option picture_t)
    (tr : List Event) : DecodeResult :=
  { dec := { p_dec with p_sys := some sys }, pic := p_pic, pp_block := some none, trace := tr }

/-- The message types `DecodeBlock` polls for. -/
def decode_mask (t : GstMessageType) : Bool :=
  t = GstMessageType.GST_MESSAGE_ASYNC_DONE || t = GstMessageType.GST_MESSAGE_ERROR ||
  t = GstMessageType.GST_MESSAGE_EOS || t = GstMessageType.GST_MESSAGE_WARNING ||
  t = GstMessageType.GST_MESSAGE_INFO

/-- The date `DecodeBlock` gives the picture: the presentation time of the
unit scaled back to host units when `GST_BUFFER_PTS_IS_VALID`, otherwise the
date the picture came with. -/
def stamp_picture (p_pic : picture_t) (p_buf : GstBuffer) : picture_t :=
  if p_buf.pts ≠ GST_CLOCK_TIME_NONE then
    { p_pic with date := (gst_util_uint64_scale p_buf.pts GST_MSECOND GST_SECOND : Nat) }
  else p_pic

/-- `DecodeBlock` from "Look for any output buffers in the queue" on. -/
def decode_output (env : DecodeEnv) (p_dec : decoder_t) (sys : decoder_sys_t)
    (tr : List Event) : DecodeResult :=
  match sys.p_que with
  | none => decode_done p_dec sys none tr
  | some [] => decode_done p_dec sys none tr
  | some (p_buf :: rest) =>
    match env.new_picture with
    | none => decode_done p_dec sys none tr
    | some p_pic =>
      let sys1 := { sys with p_que := some rest }
      let tr1 := tr ++ [Event.queue_pop p_buf]
      let p_pic1 := stamp_picture p_pic p_buf
      match env.frame_map sys.vinfo p_buf with
      | none =>
        decode_done { p_dec with b_error := true } sys1 (some p_pic1)
          (tr1 ++ [Event.buffer_unref p_buf])
      | some frame =>
        decode_done p_dec sys1 (some (gst_CopyPicture p_pic1 frame))
          (tr1 ++ [Event.buffer_unref p_buf])

/-- `DecodeBlock` from the `check_messages:` label on. -/
def decode_messages (env : DecodeEnv) (p_dec : decoder_t) (sys : decoder_sys_t)
    (tr : List Event) : DecodeResult :=
  match sys.p_bus with
  | none => decode_output env p_dec sys tr
  | some bus =>
    match gst_bus_pop_filtered bus decode_mask with
    | (none, bus1) => decode_output env p_dec { sys with p_bus := some bus1 } tr
    | (some p_msg, bus1) =>
      let sys1 := { sys with p_bus := some bus1 }
      let tr1 := tr ++ [Event.message_unref p_msg]
      match p_msg.type with
      | GstMessageType.GST_MESSAGE_EOS => decode_output env p_dec sys1 tr1
      | GstMessageType.GST_MESSAGE_ASYNC_DONE =>
        decode_output env p_dec { sys1 with b_prerolled := true } tr1
      | _ =>
        let d := { p_dec with b_error := default_msg_handler p_msg }
        if d.b_error then decode_done d sys1 none tr1
        else decode_output env d sys1 tr1

/-- The input unit `DecodeBlock` builds from a block: the zero-copy wrap and
the three clock fields. -/
def input_buffer (K : HostConsts) (fmt_in : es_format_t) (p_block : block_t) : GstBuffer :=
  let b := gst_buffer_new_wrapped_full p_block.p_start p_block.i_size
    (p_block.p_buffer - p_block.p_start) p_block.i_buffer (some p_block)
  let b := if p_block.i_dts > K.VLC_TS_INVALID then
      { b with dts := gst_util_uint64_scale (toU64 p_block.i_dts) GST_SECOND GST_MSECOND }
    else b
  let b := if p_block.i_pts ≤ K.VLC_TS_INVALID then { b with pts := b.dts }
    else { b with pts := gst_util_uint64_scale (toU64 p_block.i_pts) GST_SECOND GST_MSECOND }
  let b := if p_block.i_length > K.VLC_TS_INVALID then
      { b with duration := gst_util_uint64_scale (toU64 p_block.i_length) GST_SECOND GST_MSECOND }
    else b
  if fmt_in.video.i_frame_rate ≠ 0 ∧ fmt_in.video.i_frame_rate_base ≠ 0 then
    { b with
      duration := (gst_util_uint64_scale GST_SECOND fmt_in.video.i_frame_rate_base
        fmt_in.video.i_frame_rate) }
  else b

/-- `DecodeBlock`.  `pp_block = none` is a `NULL` pointer, `some none` a
pointer to a `NULL` block (flush call).  The function is only installed on a
decoder whose `p_sys` is allocated; on `p_sys = none` nothing is done. -/
def DecodeBlock (K : HostConsts) (env : DecodeEnv) (p_dec : decoder_t)
    (pp_block : Option (Option block_t)) : DecodeResult :=
  match pp_block with
  | none => { dec := p_dec, pic := none, pp_block := none, trace := [] }
  | some slot =>
    match p_dec.p_sys with
    | none => { dec := p_dec, pic := none, pp_block := some slot, trace := [] }
    | some sys =>
      match slot with
      | none => decode_messages env p_dec sys []
      | some p_block =>
        if p_block.i_flags &&& (K.BLOCK_FLAG_DISCONTINUITY ||| K.BLOCK_FLAG_CORRUPTED) ≠ 0 then
          if p_block.i_flags &&& K.BLOCK_FLAG_DISCONTINUITY ≠ 0 then
            decode_done p_dec
              { sys with p_que := sys.p_que.map (fun _ => []), b_prerolled := false } none
              ([Event.seek_simple] ++
                ((sys.p_que.getD []).map
                  (fun b => [Event.queue_pop b, Event.buffer_unref b])).flatten
                ++ [Event.block_Release p_block])
          else decode_done p_dec sys none [Event.block_Release p_block]
        else if p_block.i_buffer ≠ 0 then
          if !env.wrap_ok then
            decode_done { p_dec with b_error := true } sys none [Event.block_Release p_block]
          else
            let p_buf := input_buffer K p_dec.fmt_in p_block
            let tr := [Event.buffer_new_wrapped p_block, Event.app_src_push_buffer p_buf]
            if !env.push_ok then decode_done { p_dec with b_error := true } sys none tr
            else decode_messages env p_dec sys tr
        else decode_messages env p_dec sys [Event.block_Release p_block]

/-! ## Vocabulary of the properties and sample inputs -/

/-- The codec identifiers with a `case` label in `vlc_to_gst_fmt`. -/
def supported_codec (K : HostConsts) (c : Nat) : Prop :=
  c = K.VLC_CODEC_H264 ∨ c = K.VLC_CODEC_MP4V ∨ c = K.VLC_CODEC_VP8 ∨ c = K.VLC_CODEC_MPGV ∨
  c = K.VLC_CODEC_FLV1 ∨ c = K.VLC_CODEC_WMV1 ∨ c = K.VLC_CODEC_WMV2 ∨ c = K.VLC_CODEC_WMV3 ∨
  c = K.VLC_CODEC_VC1

instance (K : HostConsts) (c : Nat) : Decidable (supported_codec K c) := by
  unfold supported_codec; infer_instance

/-- Two decoders of equal rank. -/
def vdec_a : GstElementFactory := { name := "vdec_a", rank := 256 }

def vdec_b : GstElementFactory := { name := "vdec_b", rank := 256 }

/-- A registry listing in which both decoders accept every query: `vdec_b` is
enumerated first, `vdec_a` second. -/
def tieEnv : OpenEnv := { decoders := [vdec_b, vdec_a] }

/-- A decoder opened on a bare H264 input format. -/
def h264Dec : decoder_t :=
  { fmt_in := { i_codec := hostDefaults.VLC_CODEC_H264 } }

/-- Two results agree on everything but the decoder fields outside `p_sys`:
same picture, same calls, same `decoder_sys_t`, same caller slot. -/
def same_effects (r r' : DecodeResult) : Prop :=
  r.pic = r'.pic ∧ r.trace = r'.trace ∧ r.dec.p_sys = r'.dec.p_sys ∧ r.pp_block = r'.pp_block

/-- A decoded unit with a presentation time of 40 ms. -/
def unit0 : GstBuffer := { size := 16, pts := 40000000 }

/-- A running decoder with one queued unit and an error pending on the bus. -/
def errDec : decoder_t :=
  { p_sys := some { p_que := some [unit0], p_bus := some [stream_error], b_running := true } }

/-- A plain input block: ten payload bytes, no flag. -/
def plainBlock : block_t :=
  { i_size := 10, i_buffer := 10, i_pts := 1000, i_dts := 1000 }

/-- A host that hands out a picture and an engine whose units map. -/
def okEnv : DecodeEnv :=
  { new_picture := some {}, frame_map := fun _ _ => some {} }

/-! ### Construction traces -/

/-- A trace in which every handle is created at most once and released as
often as it was created, the end-of-stream handshake and the state change to
NULL do not occur, and `decoder_sys_t` is freed once. -/
def cleaned (t : List Event) : Prop :=
  (∀ h : Handle, t.count (Event.created h) ≤ 1 ∧
    t.count (Event.object_unref h) = t.count (Event.created h)) ∧
  Event.app_src_end_of_stream ∉ t ∧
  (∀ n, Event.bus_timed_pop n ∉ t) ∧
  Event.set_state_null ∉ t ∧
  t.count Event.free_sys = 1

/-- A failed open has a cleaned trace. -/
def fail_clean (r : OpenResult) : Prop :=
  r.ret ≠ VlcRet.VLC_SUCCESS → cleaned r.trace

/-- Whether the field of `decoder_sys_t` for a handle is set. -/
def handle_set (sys : decoder_sys_t) : Handle → Bool
  | Handle.que => sys.p_que.isSome
  | Handle.bus => sys.p_bus.isSome
  | Handle.decode_src => sys.p_decode_src.isSome
  | Handle.decode_in => sys.p_decode_in.isSome
  | Handle.decode_out => sys.p_decode_out.isSome
  | Handle.decoder => sys.p_decoder.isSome

/-- Events that neither create nor release a handle and belong to neither
the end-of-stream handshake nor the final `free`. -/
def neutral : Event → Bool
  | Event.created _ => false
  | Event.object_unref _ => false
  | Event.app_src_end_of_stream => false
  | Event.bus_timed_pop _ => false
  | Event.set_state_null => false
  | Event.free_sys => false
  | _ => true

/-- State of a construction under way: not running, nothing queued, the
trace holds one creation for each handle that is set and nothing else that
counts. -/
def building (sys : decoder_sys_t) (tr : List Event) : Prop :=
  sys.b_running = false ∧ (∀ q, sys.p_que = some q → q = []) ∧
  ∀ e ∈ tr, neutral e = true ∨ ∃ h, e = Event.created h

/-- Number of creations of each handle while building. -/
def created_once (sys : decoder_sys_t) (tr : List Event) : Prop :=
  ∀ h, tr.count (Event.created h) = if handle_set sys h then 1 else 0

/-- Invariant of the construction. -/
def inv (sys : decoder_sys_t) (tr : List Event) : Prop :=
  building sys tr ∧ created_once sys tr

/-- Every step from the queue to the state change succeeds. -/
def build_ok (env : OpenEnv) : Prop :=
  env.queue_new_ok = true ∧ env.appsrc_ok = true ∧
  (env.use_decodebin = true → env.decodebin_ok = true) ∧
  env.fakesink_ok = true ∧ env.bin_new_ok = true ∧ env.bus_new_ok = true ∧
  env.link_src_in_ok = true ∧ (env.use_decodebin = false → env.link_in_out_ok = true) ∧
  env.set_state_ok = true

/-- Every step of the selection and of the construction succeeds: the
decoder list is not empty, the search finds a factory (which, in explicit
mode, is the one on the sorted list and can be instantiated), and the
pipeline is built, linked and set to playing. -/
def construction_ok (env : OpenEnv) (caps : sink_src_caps_t) : Prop :=
  env.decoders ≠ [] ∧
  (if env.use_decodebin = true then
      (g_list_find_custom env.decoders caps
        (find_decoder_func env.can_sink_any_caps env.can_src_any_caps)).isSome = true
    else ∃ f, selected_factory env caps = some f ∧ env.factory_create_ok f = true) ∧
  build_ok env

/-- An auto mode environment in which the fakesink cannot be created. -/
def noSinkEnv : OpenEnv :=
  { use_decodebin := true, decoders := [vdec_a], fakesink_ok := false }

/-! ### Queue contents, pushes and sequences of calls -/

/-- The units popped from the queue, in the order of the calls. -/
def popped : List Event → List GstBuffer
  | [] => []
  | Event.queue_pop b :: t => b :: popped t
  | _ :: t => popped t

/-- The units handed to the source, in the order of the calls. -/
def pushed : List Event → List GstBuffer
  | [] => []
  | Event.app_src_push_buffer b :: t => b :: pushed t
  | _ :: t => pushed t

/-- The queue of a decoder (empty when there is none). -/
def queue_of (d : decoder_t) : List GstBuffer :=
  match d.p_sys with
  | some sys => sys.p_que.getD []
  | none => []

/-- A running decoder with one queued unit and nothing on the bus. -/
def oneUnitDec : decoder_t :=
  { p_sys := some { p_que := some [unit0], p_bus := some [], b_running := true } }

/-- A host that hands out a picture and an engine whose unit cannot be mapped. -/
def noMapEnv : DecodeEnv :=
  { new_picture := some {}, frame_map := fun _ _ => none }

/-- One step of a decoder's life between open and close: the sink hands a
unit to `frame_handoff_cb`, or the host calls `DecodeBlock`. -/
inductive Step
  | handoff (cb : CbEnv) (p_buf : GstBuffer) (pad_caps : Option GstCaps)
  | decode (env : DecodeEnv) (pp_block : Option (Option block_t))

/-- The decoder after a sequence of steps, with the calls made by the
`DecodeBlock` steps. -/
def run (K : HostConsts) : decoder_t → List Step → decoder_t × List Event
  | d, [] => (d, [])
  | d, Step.handoff cb b c :: t => run K (frame_handoff_cb cb d b c) t
  | d, Step.decode env pp :: t =>
    ((run K (DecodeBlock K env d pp).dec t).1,
      (DecodeBlock K env d pp).trace ++ (run K (DecodeBlock K env d pp).dec t).2)

/-- The units the sink handed over during a sequence of steps. -/
def handed : List Step → List GstBuffer
  | [] => []
  | Step.handoff _ b _ :: t => b :: handed t
  | Step.decode _ _ :: t => handed t

/-- The block of the call carries the discontinuity flag. -/
def is_discontinuity (K : HostConsts) (pp : Option (Option block_t)) : Prop :=
  ∃ blk, pp = some (some blk) ∧ blk.i_flags &&& K.BLOCK_FLAG_DISCONTINUITY ≠ 0

/-- The engine units released (`gst_buffer_unref`), in the order of the calls. -/
def released : List Event → List GstBuffer
  | [] => []
  | Event.buffer_unref b :: t => b :: released t
  | _ :: t => released t

/-- A second decoded unit, 40 ms after `unit0`. -/
def unit1 : GstBuffer := { size := 16, pts := 80000000 }

/-- A running decoder with two queued units, already prerolled. -/
def twoUnitDec : decoder_t :=
  { p_sys := some { p_que := some [unit0, unit1], p_bus := some [], b_prerolled := true,
                    b_running := true } }

/-- A block carrying the discontinuity flag. -/
def discBlock : block_t :=
  { i_size := 10, i_buffer := 10, i_flags := hostDefaults.BLOCK_FLAG_DISCONTINUITY }

/-- A decoder with an empty queue and an error pending on the bus. -/
def emptyErrDec : decoder_t :=
  { p_sys := some { p_que := some [], p_bus := some [stream_error], b_running := true } }

/-- A decoder as a successful open leaves it, with two units still queued. -/
def runningDec : decoder_t :=
  { pf_decode_video := true, b_need_packetized := true,
    p_sys := some
      { p_decoder := some { factory := "decoder" }, p_decode_src := some { factory := "appsrc" },
        p_decode_in := some { factory := "vdec_a" },
        p_decode_out := some { factory := "fakesink" }, p_bus := some [],
        p_que := some [unit0, unit1], b_prerolled := true, b_running := true } }

/-- The part of `CloseDecoder` after the wait: the queue is emptied and
released, the pipeline set to NULL, the handles and the state released. -/
def close_tail (sys : decoder_sys_t) : List Event :=
  (match sys.p_que with
    | none => []
    | some q => q.map Event.buffer_unref ++ [Event.object_unref Handle.que]) ++
  [Event.set_state_null] ++
  (unref_if sys.p_bus Handle.bus ++ unref_if sys.p_decode_src Handle.decode_src ++
   unref_if sys.p_decode_in Handle.decode_in ++ unref_if sys.p_decode_out Handle.decode_out ++
   unref_if sys.p_decoder Handle.decoder) ++ [Event.free_sys]

/-- The messages on the bus of a decoder (none when there is no bus). -/
def bus_of (d : decoder_t) : List GstMessage :=
  match d.p_sys with
  | some sys => sys.p_bus.getD []
  | none => []

/-- The decoder has a bridge queue. -/
def has_queue (d : decoder_t) : Prop :=
  (d.p_sys.bind (fun sys => sys.p_que)).isSome = true

/-- The decoder has a bus. -/
def has_bus (d : decoder_t) : Prop :=
  (d.p_sys.bind (fun sys => sys.p_bus)).isSome = true

/-- The video info of the decoder, if it has a state. -/
def vinfo_of (d : decoder_t) : Option GstVideoInfo :=
  d.p_sys.map (fun sys => sys.vinfo)

/-- A host whose pixel format lookup knows the tag I420 only, with an engine
whose caps always give a video info. -/
def cbI420 : CbEnv :=
  { video_info_from_caps := fun _ => some { format := "I420" }
    GetCodecFromString := fun s => if s = some "I420" then VLC_FOURCC 'I' '4' '2' '0' else 0 }

/-- Raw video caps structure with the given format tag, 1920x1080 at
30000/1001, without pixel-aspect-ratio. -/
def rawStructure (tag : String) : GstStructure :=
  gst_structure_set (gst_structure_set (gst_structure_set (gst_structure_set
    (gst_structure_new_empty "video/x-raw") "format" (GValue.str tag))
    "width" (GValue.int 1920)) "height" (GValue.int 1080))
    "framerate" (GValue.fraction 30000 1001)

/-- A running decoder whose output format is not resolved yet, one unit
queued, nothing on the bus. -/
def unresolvedDec : decoder_t :=
  { fmt_in := { i_codec := hostDefaults.VLC_CODEC_H264,
                video := { i_frame_rate := 25, i_frame_rate_base := 1 } }
    p_sys := some { p_que := some [unit0], p_bus := some [], b_running := true } }


/-- A running decoder whose output format is resolved to I420 1920x1080. -/
def resolvedDec : decoder_t :=
  { fmt_in := { i_codec := hostDefaults.VLC_CODEC_H264 }
    fmt_out := { i_codec := VLC_FOURCC 'I' '4' '2' '0',
                 video := { i_width := 1920, i_height := 1080, i_sar_num := 1, i_sar_den := 1,
                            i_frame_rate := 30000, i_frame_rate_base := 1001 } }
    p_sys := some { p_que := some [unit0], p_bus := some [], b_running := true,
                    vinfo := { format := "I420", width := 1920, height := 1080 } } }

/-- The harvest of this call meets a head unit that cannot be mapped: a unit
is queued, the host hands out a picture and `gst_video_frame_map` fails. -/
def harvest_map_fails (env : DecodeEnv) (sys : decoder_sys_t) : Bool :=
  match sys.p_que, env.new_picture with
  | some (u :: _), some _ => (env.frame_map sys.vinfo u).isNone
  | _, _ => false

/-- A warning message. -/
def warningMsg : GstMessage :=
  { type := GstMessageType.GST_MESSAGE_WARNING, src := "vdec_a", text := "late frame" }

/-- An end-of-stream message. -/
def eosMsg : GstMessage := { type := GstMessageType.GST_MESSAGE_EOS, src := "decoder" }

/-- A decoder with the fatal flag set, nothing queued, and a warning pending
on the bus. -/
def flaggedWarnDec : decoder_t :=
  { b_error := true
    p_sys := some { p_que := some [], p_bus := some [warningMsg], b_running := true } }

/-- A decoder with the fatal flag clear, one unit queued, and an end-of-stream
pending on the bus. -/
def eosDec : decoder_t :=
  { p_sys := some { p_que := some [unit0], p_bus := some [eosMsg], b_running := true } }

/-- A block carrying the corruption flag only. -/
def corruptBlock : block_t :=
  { i_size := 10, i_buffer := 10, i_flags := hostDefaults.BLOCK_FLAG_CORRUPTED }

/-- A block with a duration of 1000, and an input format at 25 frames a second. -/
def timedBlock : block_t :=
  { i_size := 10, i_buffer := 10, i_pts := 1000, i_dts := 1000, i_length := 1000 }

def fmt25 : es_format_t :=
  { i_codec := hostDefaults.VLC_CODEC_H264,
    video := { i_frame_rate := 25, i_frame_rate_base := 1 } }

/-- The pixel bytes after the first `m` rows of the inner loop of
`gst_CopyPicture`: row `k` is copied from offset `k * stride` of the frame
plane to offset `k * pitch`, `w` bytes long. -/
def copy_rows (pitch stride w : Nat) (data px : List Nat) (m : Nat) : List Nat :=
  List.foldl (fun px i_line => memcpy px (i_line * pitch) data (i_line * stride) w)
    px (List.range m)

/-- A picture plane of three lines of two bytes. -/
def narrowPlane : plane_t := { p_pixels := [0, 0, 0, 0, 0, 0], i_pitch := 2, i_lines := 3 }

/-- A frame plane of two rows of three bytes. -/
def widePlane : frame_plane_t :=
  { data := [1, 2, 3, 4, 5, 6], stride := 3, comp_width := 3, comp_pstride := 1,
    comp_height := 2 }

/-- A picture plane of two lines with a pitch of four bytes. -/
def paddedPlane : plane_t := { p_pixels := [0, 0, 0, 0, 0, 0, 0, 0], i_pitch := 4, i_lines := 2 }

/-- A registry in which no listed decoder accepts the query. -/
def noMatchEnv : OpenEnv :=
  { decoders := [vdec_b, vdec_a], can_sink_any_caps := fun _ _ => false }

/-- A host whose `decoder_NewPicture` returns `NULL`, with an engine whose
units would map. -/
def noPictureEnv : DecodeEnv :=
  { new_picture := none, frame_map := fun _ _ => some {} }

/-- The calls of a trace that dispose of an input block: a direct
`block_Release`, or the wrap that hands the block to the engine with
`block_Release` as destroy notify. -/
def disposals : List Event → List Event
  | [] => []
  | Event.block_Release b :: t => Event.block_Release b :: disposals t
  | Event.buffer_new_wrapped b :: t => Event.buffer_new_wrapped b :: disposals t
  | _ :: t => disposals t

/-- A block without payload. -/
def emptyBlock : block_t := { i_size := 10, i_buffer := 0 }

/-- A host whose input wrap fails. -/
def noWrapEnv : DecodeEnv := { wrap_ok := false }

/-- An engine whose source refuses the pushed unit. -/
def noPushEnv : DecodeEnv := { push_ok := false }

/-- An H264 input format whose frame rate 50/2 is not in lowest terms. -/
def halfRateFmt : es_format_t :=
  { i_codec := hostDefaults.VLC_CODEC_H264,
    video := { i_frame_rate := 50, i_frame_rate_base := 2 } }

/-- An H264 input format whose width does not fit a `gint`. -/
def hugeFmt : es_format_t :=
  { i_codec := hostDefaults.VLC_CODEC_H264,
    video := { i_width := 2147483648, i_height := 1080 } }

/-- An H264 input format with geometry 1920x1080, frame rate 60000/2002 and
four configuration bytes. -/
def hdFmt : es_format_t :=
  { i_codec := hostDefaults.VLC_CODEC_H264,
    video := { i_width := 1920, i_height := 1080, i_frame_rate := 60000,
               i_frame_rate_base := 2002 },
    i_extra := 4, p_extra := 4096 }

/-- The descriptor expected for `hdFmt`. -/
def hdStructure : GstStructure :=
  gst_structure_set (gst_structure_set (gst_structure_set (gst_structure_set
    (gst_structure_set (gst_structure_new_empty "video/x-h264") "alignment" (GValue.str "au"))
    "width" (GValue.int 1920)) "height" (GValue.int 1080))
    "framerate" (GValue.fraction 30000 1001))
    "codec_data" (GValue.buffer { data := 4096, maxsize := 4, offset := 0, size := 4 })

/-! ## Properties of the format negotiator -/

theorem getField_setField_same (fs : List (String × GValue)) (n : String) (v : GValue) :
    getField (setField fs n v) n = some v := by
  induction fs with
  | nil => simp [setField, getField]
  | cons hd tl ih =>
    obtain ⟨m, w⟩ := hd
    by_cases h : m = n
    · simp [setField, getField, h]
    · simp [setField, getField, h, ih]

theorem getField_setField_ne (fs : List (String × GValue)) (m n : String) (v : GValue)
    (hmn : n ≠ m) : getField (setField fs n v) m = getField fs m := by
  induction fs with
  | nil => simp [setField, getField, hmn]
  | cons hd tl ih =>
    obtain ⟨k, w⟩ := hd
    by_cases h : k = n
    · subst h
      simp [setField, getField, hmn]
    · by_cases h2 : k = m
      · subst h2
        simp [setField, getField, h]
      · simp [setField, getField, h, h2, ih]

theorem get_set_same (s : GstStructure) (n : String) (v : GValue) :
    gst_structure_get (gst_structure_set s n v) n = some v := by
  simp [gst_structure_get, gst_structure_set, getField_setField_same]

theorem get_set_ne (s : GstStructure) (m n : String) (v : GValue) (hmn : n ≠ m) :
    gst_structure_get (gst_structure_set s n v) m = gst_structure_get s m := by
  simp [gst_structure_get, gst_structure_set, getField_setField_ne _ _ _ _ hmn]

theorem codec_structure_isSome_iff (K : HostConsts) (c : Nat) :
    (codec_structure K c).isSome ↔ supported_codec K c := by
  unfold codec_structure supported_codec
  split_ifs <;> simp_all

/-- The codec specific part of a descriptor has none of the optional
attributes. -/
theorem codec_structure_optional (K : HostConsts) (c : Nat) (s0 : GstStructure)
    (h : codec_structure K c = some s0) :
    gst_structure_get s0 "width" = none ∧ gst_structure_get s0 "height" = none ∧
    gst_structure_get s0 "framerate" = none ∧
    gst_structure_get s0 "pixel-aspect-ratio" = none ∧
    gst_structure_get s0 "codec_data" = none := by
  unfold codec_structure at h
  split_ifs at h <;> simp at h <;> subst h <;>
    simp [gst_structure_get, gst_structure_set, gst_structure_new_empty, setField, getField]

/-- C1. A codec identifier outside the nine supported ones gives no descriptor,
and `OpenDecoder` then returns `VLC_EGENERIC` having made no library call and
leaving the decoder (its `p_sys` included) as it was; a supported identifier
gives a descriptor whenever the wrap of the configuration bytes succeeds or
there are no such bytes. -/
theorem C1_unsupported_codec (K : HostConsts) (env : OpenEnv) (p_dec : decoder_t)
    (wrap_ok : Bool) (p_fmt : es_format_t) :
    (¬ supported_codec K p_fmt.i_codec → vlc_to_gst_fmt K wrap_ok p_fmt = none) ∧
    (¬ supported_codec K p_dec.fmt_in.i_codec →
      OpenDecoder K env p_dec = { ret := VlcRet.VLC_EGENERIC, dec := p_dec, trace := [] }) ∧
    (supported_codec K p_fmt.i_codec → (wrap_ok = true ∨ p_fmt.i_extra = 0) →
      (vlc_to_gst_fmt K wrap_ok p_fmt).isSome = true) := by
  have key : ∀ (w : Bool) (f : es_format_t), ¬ supported_codec K f.i_codec →
      vlc_to_gst_fmt K w f = none := by
    intro w f hf
    have hnone : codec_structure K f.i_codec = none := by
      rw [← codec_structure_isSome_iff] at hf
      simpa using hf
    simp [vlc_to_gst_fmt, hnone]
  refine ⟨key wrap_ok p_fmt, ?_, ?_⟩
  · intro hf
    simp [OpenDecoder, key env.wrap_ok p_dec.fmt_in hf]
  · intro hs hw
    rw [← codec_structure_isSome_iff] at hs
    obtain ⟨s0, hs0⟩ := Option.isSome_iff_exists.mp hs
    unfold vlc_to_gst_fmt
    rw [hs0]
    rcases hw with hw | hw
    · simp only [hw]
      split_ifs <;> rfl
    · simp [hw]

/-- C1 on concrete inputs: the identifier 0 is rejected by `OpenDecoder` with
an empty trace, and an H264 descriptor is accepted by the negotiator. -/
theorem C1_unsupported_codec_witness :
    OpenDecoder hostDefaults {} { fmt_in := { i_codec := 0 } } =
      { ret := VlcRet.VLC_EGENERIC, dec := { fmt_in := { i_codec := 0 } }, trace := [] } ∧
    (vlc_to_gst_fmt hostDefaults true
      { i_codec := hostDefaults.VLC_CODEC_H264, i_extra := 4 }).isSome = true :=
  ⟨(C1_unsupported_codec hostDefaults {} { fmt_in := { i_codec := 0 } } true {}).2.1
      (by decide),
   (C1_unsupported_codec hostDefaults {} {} true
      { i_codec := hostDefaults.VLC_CODEC_H264, i_extra := 4 }).2.2
      (by decide) (Or.inl rfl)⟩

/-- Below `2 ^ 31` the collector reads back the value that was passed. -/
theorem as_gint_of_lt (x : Nat) (h : x < 2 ^ 31) : as_gint x = (x : Int) := by
  have hm : x % 2 ^ 32 = x := Nat.mod_eq_of_lt (lt_trans h (by norm_num))
  unfold as_gint
  rw [hm, if_pos h]

/-- Two terms below `2 ^ 31` with a non-zero denominator are collected, and
the fraction stored is the one in lowest terms. -/
theorem collect_fraction_of_lt (n d : Nat) (hd0 : d ≠ 0) (hn : n < 2 ^ 31)
    (hd : d < 2 ^ 31) :
    gst_value_collect_fraction n d =
      some (GValue.fraction ((n / Nat.gcd n d : Nat) : Int) ((d / Nat.gcd n d : Nat) : Int)) := by
  unfold gst_value_collect_fraction
  rw [as_gint_of_lt n hn, as_gint_of_lt d hd]
  have hdpos : (0 : Int) < (d : Int) := by exact_mod_cast Nat.pos_of_ne_zero hd0
  have hnn : (0 : Int) ≤ (n : Int) := by positivity
  have hg : Nat.gcd n d ≠ 0 := fun h => hd0 (Nat.gcd_eq_zero_iff.mp h).2
  have hcond : ¬ ((d : Int) = 0 ∨ (n : Int) < -G_MAXINT ∨ (d : Int) < -G_MAXINT) := by
    unfold G_MAXINT
    rintro (h | h | h) <;> omega
  rw [if_neg hcond]
  unfold gst_value_set_fraction
  have hnd : ¬ (d : Int) < 0 := by omega
  simp only [hnd, if_false, Int.gcd_natCast_natCast]
  rw [if_pos (by exact_mod_cast hg)]
  simp

/-- The fraction in lowest terms has the ratio of the terms it comes from. -/
theorem lowest_terms (n d : Nat) (hd0 : d ≠ 0) :
    (n / Nat.gcd n d) * d = (d / Nat.gcd n d) * n ∧
    Nat.Coprime (n / Nat.gcd n d) (d / Nat.gcd n d) := by
  have hg : 0 < Nat.gcd n d := Nat.gcd_pos_of_pos_right n (Nat.pos_of_ne_zero hd0)
  refine ⟨?_, Nat.coprime_div_gcd_div_gcd hg⟩
  obtain ⟨a, ha⟩ := Nat.gcd_dvd_left n d
  obtain ⟨b, hb⟩ := Nat.gcd_dvd_right n d
  have e1 : n / Nat.gcd n d = a := Nat.div_eq_of_eq_mul_right hg ha
  have e2 : d / Nat.gcd n d = b := Nat.div_eq_of_eq_mul_right hg hb
  rw [e1, e2]
  calc a * d = a * (Nat.gcd n d * b) := congrArg (fun x => a * x) hb
    _ = b * (Nat.gcd n d * a) := by ring
    _ = b * n := congrArg (fun x => b * x) ha.symm

theorem set_fraction_other (s : GstStructure) (n m : String) (a b : Nat) (hmn : n ≠ m) :
    gst_structure_get (gst_structure_set_fraction s n a b) m = gst_structure_get s m := by
  cases hc : gst_value_collect_fraction a b with
  | none => simp only [gst_structure_set_fraction, hc]
  | some f =>
    simp only [gst_structure_set_fraction, hc]
    exact get_set_ne _ _ _ _ hmn

/-- A fraction field holds the collected value after the call, and what it
held before when the collector refuses the arguments. -/
theorem set_fraction_same (s : GstStructure) (n : String) (a b : Nat) :
    gst_structure_get (gst_structure_set_fraction s n a b) n =
      (gst_value_collect_fraction a b).orElse (fun _ => gst_structure_get s n) := by
  cases hc : gst_value_collect_fraction a b with
  | none => simp only [gst_structure_set_fraction, hc, Option.orElse]
  | some f =>
    simp only [gst_structure_set_fraction, hc, Option.orElse]
    exact get_set_same _ _ _

theorem attach_geometry_other (v : video_format_t) (s : GstStructure) (m : String)
    (h1 : m ≠ "width") (h2 : m ≠ "height") :
    gst_structure_get (attach_geometry v s) m = gst_structure_get s m := by
  unfold attach_geometry
  split_ifs
  · rw [get_set_ne _ _ _ _ (Ne.symm h2), get_set_ne _ _ _ _ (Ne.symm h1)]
  · rfl

theorem attach_framerate_other (v : video_format_t) (s : GstStructure) (m : String)
    (h1 : m ≠ "framerate") :
    gst_structure_get (attach_framerate v s) m = gst_structure_get s m := by
  unfold attach_framerate
  split_ifs
  · exact set_fraction_other _ _ _ _ _ (Ne.symm h1)
  · rfl

theorem attach_aspect_ratio_other (v : video_format_t) (s : GstStructure) (m : String)
    (h1 : m ≠ "pixel-aspect-ratio") :
    gst_structure_get (attach_aspect_ratio v s) m = gst_structure_get s m := by
  unfold attach_aspect_ratio
  split_ifs
  · exact set_fraction_other _ _ _ _ _ (Ne.symm h1)
  · rfl

/-- What the geometry step leaves in the fields "width" and "height". -/
theorem attach_geometry_same (v : video_format_t) (s : GstStructure)
    (hw : gst_structure_get s "width" = none) (hh : gst_structure_get s "height" = none) :
    gst_structure_get (attach_geometry v s) "width" =
      (if v.i_width ≠ 0 ∧ v.i_height ≠ 0 then some (GValue.int (as_gint v.i_width))
        else none) ∧
    gst_structure_get (attach_geometry v s) "height" =
      (if v.i_width ≠ 0 ∧ v.i_height ≠ 0 then some (GValue.int (as_gint v.i_height))
        else none) := by
  unfold attach_geometry
  split_ifs
  · exact ⟨by rw [get_set_ne _ _ _ _ (by decide), get_set_same], get_set_same _ _ _⟩
  · exact ⟨hw, hh⟩

/-- What the frame rate step leaves in the field "framerate". -/
theorem attach_framerate_same (v : video_format_t) (s : GstStructure)
    (hf : gst_structure_get s "framerate" = none) :
    gst_structure_get (attach_framerate v s) "framerate" =
      (if v.i_frame_rate ≠ 0 ∧ v.i_frame_rate_base ≠ 0 then
        gst_value_collect_fraction v.i_frame_rate v.i_frame_rate_base else none) := by
  unfold attach_framerate
  split_ifs
  · rw [set_fraction_same, hf]
    cases gst_value_collect_fraction v.i_frame_rate v.i_frame_rate_base <;> rfl
  · exact hf

/-- What the aspect ratio step leaves in the field "pixel-aspect-ratio". -/
theorem attach_aspect_ratio_same (v : video_format_t) (s : GstStructure)
    (hf : gst_structure_get s "pixel-aspect-ratio" = none) :
    gst_structure_get (attach_aspect_ratio v s) "pixel-aspect-ratio" =
      (if v.i_sar_num ≠ 0 ∧ v.i_sar_den ≠ 0 then
        gst_value_collect_fraction v.i_sar_num v.i_sar_den else none) := by
  unfold attach_aspect_ratio
  split_ifs
  · rw [set_fraction_same, hf]
    cases gst_value_collect_fraction v.i_sar_num v.i_sar_den <;> rfl
  · exact hf

/-- The five optional fields of a descriptor produced by `vlc_to_gst_fmt`. -/
theorem vlc_to_gst_fmt_fields (K : HostConsts) (wrap_ok : Bool) (p_fmt : es_format_t)
    (s : GstStructure) (h : vlc_to_gst_fmt K wrap_ok p_fmt = some s) :
    gst_structure_get s "width" =
      (if p_fmt.video.i_width ≠ 0 ∧ p_fmt.video.i_height ≠ 0 then
        some (GValue.int (as_gint p_fmt.video.i_width)) else none) ∧
    gst_structure_get s "height" =
      (if p_fmt.video.i_width ≠ 0 ∧ p_fmt.video.i_height ≠ 0 then
        some (GValue.int (as_gint p_fmt.video.i_height)) else none) ∧
    gst_structure_get s "framerate" =
      (if p_fmt.video.i_frame_rate ≠ 0 ∧ p_fmt.video.i_frame_rate_base ≠ 0 then
        gst_value_collect_fraction p_fmt.video.i_frame_rate p_fmt.video.i_frame_rate_base
        else none) ∧
    gst_structure_get s "pixel-aspect-ratio" =
      (if p_fmt.video.i_sar_num ≠ 0 ∧ p_fmt.video.i_sar_den ≠ 0 then
        gst_value_collect_fraction p_fmt.video.i_sar_num p_fmt.video.i_sar_den
        else none) ∧
    gst_structure_get s "codec_data" =
      (if p_fmt.i_extra ≠ 0 then some (GValue.buffer
        { data := p_fmt.p_extra, maxsize := p_fmt.i_extra, offset := 0,
          size := p_fmt.i_extra, notify := none }) else none) := by
  unfold vlc_to_gst_fmt at h
  cases hc : codec_structure K p_fmt.i_codec with
  | none => simp [hc] at h
  | some s0 =>
    obtain ⟨h1, h2, h3, h4, h5⟩ := codec_structure_optional K _ s0 hc
    simp only [hc] at h
    have g1 := attach_geometry_same p_fmt.video s0 h1 h2
    have g3 : gst_structure_get (attach_framerate p_fmt.video
        (attach_geometry p_fmt.video s0)) "framerate" = _ :=
      attach_framerate_same p_fmt.video _
        (by rw [attach_geometry_other _ _ _ (by decide) (by decide)]; exact h3)
    have g4 : gst_structure_get (attach_aspect_ratio p_fmt.video (attach_framerate p_fmt.video
        (attach_geometry p_fmt.video s0))) "pixel-aspect-ratio" = _ :=
      attach_aspect_ratio_same p_fmt.video _
        (by rw [attach_framerate_other _ _ _ (by decide),
          attach_geometry_other _ _ _ (by decide) (by decide)]; exact h4)
    have key : ∀ s3, s3 = attach_aspect_ratio p_fmt.video (attach_framerate p_fmt.video
        (attach_geometry p_fmt.video s0)) →
        gst_structure_get s3 "width" =
          (if p_fmt.video.i_width ≠ 0 ∧ p_fmt.video.i_height ≠ 0 then
            some (GValue.int (as_gint p_fmt.video.i_width)) else none) ∧
        gst_structure_get s3 "height" =
          (if p_fmt.video.i_width ≠ 0 ∧ p_fmt.video.i_height ≠ 0 then
            some (GValue.int (as_gint p_fmt.video.i_height)) else none) ∧
        gst_structure_get s3 "framerate" =
          (if p_fmt.video.i_frame_rate ≠ 0 ∧ p_fmt.video.i_frame_rate_base ≠ 0 then
            gst_value_collect_fraction p_fmt.video.i_frame_rate
              p_fmt.video.i_frame_rate_base
            else none) ∧
        gst_structure_get s3 "pixel-aspect-ratio" =
          (if p_fmt.video.i_sar_num ≠ 0 ∧ p_fmt.video.i_sar_den ≠ 0 then
            gst_value_collect_fraction p_fmt.video.i_sar_num p_fmt.video.i_sar_den
            else none) ∧
        gst_structure_get s3 "codec_data" = none := by
      intro s3 hs3
      subst hs3
      refine ⟨?_, ?_, ?_, g4, ?_⟩
      · rw [attach_aspect_ratio_other _ _ _ (by decide),
          attach_framerate_other _ _ _ (by decide)]
        exact g1.1
      · rw [attach_aspect_ratio_other _ _ _ (by decide),
          attach_framerate_other _ _ _ (by decide)]
        exact g1.2
      · rw [attach_aspect_ratio_other _ _ _ (by decide)]
        exact g3
      · rw [attach_aspect_ratio_other _ _ _ (by decide),
          attach_framerate_other _ _ _ (by decide),
          attach_geometry_other _ _ _ (by decide) (by decide)]
        exact h5
    obtain ⟨k1, k2, k3, k4, k5⟩ := key _ rfl
    by_cases he : p_fmt.i_extra ≠ 0
    · rw [if_pos he] at h
      cases hw : wrap_ok with
      | false => simp [hw] at h
      | true =>
        simp only [hw, if_true, Option.some.injEq] at h
        subst h
        rw [get_set_ne _ _ _ _ (by decide), get_set_ne _ _ _ _ (by decide),
          get_set_ne _ _ _ _ (by decide), get_set_ne _ _ _ _ (by decide), get_set_same,
          if_pos he]
        exact ⟨k1, k2, k3, k4, rfl⟩
    · rw [if_neg he] at h
      simp only [Option.some.injEq] at h
      subst h
      rw [if_neg he]
      exact ⟨k1, k2, k3, k4, k5⟩

/-- C3 as stated fails on the values: the frame rate 50/2 is stored as 25/1,
the fraction in lowest terms, and the width `2 ^ 31`, read back as a `gint`,
is stored as `-2 ^ 31`. -/
theorem C3_values_not_exact :
    halfRateFmt.video.i_frame_rate = 50 ∧ halfRateFmt.video.i_frame_rate_base = 2 ∧
    (vlc_to_gst_fmt hostDefaults true halfRateFmt).bind
      (fun s => gst_structure_get s "framerate") = some (GValue.fraction 25 1) ∧
    hugeFmt.video.i_width = 2147483648 ∧
    (vlc_to_gst_fmt hostDefaults true hugeFmt).bind
      (fun s => gst_structure_get s "width") = some (GValue.int (-2147483648)) := by
  decide

/-- C3, amended. In a descriptor produced for a supported codec: width and
height are present iff both input dimensions are non-zero, and codec_data iff
the input has configuration bytes; framerate (pixel-aspect-ratio) is present
only if both terms of the input frame rate (aspect ratio) are non-zero, and is
present then whenever both terms are below `2 ^ 31`. Width and height hold the
input values as read back by the collector, which are the input values
themselves below `2 ^ 31`; framerate and pixel-aspect-ratio hold, for terms
below `2 ^ 31`, the input fraction in lowest terms, which has the ratio of the
input; codec_data wraps the configuration bytes of the input. -/
theorem C3_optional_attributes (K : HostConsts) (wrap_ok : Bool) (p_fmt : es_format_t)
    (s : GstStructure) (h : vlc_to_gst_fmt K wrap_ok p_fmt = some s) :
    (gst_structure_has_field s "width" = true ↔
      (p_fmt.video.i_width ≠ 0 ∧ p_fmt.video.i_height ≠ 0)) ∧
    (gst_structure_has_field s "height" = true ↔
      (p_fmt.video.i_width ≠ 0 ∧ p_fmt.video.i_height ≠ 0)) ∧
    (gst_structure_has_field s "codec_data" = true ↔ p_fmt.i_extra ≠ 0) ∧
    (gst_structure_has_field s "framerate" = true →
      (p_fmt.video.i_frame_rate ≠ 0 ∧ p_fmt.video.i_frame_rate_base ≠ 0)) ∧
    (gst_structure_has_field s "pixel-aspect-ratio" = true →
      (p_fmt.video.i_sar_num ≠ 0 ∧ p_fmt.video.i_sar_den ≠ 0)) ∧
    (p_fmt.video.i_width ≠ 0 ∧ p_fmt.video.i_height ≠ 0 →
      gst_structure_get s "width" = some (GValue.int (as_gint p_fmt.video.i_width)) ∧
      gst_structure_get s "height" = some (GValue.int (as_gint p_fmt.video.i_height))) ∧
    (∀ x : Nat, x < 2 ^ 31 → as_gint x = (x : Int)) ∧
    (p_fmt.video.i_frame_rate ≠ 0 ∧ p_fmt.video.i_frame_rate_base ≠ 0 →
      p_fmt.video.i_frame_rate < 2 ^ 31 → p_fmt.video.i_frame_rate_base < 2 ^ 31 →
      gst_structure_get s "framerate" = some (GValue.fraction
        ((p_fmt.video.i_frame_rate /
          Nat.gcd p_fmt.video.i_frame_rate p_fmt.video.i_frame_rate_base : Nat) : Int)
        ((p_fmt.video.i_frame_rate_base /
          Nat.gcd p_fmt.video.i_frame_rate p_fmt.video.i_frame_rate_base : Nat) : Int))) ∧
    (p_fmt.video.i_sar_num ≠ 0 ∧ p_fmt.video.i_sar_den ≠ 0 →
      p_fmt.video.i_sar_num < 2 ^ 31 → p_fmt.video.i_sar_den < 2 ^ 31 →
      gst_structure_get s "pixel-aspect-ratio" = some (GValue.fraction
        ((p_fmt.video.i_sar_num /
          Nat.gcd p_fmt.video.i_sar_num p_fmt.video.i_sar_den : Nat) : Int)
        ((p_fmt.video.i_sar_den /
          Nat.gcd p_fmt.video.i_sar_num p_fmt.video.i_sar_den : Nat) : Int))) ∧
    (∀ n d : Nat, d ≠ 0 →
      (n / Nat.gcd n d) * d = (d / Nat.gcd n d) * n ∧
      Nat.Coprime (n / Nat.gcd n d) (d / Nat.gcd n d)) ∧
    (p_fmt.i_extra ≠ 0 →
      gst_structure_get s "codec_data" = some (GValue.buffer
        { data := p_fmt.p_extra, maxsize := p_fmt.i_extra, offset := 0,
          size := p_fmt.i_extra, notify := none })) := by
  obtain ⟨k1, k2, k3, k4, k5⟩ := vlc_to_gst_fmt_fields K wrap_ok p_fmt s h
  refine ⟨?_, ?_, ?_, ?_, ?_, ?_, as_gint_of_lt, ?_, ?_, lowest_terms, ?_⟩
  · unfold gst_structure_has_field
    rw [k1]
    split_ifs with c <;> simp [c]
  · unfold gst_structure_has_field
    rw [k2]
    split_ifs with c <;> simp [c]
  · unfold gst_structure_has_field
    rw [k5]
    split_ifs with c <;> simp [c]
  · unfold gst_structure_has_field
    rw [k3]
    split_ifs with c
    · exact fun _ => c
    · simp
  · unfold gst_structure_has_field
    rw [k4]
    split_ifs with c
    · exact fun _ => c
    · simp
  · intro c
    rw [k1, k2, if_pos c, if_pos c]
    exact ⟨rfl, rfl⟩
  · intro c hn hd
    rw [k3, if_pos c, collect_fraction_of_lt _ _ c.2 hn hd]
  · intro c hn hd
    rw [k4, if_pos c, collect_fraction_of_lt _ _ c.2 hn hd]
  · intro c
    rw [k5, if_pos c]

/-- C3 amended, on `hdFmt`: the descriptor has width 1920, height 1080, the
frame rate 60000/2002 stored as 30000/1001, the four configuration bytes and
no pixel-aspect-ratio. -/
theorem C3_optional_attributes_witness :
    vlc_to_gst_fmt hostDefaults true hdFmt = some hdStructure ∧
    (gst_structure_get hdStructure "width" = some (GValue.int 1920) ∧
      gst_structure_get hdStructure "height" = some (GValue.int 1080)) ∧
    gst_structure_get hdStructure "framerate" = some (GValue.fraction 30000 1001) ∧
    gst_structure_has_field hdStructure "codec_data" = true ∧
    gst_structure_has_field hdStructure "pixel-aspect-ratio" = false :=
  ⟨by decide,
    (C3_optional_attributes hostDefaults true hdFmt hdStructure (by decide)).2.2.2.2.2.1
      (by decide),
    (C3_optional_attributes hostDefaults true hdFmt hdStructure (by decide)).2.2.2.2.2.2.2.1
      (by decide) (by decide) (by decide),
    (C3_optional_attributes hostDefaults true hdFmt hdStructure (by decide)).2.2.1.mpr
      (by decide),
    by decide⟩

/-! ## Properties of the engine selector -/

theorem strcmp_codes_refl (a : List Nat) : strcmp_codes a a = 0 := by
  induction a with
  | nil => rfl
  | cons x xs ih => simp [strcmp_codes, ih]

theorem strcmp_codes_total (a b : List Nat) :
    strcmp_codes a b ≤ 0 ∨ strcmp_codes b a ≤ 0 := by
  induction a generalizing b with
  | nil => cases b <;> simp [strcmp_codes]
  | cons x xs ih =>
    cases b with
    | nil => simp [strcmp_codes]
    | cons y ys =>
      simp only [strcmp_codes]
      rcases Nat.lt_trichotomy x y with h | h | h
      · simp [h]
      · subst h
        simpa using ih ys
      · right
        simp [h]

theorem strcmp_codes_trans (a b c : List Nat) (hab : strcmp_codes a b ≤ 0)
    (hbc : strcmp_codes b c ≤ 0) : strcmp_codes a c ≤ 0 := by
  induction a generalizing b c with
  | nil => cases c <;> simp [strcmp_codes]
  | cons x xs ih =>
    cases b with
    | nil => simp [strcmp_codes] at hab
    | cons y ys =>
      cases c with
      | nil => simp [strcmp_codes] at hbc
      | cons z zs =>
        simp only [strcmp_codes] at hab hbc ⊢
        by_cases hxy : x < y
        · by_cases hyz : y < z
          · simp [lt_trans hxy hyz]
          · by_cases hzy : z < y
            · simp [hyz, hzy] at hbc
            · have : y = z := by omega
              subst this
              simp [hxy]
        · by_cases hyx : y < x
          · simp [hxy, hyx] at hab
          · have hxy2 : x = y := by omega
            subst hxy2
            by_cases hxz : x < z
            · simp [hxz]
            · by_cases hzx : z < x
              · simp [hxz, hzx] at hbc
              · simp only [hxy, hxz, hzx, if_false] at hab hbc ⊢
                exact ih ys zs hab hbc

/-- The comparator puts `a` no later than `b` exactly when `a` has the higher
rank, or the same rank and a name that is not greater. -/
theorem rank_compare_le_iff (a b : GstElementFactory) :
    gst_plugin_feature_rank_compare_func a b ≤ 0 ↔
      b.rank < a.rank ∨ (a.rank = b.rank ∧ strcmp a.name b.name ≤ 0) := by
  unfold gst_plugin_feature_rank_compare_func
  by_cases h : (b.rank : Int) - (a.rank : Int) = 0
  · have : a.rank = b.rank := by omega
    simp [h, this]
  · simp only [ne_eq, h, not_false_eq_true, if_true]
    constructor
    · intro h1
      left
      omega
    · rintro (h1 | ⟨h1, -⟩)
      · omega
      · omega

theorem rank_compare_trans (a b c : GstElementFactory)
    (hab : gst_plugin_feature_rank_compare_func a b ≤ 0)
    (hbc : gst_plugin_feature_rank_compare_func b c ≤ 0) :
    gst_plugin_feature_rank_compare_func a c ≤ 0 := by
  rw [rank_compare_le_iff] at hab hbc ⊢
  rcases hab with h1 | ⟨h1, n1⟩ <;> rcases hbc with h2 | ⟨h2, n2⟩
  · left; omega
  · left; omega
  · left; omega
  · right
    exact ⟨h1.trans h2, strcmp_codes_trans _ _ _ n1 n2⟩

theorem rank_compare_total (a b : GstElementFactory) :
    gst_plugin_feature_rank_compare_func a b ≤ 0 ∨
      gst_plugin_feature_rank_compare_func b a ≤ 0 := by
  rw [rank_compare_le_iff, rank_compare_le_iff]
  rcases Nat.lt_trichotomy a.rank b.rank with h | h | h
  · right; left; exact h
  · rcases strcmp_codes_total (a.name.toList.map Char.toNat) (b.name.toList.map Char.toNat)
      with n | n
    · left; right; exact ⟨h, n⟩
    · right; right; exact ⟨h.symm, n⟩
  · left; left; exact h

theorem rank_compare_refl (a : GstElementFactory) :
    gst_plugin_feature_rank_compare_func a a ≤ 0 := by
  rw [rank_compare_le_iff]
  right
  exact ⟨rfl, le_of_eq (strcmp_codes_refl _)⟩

/-- In a list sorted by a reflexive relation, the first element satisfying a
test is related to every element satisfying it. -/
theorem find_sorted_le {α : Type} (r : α → α → Prop) (hr : ∀ a, r a a) (p : α → Bool)
    (s : List α) (hs : s.Pairwise r) (e : α) (he : s.find? p = some e) :
    ∀ x ∈ s, p x = true → r e x := by
  induction s with
  | nil => simp at he
  | cons a t ih =>
    rw [List.pairwise_cons] at hs
    intro x hx hpx
    by_cases hpa : p a = true
    · simp [List.find?_cons, hpa] at he
      subst he
      rcases List.mem_cons.mp hx with h | h
      · subst h
        exact hr _
      · exact hs.1 x h
    · simp [List.find?_cons, hpa] at he
      rcases List.mem_cons.mp hx with h | h
      · subst h
        exact absurd hpx hpa
      · exact ih hs.2 he x h hpx

/-- What the explicit mode search returns: a listed factory that passes
`find_decoder_func` and that the comparator puts no later than any other
listed factory passing it. -/
theorem selected_factory_spec (env : OpenEnv) (caps : sink_src_caps_t)
    (f : GstElementFactory) (h : selected_factory env caps = some f) :
    f ∈ env.decoders ∧
    find_decoder_func env.can_sink_any_caps env.can_src_any_caps f caps = 0 ∧
    ∀ x ∈ env.decoders,
      find_decoder_func env.can_sink_any_caps env.can_src_any_caps x caps = 0 →
      gst_plugin_feature_rank_compare_func f x ≤ 0 := by
  unfold selected_factory g_list_find_custom g_list_sort at h
  have hsorted := @List.sorted_mergeSort GstElementFactory
    (fun a b => decide (gst_plugin_feature_rank_compare_func a b ≤ 0))
    (fun a b c hab hbc => by
      simp only [decide_eq_true_eq] at hab hbc ⊢
      exact rank_compare_trans a b c hab hbc)
    (fun a b => by
      simp only [Bool.or_eq_true, decide_eq_true_eq]
      exact rank_compare_total a b) env.decoders
  have hmem := List.mem_of_find?_eq_some h
  have hp := List.find?_some h
  refine ⟨List.mem_mergeSort.mp hmem, by simpa using hp, ?_⟩
  intro x hx hfx
  have := find_sorted_le _ (fun a => by simpa using rank_compare_refl a) _ _ hsorted f h x
    (List.mem_mergeSort.mpr hx) (by simpa using hfx)
  simpa using this

/-! ### Tracing the selection inside `OpenDecoder` -/

theorem close_trace_no_create (env : CloseEnv) (d : decoder_t) (f : GstElementFactory) :
    Event.factory_create f ∉ (CloseDecoder env d).trace := by
  unfold CloseDecoder
  cases hs : d.p_sys with
  | none => simp
  | some sys =>
    have hw : Event.factory_create f ∉ (close_wait env d.b_error sys).2.2 := by
      unfold close_wait
      split_ifs
      · cases hb : sys.p_bus with
        | none => simp
        | some bus =>
          simp only []
          split
          · simp
          · split <;> simp
      · simp
    have hu : ∀ {α : Type} (o : Option α) (h : Handle),
        Event.factory_create f ∉ unref_if o h := by
      intro α o h
      cases o <;> simp [unref_if]
    simp only [List.mem_append, not_or]
    refine ⟨⟨⟨⟨hw, ?_⟩, ?_⟩, ⟨⟨⟨⟨hu _ _, hu _ _⟩, hu _ _⟩, hu _ _⟩, hu _ _⟩⟩, by simp⟩
    · cases sys.p_que <;> simp
    · split_ifs <;> simp

theorem open_fail_create_iff (env : OpenEnv) (d : decoder_t) (sys : decoder_sys_t)
    (a b c : Bool) (r : VlcRet) (tr : List Event) (f : GstElementFactory) :
    Event.factory_create f ∈ (open_fail env d sys a b c r tr).trace ↔
      Event.factory_create f ∈ tr := by
  have hc := close_trace_no_create env.close { d with p_sys := some sys } f
  unfold open_fail
  cases a <;> cases b <;> cases c <;> simp [hc]

theorem open_link_create_iff (env : OpenEnv) (d : decoder_t) (sys : decoder_sys_t)
    (tr : List Event) (f : GstElementFactory) :
    Event.factory_create f ∈ (open_link env d sys tr).trace ↔
      Event.factory_create f ∈ tr := by
  unfold open_link
  split_ifs <;> simp [open_fail_create_iff]

theorem open_build_create_iff (env : OpenEnv) (d : decoder_t) (sys : decoder_sys_t)
    (tr : List Event) (f : GstElementFactory) :
    Event.factory_create f ∈ (open_build env d sys tr).trace ↔
      Event.factory_create f ∈ tr := by
  simp only [open_build, open_src, open_decodebin, open_sink, open_bin, open_bus]
  split_ifs <;> simp [open_fail_create_iff, open_link_create_iff]

/-- In explicit mode the factory `OpenDecoder` instantiates is the result of
the search on the rank-sorted list, for the caps query built from the
descriptor of the input format. -/
theorem open_create_selected (K : HostConsts) (env : OpenEnv) (p_dec : decoder_t)
    (f : GstElementFactory) (hmode : env.use_decodebin = false)
    (h : Event.factory_create f ∈ (OpenDecoder K env p_dec).trace) :
    ∃ p_str, vlc_to_gst_fmt K env.wrap_ok p_dec.fmt_in = some p_str ∧
      selected_factory env
        { p_sinkcaps := [p_str], p_srccaps := [gst_structure_new_empty "video/x-raw"] } =
        some f := by
  unfold OpenDecoder at h
  cases hstr : vlc_to_gst_fmt K env.wrap_ok p_dec.fmt_in with
  | none => simp [hstr] at h
  | some p_str =>
    refine ⟨p_str, rfl, ?_⟩
    simp only [hstr] at h
    split_ifs at h
    · simp at h
    · unfold open_select at h
      unfold selected_factory
      cases hd : env.decoders with
      | nil => simp [hd, open_fail_create_iff] at h
      | cons a l =>
        simp only [hd, hmode] at h
        simp only [Bool.not_false, if_true] at h
        split at h
        · simp [open_fail_create_iff] at h
        · split at h
          · simp [open_fail_create_iff] at h
          · rename_i g hg
            split_ifs at h
            · simp [open_fail_create_iff] at h
              subst h
              exact hg
            · simp [open_build_create_iff] at h
              subst h
              exact hg

theorem tieEnv_sorted :
    g_list_sort [vdec_b, vdec_a] gst_plugin_feature_rank_compare_func = [vdec_a, vdec_b] := by
  have h : gst_plugin_feature_rank_compare_func vdec_b vdec_a = 1 := by decide
  simp [g_list_sort, List.mergeSort, List.merge, List.splitInTwo, h]

theorem tieEnv_creates :
    Event.factory_create vdec_a ∈ (OpenDecoder hostDefaults tieEnv h264Dec).trace := by
  have hf : vlc_to_gst_fmt hostDefaults tieEnv.wrap_ok h264Dec.fmt_in =
      some (gst_structure_set (gst_structure_new_empty "video/x-h264")
        "alignment" (GValue.str "au")) := by decide
  have hd : tieEnv.decoders = [vdec_b, vdec_a] := rfl
  simp only [OpenDecoder, hf, open_select, hd, tieEnv_sorted]
  simp [tieEnv, g_list_find_custom, find_decoder_func, open_build_create_iff]

/-- C2 as stated fails on ties: with two accepting decoders of equal rank,
`OpenDecoder` in explicit mode instantiates `vdec_a`, the second one in
enumeration order, and not `vdec_b`, which is enumerated first. -/
theorem C2_tie_counterexample :
    tieEnv.use_decodebin = false ∧
    tieEnv.decoders = [vdec_b, vdec_a] ∧
    (∀ caps, find_decoder_func tieEnv.can_sink_any_caps tieEnv.can_src_any_caps
      vdec_b caps = 0) ∧
    vdec_b.rank = vdec_a.rank ∧
    Event.factory_create vdec_a ∈ (OpenDecoder hostDefaults tieEnv h264Dec).trace ∧
    Event.factory_create vdec_b ∉ (OpenDecoder hostDefaults tieEnv h264Dec).trace := by
  refine ⟨rfl, rfl, fun _ => rfl, rfl, tieEnv_creates, ?_⟩
  intro h
  obtain ⟨p_str, -, hsel⟩ := open_create_selected hostDefaults tieEnv h264Dec vdec_b rfl h
  have hd : tieEnv.decoders = [vdec_b, vdec_a] := rfl
  simp only [selected_factory, hd, tieEnv_sorted] at hsel
  simp [tieEnv, g_list_find_custom, find_decoder_func] at hsel
  exact absurd hsel (by decide)

/-- C2, amended. In explicit mode the factory `OpenDecoder` instantiates is
an element of the enumerated list that passes `find_decoder_func` for the
query built from the input format; no listed factory passing it has a higher
rank; and among those of the same rank it is the one whose name comes first
in `strcmp` order. -/
theorem C2_explicit_selection (K : HostConsts) (env : OpenEnv) (p_dec : decoder_t)
    (f : GstElementFactory) (hmode : env.use_decodebin = false)
    (h : Event.factory_create f ∈ (OpenDecoder K env p_dec).trace) :
    ∃ p_str, vlc_to_gst_fmt K env.wrap_ok p_dec.fmt_in = some p_str ∧
      f ∈ env.decoders ∧
      find_decoder_func env.can_sink_any_caps env.can_src_any_caps f
        { p_sinkcaps := [p_str], p_srccaps := [gst_structure_new_empty "video/x-raw"] } = 0 ∧
      ∀ x ∈ env.decoders,
        find_decoder_func env.can_sink_any_caps env.can_src_any_caps x
          { p_sinkcaps := [p_str], p_srccaps := [gst_structure_new_empty "video/x-raw"] } = 0 →
        x.rank ≤ f.rank ∧ (x.rank = f.rank → strcmp f.name x.name ≤ 0) := by
  obtain ⟨p_str, hstr, hsel⟩ := open_create_selected K env p_dec f hmode h
  obtain ⟨hmem, hfind, hbest⟩ := selected_factory_spec env _ f hsel
  refine ⟨p_str, hstr, hmem, hfind, ?_⟩
  intro x hx hfx
  have hle := (rank_compare_le_iff f x).mp (hbest x hx hfx)
  rcases hle with hlt | ⟨heq, hname⟩
  · exact ⟨le_of_lt hlt, fun he => absurd he (by omega)⟩
  · exact ⟨le_of_eq heq.symm, fun _ => hname⟩

/-- C2 amended, on the two-decoder registry: the instantiated `vdec_a` is
listed and no listed decoder outranks it. -/
theorem C2_explicit_selection_witness :
    ∃ p_str, vlc_to_gst_fmt hostDefaults tieEnv.wrap_ok h264Dec.fmt_in = some p_str ∧
      vdec_a ∈ tieEnv.decoders ∧
      find_decoder_func tieEnv.can_sink_any_caps tieEnv.can_src_any_caps vdec_a
        { p_sinkcaps := [p_str], p_srccaps := [gst_structure_new_empty "video/x-raw"] } = 0 ∧
      ∀ x ∈ tieEnv.decoders,
        find_decoder_func tieEnv.can_sink_any_caps tieEnv.can_src_any_caps x
          { p_sinkcaps := [p_str], p_srccaps := [gst_structure_new_empty "video/x-raw"] } = 0 →
        x.rank ≤ vdec_a.rank ∧ (x.rank = vdec_a.rank → strcmp vdec_a.name x.name ≤ 0) :=
  C2_explicit_selection hostDefaults tieEnv h264Dec vdec_a rfl tieEnv_creates

/-! ## Properties of the decode driver -/

theorem decode_done_same (d d' : decoder_t) (sys : decoder_sys_t) (p : Option picture_t)
    (tr : List Event) : same_effects (decode_done d sys p tr) (decode_done d' sys p tr) := by
  simp [same_effects, decode_done]

theorem decode_output_same (env : DecodeEnv) (d d' : decoder_t) (sys : decoder_sys_t)
    (tr : List Event) :
    same_effects (decode_output env d sys tr) (decode_output env d' sys tr) := by
  unfold decode_output
  split
  · exact decode_done_same _ _ _ _ _
  · exact decode_done_same _ _ _ _ _
  · split
    · exact decode_done_same _ _ _ _ _
    · simp only []
      split <;> exact decode_done_same _ _ _ _ _

theorem decode_messages_same (env : DecodeEnv) (d d' : decoder_t) (sys : decoder_sys_t)
    (tr : List Event) :
    same_effects (decode_messages env d sys tr) (decode_messages env d' sys tr) := by
  unfold decode_messages
  split
  · exact decode_output_same _ _ _ _ _
  · split
    · exact decode_output_same _ _ _ _ _
    · simp only []
      split
      · exact decode_output_same _ _ _ _ _
      · exact decode_output_same _ _ _ _ _
      · split_ifs
        · exact decode_done_same _ _ _ _ _
        · exact decode_output_same _ _ _ _ _

/-- `DecodeBlock` reads the decoder only through `fmt_in` and `p_sys`. -/
theorem DecodeBlock_same (K : HostConsts) (env : DecodeEnv) (d d' : decoder_t)
    (pp : Option (Option block_t)) (hfmt : d.fmt_in = d'.fmt_in) (hsys : d.p_sys = d'.p_sys) :
    same_effects (DecodeBlock K env d pp) (DecodeBlock K env d' pp) := by
  unfold DecodeBlock
  cases pp with
  | none => simp [same_effects, hsys]
  | some slot =>
    simp only [← hsys, ← hfmt]
    cases hs : d.p_sys with
    | none => simp [same_effects, hsys, ← hs]
    | some sys =>
      cases slot with
      | none => exact decode_messages_same _ _ _ _ _
      | some p_block =>
        simp only []
        split_ifs
        · exact decode_done_same _ _ _ _ _
        · exact decode_done_same _ _ _ _ _
        · exact decode_done_same _ _ _ _ _
        · exact decode_done_same _ _ _ _ _
        · exact decode_messages_same _ _ _ _ _
        · exact decode_messages_same _ _ _ _ _

/-- The calls of `decode_output` come after those already made. -/
theorem decode_output_unref_iff (env : DecodeEnv) (d : decoder_t) (sys : decoder_sys_t)
    (tr : List Event) (m : GstMessage) :
    Event.message_unref m ∈ (decode_output env d sys tr).trace ↔
      Event.message_unref m ∈ tr := by
  unfold decode_output
  split
  · simp [decode_done]
  · simp [decode_done]
  · split
    · simp [decode_done]
    · simp only []
      split <;> simp [decode_done]

/-- When the polled message is an error, `decode_messages` stops at once. -/
theorem decode_messages_error (env : DecodeEnv) (d : decoder_t) (sys : decoder_sys_t)
    (tr : List Event) (bus bus1 : GstBus) (m : GstMessage) (hb : sys.p_bus = some bus)
    (hpop : gst_bus_pop_filtered bus decode_mask = (some m, bus1))
    (hm : m.type = GstMessageType.GST_MESSAGE_ERROR) :
    decode_messages env d sys tr =
      decode_done { d with b_error := true } { sys with p_bus := some bus1 } none
        (tr ++ [Event.message_unref m]) := by
  unfold decode_messages
  simp [hb, hpop, hm, default_msg_handler]

/-- A message released by `decode_messages` is the one it polled. -/
theorem decode_messages_unref (env : DecodeEnv) (d : decoder_t) (sys : decoder_sys_t)
    (tr : List Event) (m : GstMessage)
    (h : Event.message_unref m ∈ (decode_messages env d sys tr).trace)
    (htr : Event.message_unref m ∉ tr) :
    ∃ bus bus1, sys.p_bus = some bus ∧
      gst_bus_pop_filtered bus decode_mask = (some m, bus1) := by
  unfold decode_messages at h
  cases hb : sys.p_bus with
  | none => simp [hb, decode_output_unref_iff, htr] at h
  | some bus =>
    simp only [hb] at h
    cases hpop : gst_bus_pop_filtered bus decode_mask with
    | mk om bus1 =>
      cases om with
      | none => simp [hpop, decode_output_unref_iff, htr] at h
      | some m' =>
        have hmm : m = m' := by
          simp only [hpop] at h
          split at h
          · simpa [decode_output_unref_iff, htr] using h
          · simpa [decode_output_unref_iff, htr] using h
          · split_ifs at h
            · simpa [decode_done, htr] using h
            · simpa [decode_output_unref_iff, htr] using h
        subst hmm
        exact ⟨bus, bus1, rfl, hpop⟩

theorem and_or_ne_zero (a b c : Nat) (h : a &&& b ≠ 0) : a &&& (b ||| c) ≠ 0 := by
  intro h0
  apply h
  apply Nat.eq_of_testBit_eq
  intro i
  have := congrArg (fun n => Nat.testBit n i) h0
  simp only [Nat.testBit_and, Nat.testBit_or, Nat.zero_testBit] at this ⊢
  cases ha : a.testBit i <;> cases hb : b.testBit i <;> simp_all

/-- A call that released a status message is a call that reached
`check_messages` and polled that message there. -/
theorem DecodeBlock_polled (K : HostConsts) (env : DecodeEnv) (d : decoder_t)
    (pp : Option (Option block_t)) (m : GstMessage)
    (h : Event.message_unref m ∈ (DecodeBlock K env d pp).trace) :
    ∃ sys bus bus1 tr, d.p_sys = some sys ∧ sys.p_bus = some bus ∧
      gst_bus_pop_filtered bus decode_mask = (some m, bus1) ∧
      DecodeBlock K env d pp = decode_messages env d sys tr := by
  unfold DecodeBlock at h ⊢
  cases pp with
  | none => simp at h
  | some slot =>
    cases hs : d.p_sys with
    | none => simp [hs] at h
    | some sys =>
      simp only [hs] at h ⊢
      cases slot with
      | none =>
        obtain ⟨bus, bus1, hb, hpop⟩ := decode_messages_unref env d sys [] m h (by simp)
        exact ⟨sys, bus, bus1, [], rfl, hb, hpop, rfl⟩
      | some p_block =>
        simp only [] at h ⊢
        split_ifs at h ⊢
        · simp [decode_done] at h
        · simp [decode_done] at h
        · simp [decode_done] at h
        · simp [decode_done] at h
        · obtain ⟨bus, bus1, hb, hpop⟩ := decode_messages_unref env d sys _ m h (by simp)
          exact ⟨sys, bus, bus1, _, rfl, hb, hpop, rfl⟩
        · obtain ⟨bus, bus1, hb, hpop⟩ := decode_messages_unref env d sys _ m h (by simp)
          exact ⟨sys, bus, bus1, _, rfl, hb, hpop, rfl⟩

/-- C4 as stated fails: a flush call on `errDec` observes the error and sets
the fatal flag; the next call, on that decoder, pushes its block to the source
and returns a picture. -/
theorem C4_not_short_circuited :
    (DecodeBlock hostDefaults {} errDec (some none)).dec.b_error = true ∧
    (DecodeBlock hostDefaults {} errDec (some none)).pic = none ∧
    (DecodeBlock hostDefaults okEnv (DecodeBlock hostDefaults {} errDec (some none)).dec
      (some (some plainBlock))).pic ≠ none ∧
    Event.app_src_push_buffer (input_buffer hostDefaults {} plainBlock) ∈
      (DecodeBlock hostDefaults okEnv (DecodeBlock hostDefaults {} errDec (some none)).dec
        (some (some plainBlock))).trace := by
  decide

/-- C4, amended. A call that observes an error message sets the fatal flag
and returns no picture. `DecodeBlock` itself never reads the flag: whatever
its value on entry, the call returns the same picture, makes the same calls
(pushes included), and leaves the same `decoder_sys_t` and caller slot. -/
theorem C4_flag_not_consulted (K : HostConsts) (env : DecodeEnv) (d : decoder_t)
    (pp : Option (Option block_t)) :
    (∀ m, m.type = GstMessageType.GST_MESSAGE_ERROR →
      Event.message_unref m ∈ (DecodeBlock K env d pp).trace →
      (DecodeBlock K env d pp).dec.b_error = true ∧ (DecodeBlock K env d pp).pic = none) ∧
    same_effects (DecodeBlock K env { d with b_error := true } pp)
      (DecodeBlock K env { d with b_error := false } pp) := by
  refine ⟨?_, DecodeBlock_same K env _ _ pp rfl rfl⟩
  intro m hm h
  obtain ⟨sys, bus, bus1, tr, -, hb, hpop, heq⟩ := DecodeBlock_polled K env d pp m h
  rw [heq, decode_messages_error env d sys tr bus bus1 m hb hpop hm]
  simp [decode_done]

/-- C4 amended, on `errDec`: the flush call that polls the pending error sets
the flag and returns no picture. -/
theorem C4_flag_not_consulted_witness :
    (DecodeBlock hostDefaults {} errDec (some none)).dec.b_error = true ∧
    (DecodeBlock hostDefaults {} errDec (some none)).pic = none :=
  (C4_flag_not_consulted hostDefaults {} errDec (some none)).1 stream_error rfl (by decide)

/-! ## Properties of pipeline construction -/

theorem count_eq_zero_of_building {sys : decoder_sys_t} {tr : List Event}
    (hb : building sys tr) (e : Event) (hn : neutral e = false)
    (hc : ∀ h, e ≠ Event.created h) : tr.count e = 0 := by
  rw [List.count_eq_zero]
  intro hmem
  rcases hb.2.2 e hmem with h | ⟨h, rfl⟩
  · rw [hn] at h
    exact Bool.noConfusion h
  · exact hc h rfl

theorem close_trace_idle (env : CloseEnv) (d : decoder_t) (sys : decoder_sys_t)
    (hrun : sys.b_running = false) (hq : ∀ q, sys.p_que = some q → q = []) :
    (CloseDecoder env { d with p_sys := some sys }).trace =
      unref_if sys.p_que Handle.que ++ unref_if sys.p_bus Handle.bus ++
      unref_if sys.p_decode_src Handle.decode_src ++
      unref_if sys.p_decode_in Handle.decode_in ++
      unref_if sys.p_decode_out Handle.decode_out ++
      unref_if sys.p_decoder Handle.decoder ++ [Event.free_sys] := by
  simp only [CloseDecoder, close_wait, hrun]
  cases hque : sys.p_que with
  | none => simp [unref_if]
  | some q =>
    have := hq q hque
    subst this
    simp [unref_if]

theorem count_unref_if {α : Type} (o : Option α) (h h' : Handle) :
    (unref_if o h).count (Event.object_unref h') =
      if h = h' ∧ o.isSome = true then 1 else 0 := by
  cases o <;> by_cases hh : h = h' <;> simp [unref_if, List.count_cons, hh]

theorem count_other_unref_if {α : Type} (o : Option α) (h : Handle) (e : Event)
    (he : ∀ h', e ≠ Event.object_unref h') : (unref_if o h).count e = 0 := by
  cases o
  · simp [unref_if]
  · simp only [unref_if, List.count_cons, List.count_nil]
    have := he h
    simp [Ne.symm this]

theorem count_zero_of_neutral (l : List Event) (hl : ∀ x ∈ l, neutral x = true) (e : Event)
    (he : neutral e = false) : l.count e = 0 := by
  rw [List.count_eq_zero]
  intro hmem
  rw [hl e hmem] at he
  exact Bool.noConfusion he

/-- The trace of the `fail:` path, in four parts. -/
theorem open_fail_trace (env : OpenEnv) (d : decoder_t) (sys : decoder_sys_t)
    (a b c : Bool) (r : VlcRet) (tr : List Event)
    (hb : building sys tr) :
    ∃ mid, (∀ x ∈ mid, neutral x = true) ∧
      (open_fail env d sys a b c r tr).trace = tr ++ mid ++
      (unref_if sys.p_que Handle.que ++ unref_if sys.p_bus Handle.bus ++
        unref_if sys.p_decode_src Handle.decode_src ++
        unref_if sys.p_decode_in Handle.decode_in ++
        unref_if sys.p_decode_out Handle.decode_out ++
        unref_if sys.p_decoder Handle.decoder) ++ [Event.free_sys] := by
  have hclose := close_trace_idle env.close d sys hb.1 hb.2.1
  refine ⟨(if a then [Event.sinkcaps_unref] else []) ++
      (if b then [Event.srccaps_unref] else []) ++
      (if c then [Event.feature_list_free] else []), ?_, ?_⟩
  · intro x hx
    simp only [List.mem_append] at hx
    rcases hx with (hx | hx) | hx <;> split_ifs at hx <;> simp at hx <;> subst hx <;> rfl
  · simp only [open_fail, hclose, List.append_assoc]

theorem open_fail_cleaned (env : OpenEnv) (d : decoder_t) (sys : decoder_sys_t)
    (a b c : Bool) (r : VlcRet) (tr : List Event)
    (hb : building sys tr) (ho : created_once sys tr) :
    cleaned (open_fail env d sys a b c r tr).trace := by
  obtain ⟨mid, hmid, htr⟩ := open_fail_trace env d sys a b c r tr hb
  rw [htr]
  have hz := fun e hn hc => count_eq_zero_of_building hb e hn hc
  have hm := count_zero_of_neutral mid hmid
  have hcreated : ∀ h, (tr ++ mid ++
      (unref_if sys.p_que Handle.que ++ unref_if sys.p_bus Handle.bus ++
        unref_if sys.p_decode_src Handle.decode_src ++
        unref_if sys.p_decode_in Handle.decode_in ++
        unref_if sys.p_decode_out Handle.decode_out ++
        unref_if sys.p_decoder Handle.decoder) ++ [Event.free_sys]).count (Event.created h) =
      if handle_set sys h then 1 else 0 := by
    intro h
    simp only [List.count_append, ho h, hm (Event.created h) rfl,
      count_other_unref_if _ _ (Event.created h) (fun _ => by simp)]
    simp [List.count_cons]
  refine ⟨fun h => ⟨?_, ?_⟩, ?_, ?_, ?_, ?_⟩
  · rw [hcreated h]
    split_ifs <;> simp
  · rw [hcreated h]
    simp only [List.count_append, hz (Event.object_unref h) rfl (fun _ => by simp),
      hm (Event.object_unref h) rfl, count_unref_if]
    cases h <;> simp [handle_set, List.count_cons]
  · rw [← List.count_eq_zero]
    simp only [List.count_append, hz Event.app_src_end_of_stream rfl (fun _ => by simp),
      hm Event.app_src_end_of_stream rfl,
      count_other_unref_if _ _ Event.app_src_end_of_stream (fun _ => by simp)]
    simp [List.count_cons]
  · intro n
    rw [← List.count_eq_zero]
    simp only [List.count_append, hz (Event.bus_timed_pop n) rfl (fun _ => by simp),
      hm (Event.bus_timed_pop n) rfl,
      count_other_unref_if _ _ (Event.bus_timed_pop n) (fun _ => by simp)]
    simp [List.count_cons]
  · rw [← List.count_eq_zero]
    simp only [List.count_append, hz Event.set_state_null rfl (fun _ => by simp),
      hm Event.set_state_null rfl,
      count_other_unref_if _ _ Event.set_state_null (fun _ => by simp)]
    simp [List.count_cons]
  · simp only [List.count_append, hz Event.free_sys rfl (fun _ => by simp),
      hm Event.free_sys rfl,
      count_other_unref_if _ _ Event.free_sys (fun _ => by simp)]
    simp [List.count_cons]

theorem inv_neutral {sys : decoder_sys_t} {tr : List Event} (hi : inv sys tr)
    (l : List Event) (hl : ∀ x ∈ l, neutral x = true) : inv sys (tr ++ l) := by
  refine ⟨⟨hi.1.1, hi.1.2.1, ?_⟩, ?_⟩
  · intro e he
    rcases List.mem_append.mp he with h | h
    · exact hi.1.2.2 e h
    · exact Or.inl (hl e h)
  · intro h
    rw [List.count_append, hi.2 h, count_zero_of_neutral l hl (Event.created h) rfl,
      Nat.add_zero]

theorem inv_create {sys sys' : decoder_sys_t} {tr : List Event} (hi : inv sys tr)
    (h0 : Handle) (hnot : handle_set sys h0 = false)
    (hset : ∀ h, handle_set sys' h = (handle_set sys h || decide (h = h0)))
    (hrun : sys'.b_running = false) (hq : ∀ q, sys'.p_que = some q → q = []) :
    inv sys' (tr ++ [Event.created h0]) := by
  refine ⟨⟨hrun, hq, ?_⟩, ?_⟩
  · intro e he
    rcases List.mem_append.mp he with h | h
    · exact hi.1.2.2 e h
    · right
      exact ⟨h0, by simpa using h⟩
  · intro h
    rw [List.count_append, hi.2 h, hset h]
    by_cases hh : h = h0
    · subst hh
      simp [hnot, List.count_cons]
    · have : ¬ h0 = h := fun e => hh e.symm
      simp [hh, this, List.count_cons]

theorem open_link_clean (env : OpenEnv) (d : decoder_t) (sys : decoder_sys_t)
    (tr : List Event) (hi : inv sys tr) : fail_clean (open_link env d sys tr) := by
  unfold open_link
  split_ifs <;> intro hfail
  · exact open_fail_cleaned _ _ _ _ _ _ _ _ hi.1 hi.2
  · exact open_fail_cleaned _ _ _ _ _ _ _ _ hi.1 hi.2
  · have hi2 := inv_neutral hi [Event.set_state_playing] (by simp [neutral])
    exact open_fail_cleaned _ _ _ _ _ _ _ _ hi2.1 hi2.2
  · exact absurd rfl hfail

theorem open_bus_clean (env : OpenEnv) (d : decoder_t) (sys : decoder_sys_t)
    (tr : List Event) (hi : inv sys tr) (hbus : handle_set sys Handle.bus = false) :
    fail_clean (open_bus env d sys tr) := by
  unfold open_bus
  split_ifs
  · intro _
    exact open_fail_cleaned _ _ _ _ _ _ _ _ hi.1 hi.2
  · have h1 : inv { sys with p_bus := some [] } (tr ++ [Event.created Handle.bus]) :=
      inv_create hi Handle.bus hbus (fun h => by cases h <;> simp [handle_set]) hi.1.1 hi.1.2.1
    have h2 := inv_neutral h1 [Event.set_bus, Event.bin_add_many,
      Event.object_ref Handle.decode_src, Event.object_ref Handle.decode_in,
      Event.object_ref Handle.decode_out] (by simp [neutral])
    rw [List.append_assoc] at h2
    exact open_link_clean _ _ _ _ h2

theorem open_bin_clean (env : OpenEnv) (d : decoder_t) (sys : decoder_sys_t)
    (tr : List Event) (hi : inv sys tr) (hbus : handle_set sys Handle.bus = false)
    (hbin : handle_set sys Handle.decoder = false) :
    fail_clean (open_bin env d sys tr) := by
  unfold open_bin
  split_ifs
  · intro _
    exact open_fail_cleaned _ _ _ _ _ _ _ _ hi.1 hi.2
  · exact open_bus_clean _ _ _ _
      (inv_create hi Handle.decoder hbin (fun h => by cases h <;> simp [handle_set])
        hi.1.1 hi.1.2.1) (by simpa [handle_set] using hbus)

theorem open_sink_clean (env : OpenEnv) (d : decoder_t) (sys : decoder_sys_t)
    (tr : List Event) (hi : inv sys tr) (hbus : handle_set sys Handle.bus = false)
    (hbin : handle_set sys Handle.decoder = false)
    (hout : handle_set sys Handle.decode_out = false) :
    fail_clean (open_sink env d sys tr) := by
  unfold open_sink
  split_ifs
  · intro _
    exact open_fail_cleaned _ _ _ _ _ _ _ _ hi.1 hi.2
  · exact open_bin_clean _ _ _ _
      (inv_create hi Handle.decode_out hout (fun h => by cases h <;> simp [handle_set])
        hi.1.1 hi.1.2.1) (by simpa [handle_set] using hbus) (by simpa [handle_set] using hbin)

theorem open_decodebin_clean (env : OpenEnv) (d : decoder_t) (sys : decoder_sys_t)
    (tr : List Event) (hi : inv sys tr) (hbus : handle_set sys Handle.bus = false)
    (hbin : handle_set sys Handle.decoder = false)
    (hout : handle_set sys Handle.decode_out = false)
    (hin : env.use_decodebin = true → handle_set sys Handle.decode_in = false) :
    fail_clean (open_decodebin env d sys tr) := by
  unfold open_decodebin
  split_ifs with hdb hok
  · intro _
    exact open_fail_cleaned _ _ _ _ _ _ _ _ hi.1 hi.2
  · exact open_sink_clean _ _ _ _
      (inv_create hi Handle.decode_in (hin hdb) (fun h => by cases h <;> simp [handle_set])
        hi.1.1 hi.1.2.1) (by simpa [handle_set] using hbus) (by simpa [handle_set] using hbin)
      (by simpa [handle_set] using hout)
  · exact open_sink_clean _ _ _ _ hi hbus hbin hout

theorem open_src_clean (env : OpenEnv) (d : decoder_t) (sys : decoder_sys_t)
    (tr : List Event) (hi : inv sys tr) (hbus : handle_set sys Handle.bus = false)
    (hbin : handle_set sys Handle.decoder = false)
    (hout : handle_set sys Handle.decode_out = false)
    (hin : env.use_decodebin = true → handle_set sys Handle.decode_in = false)
    (hsrc : handle_set sys Handle.decode_src = false) :
    fail_clean (open_src env d sys tr) := by
  unfold open_src
  split_ifs
  · intro _
    exact open_fail_cleaned _ _ _ _ _ _ _ _ hi.1 hi.2
  · have h1 : inv { sys with p_decode_src := some { factory := "appsrc" } }
        (tr ++ [Event.created Handle.decode_src]) :=
      inv_create hi Handle.decode_src hsrc (fun h => by cases h <;> simp [handle_set])
        hi.1.1 hi.1.2.1
    have h2 := inv_neutral h1 [Event.sinkcaps_unref] (by simp [neutral])
    rw [List.append_assoc] at h2
    exact open_decodebin_clean _ _ _ _ h2 (by simpa [handle_set] using hbus)
      (by simpa [handle_set] using hbin) (by simpa [handle_set] using hout)
      (fun hdb => by simpa [handle_set] using hin hdb)

theorem open_build_clean (env : OpenEnv) (d : decoder_t) (sys : decoder_sys_t)
    (tr : List Event) (hi : inv sys tr) (hbus : handle_set sys Handle.bus = false)
    (hbin : handle_set sys Handle.decoder = false)
    (hout : handle_set sys Handle.decode_out = false)
    (hin : env.use_decodebin = true → handle_set sys Handle.decode_in = false)
    (hsrc : handle_set sys Handle.decode_src = false)
    (hque : handle_set sys Handle.que = false) :
    fail_clean (open_build env d sys tr) := by
  have h0 : inv { sys with b_prerolled := false, b_running := false } tr :=
    ⟨⟨rfl, hi.1.2.1, hi.1.2.2⟩, hi.2⟩
  unfold open_build
  simp only []
  split_ifs
  · intro _
    exact open_fail_cleaned _ _ _ _ _ _ _ _ h0.1 h0.2
  · exact open_src_clean _ _ _ _
      (inv_create h0 Handle.que (by simpa [handle_set] using hque)
        (fun h => by cases h <;> simp [handle_set]) rfl (by simp))
      (by simpa [handle_set] using hbus) (by simpa [handle_set] using hbin)
      (by simpa [handle_set] using hout) (fun hdb => by simpa [handle_set] using hin hdb)
      (by simpa [handle_set] using hsrc)

theorem open_fail_ret (env : OpenEnv) (d : decoder_t) (sys : decoder_sys_t)
    (a b c : Bool) (r : VlcRet) (tr : List Event) :
    (open_fail env d sys a b c r tr).ret = r := rfl

theorem open_link_ret (env : OpenEnv) (d : decoder_t) (sys : decoder_sys_t)
    (tr : List Event) :
    (open_link env d sys tr).ret = VlcRet.VLC_SUCCESS ↔
      (env.link_src_in_ok = true ∧ (env.use_decodebin = false → env.link_in_out_ok = true) ∧
        env.set_state_ok = true) := by
  unfold open_link
  split_ifs <;> simp_all [open_fail_ret]

theorem open_bus_ret (env : OpenEnv) (d : decoder_t) (sys : decoder_sys_t)
    (tr : List Event) :
    (open_bus env d sys tr).ret = VlcRet.VLC_SUCCESS ↔
      (env.bus_new_ok = true ∧ env.link_src_in_ok = true ∧
        (env.use_decodebin = false → env.link_in_out_ok = true) ∧ env.set_state_ok = true) := by
  unfold open_bus
  split_ifs <;> simp_all [open_fail_ret, open_link_ret]

theorem open_bin_ret (env : OpenEnv) (d : decoder_t) (sys : decoder_sys_t)
    (tr : List Event) :
    (open_bin env d sys tr).ret = VlcRet.VLC_SUCCESS ↔
      (env.bin_new_ok = true ∧ env.bus_new_ok = true ∧ env.link_src_in_ok = true ∧
        (env.use_decodebin = false → env.link_in_out_ok = true) ∧ env.set_state_ok = true) := by
  unfold open_bin
  split_ifs <;> simp_all [open_fail_ret, open_bus_ret]

theorem open_sink_ret (env : OpenEnv) (d : decoder_t) (sys : decoder_sys_t)
    (tr : List Event) :
    (open_sink env d sys tr).ret = VlcRet.VLC_SUCCESS ↔
      (env.fakesink_ok = true ∧ env.bin_new_ok = true ∧ env.bus_new_ok = true ∧
        env.link_src_in_ok = true ∧
        (env.use_decodebin = false → env.link_in_out_ok = true) ∧ env.set_state_ok = true) := by
  unfold open_sink
  split_ifs <;> simp_all [open_fail_ret, open_bin_ret]

theorem open_decodebin_ret (env : OpenEnv) (d : decoder_t) (sys : decoder_sys_t)
    (tr : List Event) :
    (open_decodebin env d sys tr).ret = VlcRet.VLC_SUCCESS ↔
      ((env.use_decodebin = true → env.decodebin_ok = true) ∧
        env.fakesink_ok = true ∧ env.bin_new_ok = true ∧ env.bus_new_ok = true ∧
        env.link_src_in_ok = true ∧
        (env.use_decodebin = false → env.link_in_out_ok = true) ∧ env.set_state_ok = true) := by
  unfold open_decodebin
  split_ifs <;> simp_all [open_fail_ret, open_sink_ret]

theorem open_src_ret (env : OpenEnv) (d : decoder_t) (sys : decoder_sys_t)
    (tr : List Event) :
    (open_src env d sys tr).ret = VlcRet.VLC_SUCCESS ↔
      (env.appsrc_ok = true ∧ (env.use_decodebin = true → env.decodebin_ok = true) ∧
        env.fakesink_ok = true ∧ env.bin_new_ok = true ∧ env.bus_new_ok = true ∧
        env.link_src_in_ok = true ∧
        (env.use_decodebin = false → env.link_in_out_ok = true) ∧ env.set_state_ok = true) := by
  unfold open_src
  split_ifs <;> simp_all [open_fail_ret, open_decodebin_ret]

theorem open_build_ret (env : OpenEnv) (d : decoder_t) (sys : decoder_sys_t)
    (tr : List Event) :
    (open_build env d sys tr).ret = VlcRet.VLC_SUCCESS ↔ build_ok env := by
  unfold open_build build_ok
  simp only []
  split_ifs <;> simp_all [open_fail_ret, open_src_ret]

theorem open_select_ret (env : OpenEnv) (d : decoder_t) (sys : decoder_sys_t)
    (caps : sink_src_caps_t) (tr : List Event) :
    (open_select env d sys caps tr).ret = VlcRet.VLC_SUCCESS ↔ construction_ok env caps := by
  unfold open_select construction_ok selected_factory
  cases hd : env.decoders with
  | nil => simp [open_fail_ret]
  | cons a l =>
    by_cases hdb : env.use_decodebin = true
    · simp only [hdb]
      simp only [Bool.not_true, Bool.false_eq_true, if_false, if_true]
      split
      · rename_i hnone
        simp [open_fail_ret, hnone]
      · rename_i f hsome
        simp [open_build_ret, hsome]
    · have hdb2 : env.use_decodebin = false := by simpa using hdb
      simp only [hdb2, Bool.not_false, Bool.false_eq_true, if_true, if_false]
      split
      · rename_i hsort
        simp [open_fail_ret, hsort, g_list_find_custom]
      · split
        · rename_i hnone
          simp [open_fail_ret, hnone]
        · rename_i f hsome
          by_cases hc : env.factory_create_ok f = true
          · simp [open_build_ret, hsome, hc]
          · simp only [Bool.not_eq_true] at hc
            simp [open_fail_ret, hsome, hc]

theorem open_select_clean (env : OpenEnv) (d : decoder_t) (caps : sink_src_caps_t) :
    fail_clean (open_select env d {} caps [Event.calloc_sys]) := by
  have hi0 : inv {} [Event.calloc_sys] :=
    ⟨⟨rfl, by simp, by simp [neutral]⟩, fun h => by cases h <;> simp [handle_set]⟩
  have hfailc : ∀ a b c r, cleaned (open_fail env d {} a b c r [Event.calloc_sys]).trace :=
    fun a b c r => open_fail_cleaned _ _ _ _ _ _ _ _ hi0.1 hi0.2
  unfold open_select
  cases hd : env.decoders with
  | nil => exact fun _ => hfailc _ _ _ _
  | cons a l =>
    simp only []
    split_ifs with hdb
    · split
      · exact fun _ => hfailc _ _ _ _
      · split
        · exact fun _ => hfailc _ _ _ _
        · rename_i f hsome
          have hi1 := inv_neutral hi0 [Event.factory_create f] (by simp [neutral])
          split_ifs
          · exact fun _ => open_fail_cleaned _ _ _ _ _ _ _ _ hi1.1 hi1.2
          · have hi2 : inv { p_decode_in := some { factory := f.name } }
                ([Event.calloc_sys] ++ [Event.factory_create f] ++
                  [Event.created Handle.decode_in]) :=
              inv_create hi1 Handle.decode_in rfl (fun h => by cases h <;> simp [handle_set])
                rfl (by simp)
            have hi3 := inv_neutral hi2 [Event.feature_list_free, Event.srccaps_unref]
              (by simp [neutral])
            simp only [Bool.not_eq_true', Bool.not_eq_false] at hdb
            exact open_build_clean _ _ _ _ (by simpa using hi3) rfl rfl rfl
              (fun h => by simp [hdb] at h) rfl rfl
    · split
      · exact fun _ => hfailc _ _ _ _
      · have hi1 := inv_neutral hi0 [Event.feature_list_free, Event.srccaps_unref]
          (by simp [neutral])
        exact open_build_clean _ _ _ _ hi1 rfl rfl rfl (fun _ => rfl) rfl rfl

/-- C7. `OpenDecoder` returns `VLC_SUCCESS` exactly when the descriptor is
built, the decoder state is allocated and every step of the selection and of
the construction succeeds; and whenever it fails after the decoder state was
allocated, the trace up to and through `CloseDecoder` creates each handle at
most once, releases each handle exactly as often as it was created, contains
neither the end-of-stream signal, nor the timed wait, nor the state change to
NULL, and frees the decoder state once. -/
theorem C7_open_failure_cleanup (K : HostConsts) (env : OpenEnv) (p_dec : decoder_t) :
    ((OpenDecoder K env p_dec).ret = VlcRet.VLC_SUCCESS ↔
      ∃ p_str, vlc_to_gst_fmt K env.wrap_ok p_dec.fmt_in = some p_str ∧
        env.calloc_ok = true ∧
        construction_ok env
          { p_sinkcaps := [p_str], p_srccaps := [gst_structure_new_empty "video/x-raw"] }) ∧
    (Event.calloc_sys ∈ (OpenDecoder K env p_dec).trace →
      (OpenDecoder K env p_dec).ret ≠ VlcRet.VLC_SUCCESS →
      cleaned (OpenDecoder K env p_dec).trace) := by
  unfold OpenDecoder
  cases hstr : vlc_to_gst_fmt K env.wrap_ok p_dec.fmt_in with
  | none => simp
  | some p_str =>
    by_cases hc : env.calloc_ok = true
    · simp only [hc, Bool.not_true, Bool.false_eq_true, if_false]
      refine ⟨?_, fun _ => open_select_clean env p_dec _⟩
      rw [open_select_ret]
      simp
    · simp only [Bool.not_eq_true] at hc
      simp [hc]

/-- C7 on a concrete failure: in auto mode with a fakesink that cannot be
created, the open fails and its trace is cleaned. -/
theorem C7_open_failure_cleanup_witness :
    (OpenDecoder hostDefaults noSinkEnv h264Dec).ret = VlcRet.VLC_ENOMOD ∧
    cleaned (OpenDecoder hostDefaults noSinkEnv h264Dec).trace :=
  ⟨by decide,
   (C7_open_failure_cleanup hostDefaults noSinkEnv h264Dec).2 (by decide) (by decide)⟩

/-! ## Polling, harvest and flush -/

theorem popped_append (a b : List Event) : popped (a ++ b) = popped a ++ popped b := by
  induction a with
  | nil => rfl
  | cons e t ih => cases e <;> simp [popped, ih]

theorem pushed_append (a b : List Event) : pushed (a ++ b) = pushed a ++ pushed b := by
  induction a with
  | nil => rfl
  | cons e t ih => cases e <;> simp [pushed, ih]

/-- The feeding part of a call that reaches `check_messages` pops nothing. -/
theorem DecodeBlock_polled_feed (K : HostConsts) (env : DecodeEnv) (d : decoder_t)
    (pp : Option (Option block_t)) (m : GstMessage)
    (h : Event.message_unref m ∈ (DecodeBlock K env d pp).trace) :
    ∃ sys bus bus1 tr, d.p_sys = some sys ∧ sys.p_bus = some bus ∧
      gst_bus_pop_filtered bus decode_mask = (some m, bus1) ∧
      DecodeBlock K env d pp = decode_messages env d sys tr ∧ popped tr = [] := by
  unfold DecodeBlock at h ⊢
  cases pp with
  | none => simp at h
  | some slot =>
    cases hs : d.p_sys with
    | none => simp [hs] at h
    | some sys =>
      simp only [hs] at h ⊢
      cases slot with
      | none =>
        obtain ⟨bus, bus1, hb, hpop⟩ := decode_messages_unref env d sys [] m h (by simp)
        exact ⟨sys, bus, bus1, [], rfl, hb, hpop, rfl, rfl⟩
      | some p_block =>
        simp only [] at h ⊢
        split_ifs at h ⊢
        · simp [decode_done] at h
        · simp [decode_done] at h
        · simp [decode_done] at h
        · simp [decode_done] at h
        · obtain ⟨bus, bus1, hb, hpop⟩ := decode_messages_unref env d sys _ m h (by simp)
          exact ⟨sys, bus, bus1, _, rfl, hb, hpop, rfl, rfl⟩
        · obtain ⟨bus, bus1, hb, hpop⟩ := decode_messages_unref env d sys _ m h (by simp)
          exact ⟨sys, bus, bus1, _, rfl, hb, hpop, rfl, rfl⟩

/-- C8. When the status message polled by a call is an error, the call sets
the fatal flag, returns no picture, pops nothing and leaves the queue as it
was; and `default_msg_handler` reports an error for error messages and for no
other message type. -/
theorem C8_error_message (K : HostConsts) (env : DecodeEnv) (d : decoder_t)
    (pp : Option (Option block_t)) (m : GstMessage)
    (hm : m.type = GstMessageType.GST_MESSAGE_ERROR)
    (h : Event.message_unref m ∈ (DecodeBlock K env d pp).trace) :
    (DecodeBlock K env d pp).dec.b_error = true ∧
    (DecodeBlock K env d pp).pic = none ∧
    popped (DecodeBlock K env d pp).trace = [] ∧
    (∃ sys sys', d.p_sys = some sys ∧ (DecodeBlock K env d pp).dec.p_sys = some sys' ∧
      sys'.p_que = sys.p_que) ∧
    (∀ m' : GstMessage, default_msg_handler m' = true ↔
      m'.type = GstMessageType.GST_MESSAGE_ERROR) := by
  obtain ⟨sys, bus, bus1, tr, hsys, hb, hpop, heq, hfeed⟩ :=
    DecodeBlock_polled_feed K env d pp m h
  rw [heq, decode_messages_error env d sys tr bus bus1 m hb hpop hm]
  refine ⟨rfl, rfl, ?_, ⟨sys, _, hsys, rfl, rfl⟩, ?_⟩
  · simp [decode_done, popped_append, hfeed, popped]
  · intro m'
    unfold default_msg_handler
    cases hty : m'.type <;> simp

/-- C8 on `errDec`: the flush call polls the pending error, sets the flag and
leaves the queued unit in place. -/
theorem C8_error_message_witness :
    (DecodeBlock hostDefaults {} errDec (some none)).dec.b_error = true ∧
    (DecodeBlock hostDefaults {} errDec (some none)).pic = none ∧
    popped (DecodeBlock hostDefaults {} errDec (some none)).trace = [] ∧
    queue_of (DecodeBlock hostDefaults {} errDec (some none)).dec = [unit0] :=
  ⟨(C8_error_message hostDefaults {} errDec (some none) stream_error rfl (by decide)).1,
   (C8_error_message hostDefaults {} errDec (some none) stream_error rfl (by decide)).2.1,
   (C8_error_message hostDefaults {} errDec (some none) stream_error rfl (by decide)).2.2.1,
   by decide⟩

/-- C9, the code at the failing input: the head unit cannot be mapped; the
call sets the fatal flag and releases the unit, but it returns the picture it
had obtained from the host (dated from the unit, no plane copied) instead of
no picture. -/
theorem C9_map_failure_returns_picture :
    (DecodeBlock hostDefaults noMapEnv oneUnitDec (some none)).dec.b_error = true ∧
    Event.buffer_unref unit0 ∈ (DecodeBlock hostDefaults noMapEnv oneUnitDec (some none)).trace ∧
    (DecodeBlock hostDefaults noMapEnv oneUnitDec (some none)).pic =
      some { date := 40000, p := [], i_planes := 0 } := by
  decide

theorem queue_of_post_stream_error (d : decoder_t) :
    queue_of (post_stream_error d) = queue_of d := by
  unfold queue_of post_stream_error
  cases d.p_sys <;> simp

theorem queue_of_queue_push (d : decoder_t) (b : GstBuffer) :
    queue_of (queue_push d b) = queue_of d ∨ queue_of (queue_push d b) = queue_of d ++ [b] := by
  unfold queue_of queue_push
  cases hs : d.p_sys with
  | none => simp
  | some sys => cases hq : sys.p_que <;> simp [hq]

theorem queue_of_set_out_fmt (cb : CbEnv) (d : decoder_t) (caps : GstCaps) :
    queue_of (set_out_fmt cb d caps).2 = queue_of d := by
  unfold set_out_fmt
  split
  · exact queue_of_post_stream_error d
  · simp only []
    split_ifs
    · rw [queue_of_post_stream_error]
      unfold queue_of
      cases d.p_sys <;> simp
    · unfold queue_of
      cases d.p_sys <;> simp

/-- `frame_handoff_cb` leaves the queue as it is or adds the unit at the tail. -/
theorem queue_of_frame_handoff_cb (cb : CbEnv) (d : decoder_t) (b : GstBuffer)
    (c : Option GstCaps) :
    queue_of (frame_handoff_cb cb d b c) = queue_of d ∨
      queue_of (frame_handoff_cb cb d b c) = queue_of d ++ [b] := by
  unfold frame_handoff_cb
  split_ifs
  · cases c with
    | none => exact Or.inl (queue_of_post_stream_error d)
    | some caps =>
      simp only []
      split_ifs
      · exact Or.inl (queue_of_set_out_fmt cb d caps)
      · rcases queue_of_queue_push (set_out_fmt cb d caps).2 b with h | h
        · exact Or.inl (h.trans (queue_of_set_out_fmt cb d caps))
        · exact Or.inr (h.trans (by rw [queue_of_set_out_fmt]))
  · exact queue_of_queue_push d b

/-- The harvest removes nothing or the head of the queue. -/
theorem decode_output_queue (env : DecodeEnv) (d : decoder_t) (sys : decoder_sys_t)
    (tr : List Event) :
    ∃ l, l.length ≤ 1 ∧ popped (decode_output env d sys tr).trace = popped tr ++ l ∧
      sys.p_que.getD [] = l ++ queue_of (decode_output env d sys tr).dec := by
  unfold decode_output
  split
  · rename_i hq
    exact ⟨[], by simp, by simp [decode_done], by simp [decode_done, queue_of, hq]⟩
  · rename_i hq
    exact ⟨[], by simp, by simp [decode_done], by simp [decode_done, queue_of, hq]⟩
  · rename_i u rest hq
    split
    · exact ⟨[], by simp, by simp [decode_done], by simp [decode_done, queue_of, hq]⟩
    · simp only []
      split <;>
        exact ⟨[u], by simp, by simp [decode_done, popped_append, popped],
          by simp [decode_done, queue_of, hq]⟩

theorem decode_messages_queue (env : DecodeEnv) (d : decoder_t) (sys : decoder_sys_t)
    (tr : List Event) :
    ∃ l, l.length ≤ 1 ∧ popped (decode_messages env d sys tr).trace = popped tr ++ l ∧
      sys.p_que.getD [] = l ++ queue_of (decode_messages env d sys tr).dec := by
  unfold decode_messages
  split
  · exact decode_output_queue env d sys tr
  · split
    · exact decode_output_queue env d _ tr
    · rename_i m bus1 hpop
      simp only []
      split
      · simpa [popped_append, popped] using decode_output_queue env d
          { sys with p_bus := some bus1 } (tr ++ [Event.message_unref m])
      · simpa [popped_append, popped] using decode_output_queue env d
          { sys with p_bus := some bus1, b_prerolled := true } (tr ++ [Event.message_unref m])
      · split_ifs
        · exact ⟨[], by simp, by simp [decode_done, popped_append, popped],
            by simp [decode_done, queue_of]⟩
        · simpa [popped_append, popped] using decode_output_queue env
            { d with b_error := default_msg_handler m }
            { sys with p_bus := some bus1 } (tr ++ [Event.message_unref m])

theorem popped_flush (q : List GstBuffer) :
    popped ((q.map (fun b => [Event.queue_pop b, Event.buffer_unref b])).flatten) = q := by
  induction q with
  | nil => rfl
  | cons b t ih => simp [popped, ih]

/-- The queue before a call is what the call popped followed by the queue
after it; a call without the discontinuity flag pops at most one unit. -/
theorem DecodeBlock_queue (K : HostConsts) (env : DecodeEnv) (d : decoder_t)
    (pp : Option (Option block_t)) :
    queue_of d = popped (DecodeBlock K env d pp).trace ++ queue_of (DecodeBlock K env d pp).dec ∧
    (¬ is_discontinuity K pp → (popped (DecodeBlock K env d pp).trace).length ≤ 1) := by
  unfold DecodeBlock
  cases pp with
  | none => simp [popped]
  | some slot =>
    cases hs : d.p_sys with
    | none => simp [popped]
    | some sys =>
      have hq : queue_of d = sys.p_que.getD [] := by simp [queue_of, hs]
      cases slot with
      | none =>
        obtain ⟨l, hl, hp, hqq⟩ := decode_messages_queue env d sys []
        simp only [hq, hp, hqq]
        simp [popped, hl]
      | some blk =>
        simp only []
        split_ifs with h1 h2 h3 h4 h5
        · refine ⟨?_, fun hnd => absurd ⟨blk, rfl, h2⟩ hnd⟩
          rw [hq]
          cases hque : sys.p_que <;>
            simp [decode_done, queue_of, popped_append, popped, popped_flush]
        · simp [decode_done, queue_of, popped, hs]
        · simp [decode_done, queue_of, popped, hs]
        · simp [decode_done, queue_of, popped, hs]
        · obtain ⟨l, hl, hp, hqq⟩ := decode_messages_queue env d sys
            [Event.buffer_new_wrapped blk,
              Event.app_src_push_buffer (input_buffer K d.fmt_in blk)]
          simp only [hq, hp, hqq]
          simp [popped, hl]
        · obtain ⟨l, hl, hp, hqq⟩ := decode_messages_queue env d sys [Event.block_Release blk]
          simp only [hq, hp, hqq]
          simp [popped, hl]

/-- Over any sequence of steps, the units popped followed by the units still
queued form a subsequence of the units initially queued followed by the
units handed over: nothing is reordered. -/
theorem run_order (K : HostConsts) (steps : List Step) (d : decoder_t) :
    (popped (run K d steps).2 ++ queue_of (run K d steps).1).Sublist
      (queue_of d ++ handed steps) := by
  induction steps generalizing d with
  | nil => simp [run, handed, popped]
  | cons s t ih =>
    cases s with
    | handoff cb b c =>
      simp only [run, handed]
      have h := ih (frame_handoff_cb cb d b c)
      rcases queue_of_frame_handoff_cb cb d b c with hq | hq
      · rw [hq] at h
        exact h.trans (List.Sublist.append_left (List.sublist_cons_self b _) _)
      · rw [hq] at h
        simpa using h
    | decode env pp =>
      simp only [run, handed, popped_append]
      have h := ih (DecodeBlock K env d pp).dec
      rw [(DecodeBlock_queue K env d pp).1, List.append_assoc, List.append_assoc]
      exact List.Sublist.append_left h _

theorem released_append (a b : List Event) : released (a ++ b) = released a ++ released b := by
  induction a with
  | nil => rfl
  | cons e t ih => cases e <;> simp [released, ih]

theorem released_flush (q : List GstBuffer) :
    released ((q.map (fun b => [Event.queue_pop b, Event.buffer_unref b])).flatten) = q := by
  induction q with
  | nil => rfl
  | cons b t ih => simp [released, ih]

theorem pushed_flush (q : List GstBuffer) :
    pushed ((q.map (fun b => [Event.queue_pop b, Event.buffer_unref b])).flatten) = [] := by
  induction q with
  | nil => rfl
  | cons b t ih => simp [pushed, ih]

theorem flush_no_block_event (q : List GstBuffer) (e : Event)
    (h1 : ∀ b, e ≠ Event.queue_pop b) (h2 : ∀ b, e ≠ Event.buffer_unref b) :
    e ∉ (q.map (fun b => [Event.queue_pop b, Event.buffer_unref b])).flatten := by
  induction q with
  | nil => simp
  | cons b t ih =>
    simp only [List.map_cons, List.flatten_cons, List.mem_append, not_or]
    exact ⟨by simp [h1 b, h2 b], ih⟩

/-- C5. A call whose block carries the discontinuity flag returns no picture;
on return the queue is empty, every unit that was queued has been popped and
released (once each, in queue order), the prerolled flag is false, the block
has been released once without being wrapped or pushed to the source, and the
caller slot is cleared. Hence every unit popped by any later sequence of calls
is a unit the sink handed over after the discontinuity. -/
theorem C5_discontinuity_flush (K : HostConsts) (env : DecodeEnv) (d : decoder_t)
    (sys : decoder_sys_t) (blk : block_t) (hsys : d.p_sys = some sys)
    (hflag : blk.i_flags &&& K.BLOCK_FLAG_DISCONTINUITY ≠ 0) :
    (DecodeBlock K env d (some (some blk))).pic = none ∧
    queue_of (DecodeBlock K env d (some (some blk))).dec = [] ∧
    popped (DecodeBlock K env d (some (some blk))).trace = queue_of d ∧
    released (DecodeBlock K env d (some (some blk))).trace = queue_of d ∧
    (∃ sys', (DecodeBlock K env d (some (some blk))).dec.p_sys = some sys' ∧
      sys'.b_prerolled = false) ∧
    (DecodeBlock K env d (some (some blk))).trace.count (Event.block_Release blk) = 1 ∧
    Event.buffer_new_wrapped blk ∉ (DecodeBlock K env d (some (some blk))).trace ∧
    pushed (DecodeBlock K env d (some (some blk))).trace = [] ∧
    (DecodeBlock K env d (some (some blk))).pp_block = some none ∧
    (∀ steps u, u ∈ popped (run K (DecodeBlock K env d (some (some blk))).dec steps).2 →
      u ∈ handed steps) := by
  have hres : DecodeBlock K env d (some (some blk)) =
      decode_done d { sys with p_que := sys.p_que.map (fun _ => []), b_prerolled := false } none
        ([Event.seek_simple] ++
          ((sys.p_que.getD []).map
            (fun b => [Event.queue_pop b, Event.buffer_unref b])).flatten
          ++ [Event.block_Release blk]) := by
    simp [DecodeBlock, hsys, and_or_ne_zero _ _ _ hflag, hflag]
  have hq : queue_of d = sys.p_que.getD [] := by simp [queue_of, hsys]
  have hempty : queue_of (DecodeBlock K env d (some (some blk))).dec = [] := by
    rw [hres]
    cases hque : sys.p_que <;> simp [decode_done, queue_of, hque]
  refine ⟨by rw [hres]; rfl, hempty, ?_, ?_, ?_, ?_, ?_, ?_, by rw [hres]; rfl, ?_⟩
  · rw [hres, hq]
    simp [decode_done, popped_append, popped, popped_flush]
  · rw [hres, hq]
    simp [decode_done, released_append, released, released_flush]
  · rw [hres]
    exact ⟨_, rfl, rfl⟩
  · rw [hres]
    have := flush_no_block_event (sys.p_que.getD []) (Event.block_Release blk)
      (fun _ => by simp) (fun _ => by simp)
    simp [decode_done, List.count_append, List.count_cons, List.count_eq_zero.mpr this]
  · rw [hres]
    have := flush_no_block_event (sys.p_que.getD []) (Event.buffer_new_wrapped blk)
      (fun _ => by simp) (fun _ => by simp)
    simp [decode_done, this]
  · rw [hres]
    simp [decode_done, pushed_append, pushed, pushed_flush]
  · intro steps u hu
    have h := run_order K steps (DecodeBlock K env d (some (some blk))).dec
    rw [hempty, List.nil_append] at h
    exact h.subset (List.mem_append_left _ hu)

/-- C5 on a decoder with two queued units: both are released and the queue
is empty after the call. -/
theorem C5_discontinuity_flush_witness :
    (DecodeBlock hostDefaults okEnv twoUnitDec (some (some discBlock))).pic = none ∧
    queue_of (DecodeBlock hostDefaults okEnv twoUnitDec (some (some discBlock))).dec = [] ∧
    released (DecodeBlock hostDefaults okEnv twoUnitDec (some (some discBlock))).trace =
      [unit0, unit1] :=
  ⟨(C5_discontinuity_flush hostDefaults okEnv twoUnitDec _ discBlock rfl (by decide)).1,
   (C5_discontinuity_flush hostDefaults okEnv twoUnitDec _ discBlock rfl (by decide)).2.1,
   (C5_discontinuity_flush hostDefaults okEnv twoUnitDec _ discBlock rfl (by decide)).2.2.2.1⟩

/-- A picture returned by the harvest comes with the pop of the head unit,
and is the copy of that unit's frame when the unit maps. -/
theorem decode_output_pic (env : DecodeEnv) (d : decoder_t) (sys : decoder_sys_t)
    (tr : List Event) (pic : picture_t) (h : (decode_output env d sys tr).pic = some pic) :
    ∃ u rest p0, sys.p_que = some (u :: rest) ∧ env.new_picture = some p0 ∧
      popped (decode_output env d sys tr).trace = popped tr ++ [u] ∧
      ∀ frame, env.frame_map sys.vinfo u = some frame →
        pic = gst_CopyPicture (stamp_picture p0 u) frame := by
  unfold decode_output at h ⊢
  split at h
  · simp [decode_done] at h
  · simp [decode_done] at h
  · rename_i u rest hq
    cases hp : env.new_picture with
    | none => simp [hp, decode_done] at h
    | some p0 =>
      refine ⟨u, rest, p0, hq, rfl, ?_, ?_⟩
      · simp only [hq]
        cases hmap : env.frame_map sys.vinfo u <;>
          simp [decode_done, popped_append, popped]
      · intro frame hf
        simp only [hp, hf, decode_done] at h
        exact (Option.some.inj h).symm

theorem decode_messages_pic (env : DecodeEnv) (d : decoder_t) (sys : decoder_sys_t)
    (tr : List Event) (pic : picture_t) (h : (decode_messages env d sys tr).pic = some pic) :
    ∃ u rest p0, sys.p_que = some (u :: rest) ∧ env.new_picture = some p0 ∧
      popped (decode_messages env d sys tr).trace = popped tr ++ [u] ∧
      ∀ frame, env.frame_map sys.vinfo u = some frame →
        pic = gst_CopyPicture (stamp_picture p0 u) frame := by
  unfold decode_messages at h ⊢
  cases hb : sys.p_bus with
  | none =>
    simp only [hb] at h ⊢
    exact decode_output_pic env d sys tr pic h
  | some bus =>
    simp only [hb] at h ⊢
    cases hpop : gst_bus_pop_filtered bus decode_mask with
    | mk om bus1 =>
      cases om with
      | none =>
        simp only [hpop] at h ⊢
        exact decode_output_pic env d _ tr pic h
      | some m =>
        simp only [hpop] at h ⊢
        split at h
        · simpa [popped_append, popped] using decode_output_pic env d _ _ pic h
        · simpa [popped_append, popped] using decode_output_pic env d _ _ pic h
        · split_ifs at h ⊢
          · simp [decode_done] at h
          · simpa [popped_append, popped] using decode_output_pic env _ _ _ pic h

/-- With nothing queued the harvest returns no picture and leaves the fatal
flag as it finds it. -/
theorem decode_output_empty (env : DecodeEnv) (d : decoder_t) (sys : decoder_sys_t)
    (tr : List Event) (hq : sys.p_que.getD [] = []) :
    (decode_output env d sys tr).pic = none ∧
      (decode_output env d sys tr).dec.b_error = d.b_error ∧
      (decode_output env d sys tr).trace = tr := by
  unfold decode_output
  split
  · simp [decode_done]
  · simp [decode_done]
  · rename_i u rest hsome
    simp [hsome] at hq

theorem decode_messages_empty (env : DecodeEnv) (d : decoder_t) (sys : decoder_sys_t)
    (tr : List Event) (hq : sys.p_que.getD [] = []) :
    (decode_messages env d sys tr).pic = none ∧
      ((decode_messages env d sys tr).dec.b_error = true →
        d.b_error = true ∨ ∃ m, m.type = GstMessageType.GST_MESSAGE_ERROR ∧
          Event.message_unref m ∈ (decode_messages env d sys tr).trace) := by
  unfold decode_messages
  split
  · obtain ⟨h1, h2, -⟩ := decode_output_empty env d sys tr hq
    exact ⟨h1, fun h => Or.inl (h2 ▸ h)⟩
  · split
    · obtain ⟨h1, h2, -⟩ := decode_output_empty env d { sys with p_bus := some _ } tr hq
      exact ⟨h1, fun h => Or.inl (h2 ▸ h)⟩
    · rename_i m bus1 hpop
      simp only []
      split
      · obtain ⟨h1, h2, -⟩ := decode_output_empty env d { sys with p_bus := some bus1 }
          (tr ++ [Event.message_unref m]) hq
        exact ⟨h1, fun h => Or.inl (h2 ▸ h)⟩
      · obtain ⟨h1, h2, -⟩ := decode_output_empty env d
          { sys with p_bus := some bus1, b_prerolled := true }
          (tr ++ [Event.message_unref m]) hq
        exact ⟨h1, fun h => Or.inl (h2 ▸ h)⟩
      · split_ifs with herr
        · refine ⟨rfl, fun _ => Or.inr ⟨m, ?_, by simp [decode_done]⟩⟩
          simp only [default_msg_handler] at herr
          split at herr <;> simp_all
        · obtain ⟨h1, h2, -⟩ := decode_output_empty env
            { d with b_error := default_msg_handler m } { sys with p_bus := some bus1 }
            (tr ++ [Event.message_unref m]) hq
          refine ⟨h1, fun h => ?_⟩
          rw [h2] at h
          exact absurd h herr

/-- C10 as stated fails twice: a call whose block carries the discontinuity
flag removes both queued units, not at most one; and with an empty queue a
call that polls an error message does set the fatal flag. -/
theorem C10_more_than_one_unit :
    popped (DecodeBlock hostDefaults okEnv twoUnitDec (some (some discBlock))).trace =
      [unit0, unit1] ∧
    queue_of (DecodeBlock hostDefaults okEnv twoUnitDec (some (some discBlock))).dec = [] ∧
    queue_of emptyErrDec = [] ∧ emptyErrDec.b_error = false ∧
    (DecodeBlock hostDefaults okEnv emptyErrDec (some none)).dec.b_error = true := by
  decide

/-- C10, amended. The queue before a call is the units the call popped
followed by the queue after it, so units leave at the head and the rest keep
their order; a call whose block does not carry the discontinuity flag pops at
most one unit; a picture is returned only together with the pop of the head
unit and, when that unit maps, it is the copy of its frame into the host
picture dated from it; over any sequence of handoffs and calls the units
popped followed by those still queued are a subsequence of the units
initially queued followed by the units handed over. With an empty queue a
call returns no picture, and the fatal flag is set on return only if it was
set on entry, or the wrap or the push failed, or an error message was polled. -/
theorem C10_queue_order (K : HostConsts) (env : DecodeEnv) (d : decoder_t)
    (pp : Option (Option block_t)) :
    queue_of d = popped (DecodeBlock K env d pp).trace ++ queue_of (DecodeBlock K env d pp).dec ∧
    (¬ is_discontinuity K pp → (popped (DecodeBlock K env d pp).trace).length ≤ 1) ∧
    (∀ pic, (DecodeBlock K env d pp).pic = some pic →
      ∃ sys u rest p0, d.p_sys = some sys ∧ sys.p_que = some (u :: rest) ∧
        env.new_picture = some p0 ∧ popped (DecodeBlock K env d pp).trace = [u] ∧
        ∀ frame, env.frame_map sys.vinfo u = some frame →
          pic = gst_CopyPicture (stamp_picture p0 u) frame) ∧
    (∀ steps d0, (popped (run K d0 steps).2 ++ queue_of (run K d0 steps).1).Sublist
      (queue_of d0 ++ handed steps)) ∧
    (queue_of d = [] →
      (DecodeBlock K env d pp).pic = none ∧
      ((DecodeBlock K env d pp).dec.b_error = true →
        d.b_error = true ∨ env.wrap_ok = false ∨ env.push_ok = false ∨
        ∃ m, m.type = GstMessageType.GST_MESSAGE_ERROR ∧
          Event.message_unref m ∈ (DecodeBlock K env d pp).trace)) := by
  refine ⟨(DecodeBlock_queue K env d pp).1, (DecodeBlock_queue K env d pp).2, ?_,
    fun steps d0 => run_order K steps d0, ?_⟩
  · intro pic hpic
    unfold DecodeBlock at hpic ⊢
    cases pp with
    | none => simp at hpic
    | some slot =>
      cases hs : d.p_sys with
      | none => simp [hs] at hpic
      | some sys =>
        simp only [hs] at hpic ⊢
        cases slot with
        | none =>
          obtain ⟨u, rest, p0, h1, h2, h3, h4⟩ := decode_messages_pic env d sys [] pic hpic
          exact ⟨sys, u, rest, p0, rfl, h1, h2, by simpa [popped] using h3, h4⟩
        | some blk =>
          simp only [] at hpic ⊢
          split_ifs at hpic ⊢
          · simp [decode_done] at hpic
          · simp [decode_done] at hpic
          · simp [decode_done] at hpic
          · simp [decode_done] at hpic
          · obtain ⟨u, rest, p0, h1, h2, h3, h4⟩ := decode_messages_pic env d sys _ pic hpic
            exact ⟨sys, u, rest, p0, rfl, h1, h2, by simpa [popped] using h3, h4⟩
          · obtain ⟨u, rest, p0, h1, h2, h3, h4⟩ := decode_messages_pic env d sys _ pic hpic
            exact ⟨sys, u, rest, p0, rfl, h1, h2, by simpa [popped] using h3, h4⟩
  · intro hq
    unfold DecodeBlock
    cases pp with
    | none => exact ⟨rfl, fun h => Or.inl h⟩
    | some slot =>
      cases hs : d.p_sys with
      | none => exact ⟨rfl, fun h => Or.inl h⟩
      | some sys =>
        have hq2 : sys.p_que.getD [] = [] := by simpa [queue_of, hs] using hq
        cases slot with
        | none =>
          obtain ⟨h1, h2⟩ := decode_messages_empty env d sys [] hq2
          exact ⟨h1, fun h => (h2 h).elim Or.inl (fun h3 => Or.inr (Or.inr (Or.inr h3)))⟩
        | some blk =>
          simp only []
          split_ifs with c1 c2 c3 c4 c5
          · exact ⟨rfl, fun h => Or.inl h⟩
          · exact ⟨rfl, fun h => Or.inl h⟩
          · exact ⟨rfl, fun _ => Or.inr (Or.inl (by simpa using c4))⟩
          · exact ⟨rfl, fun _ => Or.inr (Or.inr (Or.inl (by simpa using c5)))⟩
          · obtain ⟨h1, h2⟩ := decode_messages_empty env d sys
              [Event.buffer_new_wrapped blk,
                Event.app_src_push_buffer (input_buffer K d.fmt_in blk)] hq2
            exact ⟨h1, fun h => (h2 h).elim Or.inl (fun h3 => Or.inr (Or.inr (Or.inr h3)))⟩
          · obtain ⟨h1, h2⟩ := decode_messages_empty env d sys [Event.block_Release blk] hq2
            exact ⟨h1, fun h => (h2 h).elim Or.inl (fun h3 => Or.inr (Or.inr (Or.inr h3)))⟩

/-- C10 amended, on a decoder with two queued units: a flush call pops the
head unit only and returns a picture dated from it. -/
theorem C10_queue_order_witness :
    popped (DecodeBlock hostDefaults okEnv twoUnitDec (some none)).trace = [unit0] ∧
    queue_of (DecodeBlock hostDefaults okEnv twoUnitDec (some none)).dec = [unit1] ∧
    [unit0, unit1] = popped (DecodeBlock hostDefaults okEnv twoUnitDec (some none)).trace ++
      queue_of (DecodeBlock hostDefaults okEnv twoUnitDec (some none)).dec :=
  ⟨by decide, by decide, (C10_queue_order hostDefaults okEnv twoUnitDec (some none)).1⟩

/-! ## Timestamp translation -/

theorem decode_output_pushed (env : DecodeEnv) (d : decoder_t) (sys : decoder_sys_t)
    (tr : List Event) : pushed (decode_output env d sys tr).trace = pushed tr := by
  unfold decode_output
  split
  · rfl
  · rfl
  · split
    · rfl
    · simp only []
      split <;> simp [decode_done, pushed_append, pushed]

theorem decode_messages_pushed (env : DecodeEnv) (d : decoder_t) (sys : decoder_sys_t)
    (tr : List Event) : pushed (decode_messages env d sys tr).trace = pushed tr := by
  unfold decode_messages
  split
  · exact decode_output_pushed _ _ _ _
  · split
    · exact decode_output_pushed _ _ _ _
    · simp only []
      split
      · simp [decode_output_pushed, pushed_append, pushed]
      · simp [decode_output_pushed, pushed_append, pushed]
      · split_ifs
        · simp [decode_done, pushed_append, pushed]
        · simp [decode_output_pushed, pushed_append, pushed]

/-- The only unit a call can push is the input unit built from its block. -/
theorem DecodeBlock_pushed (K : HostConsts) (env : DecodeEnv) (d : decoder_t)
    (blk : block_t) (e : GstBuffer)
    (h : e ∈ pushed (DecodeBlock K env d (some (some blk))).trace) :
    e = input_buffer K d.fmt_in blk := by
  unfold DecodeBlock at h
  cases hs : d.p_sys with
  | none => simp [hs, pushed] at h
  | some sys =>
    simp only [hs] at h
    split_ifs at h
    · simp [decode_done, pushed_append, pushed, pushed_flush] at h
    · simp [decode_done, pushed] at h
    · simp [decode_done, pushed] at h
    · simpa [decode_done, pushed] using h
    · simpa [decode_messages_pushed, pushed] using h
    · simp [decode_messages_pushed, pushed] at h

theorem pop_filtered_type (bus : GstBus) (types : GstMessageType → Bool) (m : GstMessage)
    (rest : GstBus) (h : gst_bus_pop_filtered bus types = (some m, rest)) :
    types m.type = true := by
  induction bus with
  | nil => simp [gst_bus_pop_filtered] at h
  | cons a t ih =>
    unfold gst_bus_pop_filtered at h
    split_ifs at h with ha
    · simp only [Prod.mk.injEq, Option.some.injEq] at h
      rw [← h.1]
      exact ha
    · exact ih h

theorem unref_if_congr {α β : Type} (o : Option α) (o' : Option β) (h : Handle)
    (hs : o.isSome = o'.isSome) : unref_if o h = unref_if o' h := by
  cases o <;> cases o' <;> simp_all [unref_if]

/-- The wait of a running decoder: the calls made, and what was polled. -/
theorem close_wait_running (env : CloseEnv) (b : Bool) (sys : decoder_sys_t)
    (hrun : sys.b_running = true) :
    (close_wait env b sys).2.1.isSome = sys.p_bus.isSome ∧
    ∃ polled, (close_wait env b sys).2.2 =
        [Event.app_src_end_of_stream, Event.bus_timed_pop 2000000000] ++ polled ∧
      (polled = [] ∨ ∃ m, polled = [Event.message_unref m] ∧
        (m.type = GstMessageType.GST_MESSAGE_EOS ∨
          m.type = GstMessageType.GST_MESSAGE_ERROR)) := by
  unfold close_wait
  simp only [hrun, if_true]
  cases hb : sys.p_bus with
  | none => exact ⟨rfl, [], by simp, Or.inl rfl⟩
  | some bus =>
    simp only []
    cases hpop : gst_bus_timed_pop_filtered bus env.arriving eos_or_error with
    | mk om bus1 =>
      cases om with
      | none => exact ⟨rfl, [], by simp, Or.inl rfl⟩
      | some m =>
        have hty := pop_filtered_type _ _ m bus1 hpop
        have hty2 : m.type = GstMessageType.GST_MESSAGE_EOS ∨
            m.type = GstMessageType.GST_MESSAGE_ERROR := by
          simpa [eos_or_error] using hty
        simp only []
        split
        · exact ⟨rfl, [Event.message_unref m], rfl, Or.inr ⟨m, rfl, hty2⟩⟩
        · exact ⟨rfl, [Event.message_unref m], rfl, Or.inr ⟨m, rfl, hty2⟩⟩

theorem close_trace_running (env : CloseEnv) (d : decoder_t) (sys : decoder_sys_t)
    (hsys : d.p_sys = some sys) (hrun : sys.b_running = true) :
    ∃ polled, (CloseDecoder env d).trace =
        [Event.app_src_end_of_stream, Event.bus_timed_pop 2000000000] ++ polled ++
          close_tail sys ∧
      (polled = [] ∨ ∃ m, polled = [Event.message_unref m] ∧
        (m.type = GstMessageType.GST_MESSAGE_EOS ∨
          m.type = GstMessageType.GST_MESSAGE_ERROR)) := by
  obtain ⟨hbus, polled, hp, hcase⟩ := close_wait_running env d.b_error sys hrun
  refine ⟨polled, ?_, hcase⟩
  unfold CloseDecoder close_tail
  simp only [hsys, hrun, if_true, hp, unref_if_congr _ _ Handle.bus hbus]
  cases sys.p_que <;> simp only [List.append_assoc]

theorem released_map_unref (q : List GstBuffer) : released (q.map Event.buffer_unref) = q := by
  induction q with
  | nil => rfl
  | cons b t ih => simp [released, ih]

theorem released_unref_if {α : Type} (o : Option α) (h : Handle) :
    released (unref_if o h) = [] := by
  cases o <;> rfl

theorem count_map_unref (q : List GstBuffer) (e : Event) (he : ∀ b, e ≠ Event.buffer_unref b) :
    (q.map Event.buffer_unref).count e = 0 := by
  rw [List.count_eq_zero]
  intro hm
  obtain ⟨b, -, hb⟩ := List.mem_map.mp hm
  exact he b hb.symm

/-- What the tail of `CloseDecoder` releases. -/
theorem close_tail_spec (sys : decoder_sys_t) :
    released (close_tail sys) = sys.p_que.getD [] ∧
    (close_tail sys).count Event.set_state_null = 1 ∧
    (∀ h, (close_tail sys).count (Event.object_unref h) =
      if handle_set sys h then 1 else 0) ∧
    (close_tail sys).count Event.free_sys = 1 ∧
    Event.app_src_end_of_stream ∉ close_tail sys ∧
    (∀ n, Event.bus_timed_pop n ∉ close_tail sys) := by
  have hq : ∀ e, (∀ b, e ≠ Event.buffer_unref b) →
      (match sys.p_que with
        | none => []
        | some q => q.map Event.buffer_unref ++ [Event.object_unref Handle.que]).count e =
      (unref_if sys.p_que Handle.que).count e := by
    intro e he
    cases sys.p_que with
    | none => rfl
    | some q => simp [unref_if, List.count_append, count_map_unref q e he]
  refine ⟨?_, ?_, ?_, ?_, ?_, ?_⟩
  · unfold close_tail
    cases sys.p_que <;>
      simp [released_append, released, released_unref_if, released_map_unref]
  · unfold close_tail
    simp only [List.count_append, hq Event.set_state_null (fun _ => by simp),
      count_other_unref_if _ _ Event.set_state_null (fun _ => by simp)]
    simp [List.count_cons]
  · intro h
    unfold close_tail
    simp only [List.count_append, hq (Event.object_unref h) (fun _ => by simp), count_unref_if]
    cases h <;> simp [handle_set, List.count_cons]
  · unfold close_tail
    simp only [List.count_append, hq Event.free_sys (fun _ => by simp),
      count_other_unref_if _ _ Event.free_sys (fun _ => by simp)]
    simp [List.count_cons]
  · rw [← List.count_eq_zero]
    unfold close_tail
    simp only [List.count_append, hq Event.app_src_end_of_stream (fun _ => by simp),
      count_other_unref_if _ _ Event.app_src_end_of_stream (fun _ => by simp)]
    simp [List.count_cons]
  · intro n
    rw [← List.count_eq_zero]
    unfold close_tail
    simp only [List.count_append, hq (Event.bus_timed_pop n) (fun _ => by simp),
      count_other_unref_if _ _ (Event.bus_timed_pop n) (fun _ => by simp)]
    simp [List.count_cons]

/-- C11. For a running decoder, whatever reaches the bus during the wait,
`CloseDecoder` signals end-of-stream once, then waits once with the bound
2000000000 ns, polls nothing or one message that is an end-of-stream or an
error, and then makes one and the same sequence of calls: every unit left in
the queue is released (once each, in order), the pipeline is set to NULL, the
queue, the bus, the three stages and the bin that are held are released once
each and the decoder state is freed; the queue is empty afterwards. -/
theorem C11_close_running (d : decoder_t) (sys : decoder_sys_t)
    (hsys : d.p_sys = some sys) (hrun : sys.b_running = true) :
    (∀ env : CloseEnv, ∃ polled,
      (CloseDecoder env d).trace =
        [Event.app_src_end_of_stream, Event.bus_timed_pop 2000000000] ++ polled ++
          close_tail sys ∧
      (polled = [] ∨ ∃ m, polled = [Event.message_unref m] ∧
        (m.type = GstMessageType.GST_MESSAGE_EOS ∨
          m.type = GstMessageType.GST_MESSAGE_ERROR)) ∧
      queue_of (CloseDecoder env d).dec = []) ∧
    released (close_tail sys) = queue_of d ∧
    (close_tail sys).count Event.set_state_null = 1 ∧
    (∀ h, (close_tail sys).count (Event.object_unref h) =
      if handle_set sys h then 1 else 0) ∧
    (close_tail sys).count Event.free_sys = 1 ∧
    Event.app_src_end_of_stream ∉ close_tail sys ∧
    (∀ n, Event.bus_timed_pop n ∉ close_tail sys) := by
  obtain ⟨h1, h2, h3, h4, h5, h6⟩ := close_tail_spec sys
  refine ⟨fun env => ?_, ?_, h2, h3, h4, h5, h6⟩
  · obtain ⟨polled, hp, hc⟩ := close_trace_running env d sys hsys hrun
    refine ⟨polled, hp, hc, ?_⟩
    unfold CloseDecoder queue_of
    simp only [hsys]
    cases sys.p_que <;> simp
  · rw [h1]
    simp [queue_of, hsys]

/-- C11 on `runningDec`, when nothing arrives during the wait and when an
error arrives: the traces differ only by the message polled. -/
theorem C11_close_running_witness :
    released (close_tail
      { p_decoder := some { factory := "decoder" }, p_decode_src := some { factory := "appsrc" },
        p_decode_in := some { factory := "vdec_a" },
        p_decode_out := some { factory := "fakesink" }, p_bus := some [],
        p_que := some [unit0, unit1], b_prerolled := true, b_running := true }) =
      queue_of runningDec ∧
    (CloseDecoder { arriving := [] } runningDec).trace =
      [Event.app_src_end_of_stream, Event.bus_timed_pop 2000000000,
        Event.buffer_unref unit0, Event.buffer_unref unit1, Event.object_unref Handle.que,
        Event.set_state_null, Event.object_unref Handle.bus,
        Event.object_unref Handle.decode_src, Event.object_unref Handle.decode_in,
        Event.object_unref Handle.decode_out, Event.object_unref Handle.decoder,
        Event.free_sys] ∧
    (CloseDecoder { arriving := [stream_error] } runningDec).trace =
      [Event.app_src_end_of_stream, Event.bus_timed_pop 2000000000,
        Event.message_unref stream_error,
        Event.buffer_unref unit0, Event.buffer_unref unit1, Event.object_unref Handle.que,
        Event.set_state_null, Event.object_unref Handle.bus,
        Event.object_unref Handle.decode_src, Event.object_unref Handle.decode_in,
        Event.object_unref Handle.decode_out, Event.object_unref Handle.decoder,
        Event.free_sys] :=
  ⟨(C11_close_running runningDec _ rfl rfl).2.1, by decide, by decide⟩

/-! ## Properties of the output format resolver and of the sink callback -/

theorem toU32_of_nonneg (x : Int) (h0 : 0 ≤ x) (h1 : x < 2 ^ 32) : (toU32 x : Int) = x := by
  unfold toU32
  rw [Int.emod_eq_of_lt h0 h1]
  exact Int.toNat_of_nonneg h0

theorem toU32_eq_zero_iff (x : Int) (h0 : -2 ^ 31 ≤ x) (h1 : x < 2 ^ 31) :
    toU32 x = 0 ↔ x = 0 := by
  unfold toU32
  constructor
  · intro h
    have h2 : x % 2 ^ 32 ≤ 0 := Int.toNat_eq_zero.mp h
    have h3 : 0 ≤ x % 2 ^ 32 := Int.emod_nonneg x (by norm_num)
    have h4 : x % 2 ^ 32 = 0 := le_antisymm h2 h3
    have h5 : (2 : Int) ^ 32 ∣ x := Int.dvd_of_emod_eq_zero h4
    obtain ⟨k, hk⟩ := h5
    norm_num at h0 h1 hk
    omega
  · intro h
    subst h
    rfl

/-- `set_vout_format` on a recognised tag, as its three steps in sequence. -/
theorem set_vout_format_steps (G : Option String → Nat) (p_str : GstStructure)
    (p_infmt p_outfmt : es_format_t)
    (hrec : G (gst_structure_get_string p_str "format") ≠ 0) :
    set_vout_format G p_str p_infmt p_outfmt =
      (true, { p_outfmt with
        i_codec := G (gst_structure_get_string p_str "format")
        video := resolve_frame_rate p_str p_infmt
          (resolve_sar p_str (resolve_geometry p_str p_outfmt.video)) }) := by
  unfold set_vout_format
  simp only [hrec, if_false]

theorem resolve_sar_other (p_str : GstStructure) (v : video_format_t) :
    (resolve_sar p_str v).i_width = v.i_width ∧ (resolve_sar p_str v).i_height = v.i_height ∧
    (resolve_sar p_str v).i_frame_rate = v.i_frame_rate ∧
    (resolve_sar p_str v).i_frame_rate_base = v.i_frame_rate_base := by
  unfold resolve_sar
  rcases gst_structure_get_fraction p_str "pixel-aspect-ratio" with _ | ⟨n, d⟩ <;>
    simp only [] <;> split_ifs <;> simp

theorem resolve_frame_rate_other (p_str : GstStructure) (p_infmt : es_format_t)
    (v : video_format_t) :
    (resolve_frame_rate p_str p_infmt v).i_width = v.i_width ∧
    (resolve_frame_rate p_str p_infmt v).i_height = v.i_height ∧
    (resolve_frame_rate p_str p_infmt v).i_sar_num = v.i_sar_num ∧
    (resolve_frame_rate p_str p_infmt v).i_sar_den = v.i_sar_den := by
  unfold resolve_frame_rate
  rcases gst_structure_get_fraction p_str "framerate" with _ | ⟨n, d⟩ <;>
    simp only [] <;> split_ifs <;> simp

/-- C12. When the format tag of the descriptor is recognised, `set_vout_format`
succeeds and writes: the mapped pixel format; the width and the height of the
descriptor; its pixel-aspect-ratio when the field is there with both terms
non-zero, 1:1 otherwise; its frame rate when the field is there with both terms
non-zero, the frame rate of the input format otherwise. Values are stored
through `toU32`, which is the identity on non-negative `gint` values and is
zero only at zero. -/
theorem C12_set_vout_format (G : Option String → Nat) (p_str : GstStructure)
    (p_infmt p_outfmt : es_format_t)
    (hrec : G (gst_structure_get_string p_str "format") ≠ 0) :
    (set_vout_format G p_str p_infmt p_outfmt).1 = true ∧
    (set_vout_format G p_str p_infmt p_outfmt).2.i_codec =
      G (gst_structure_get_string p_str "format") ∧
    (∀ w, gst_structure_get_int p_str "width" = some w →
      (set_vout_format G p_str p_infmt p_outfmt).2.video.i_width = toU32 w) ∧
    (∀ h, gst_structure_get_int p_str "height" = some h →
      (set_vout_format G p_str p_infmt p_outfmt).2.video.i_height = toU32 h) ∧
    (∀ n d, gst_structure_get_fraction p_str "pixel-aspect-ratio" = some (n, d) →
      toU32 n ≠ 0 → toU32 d ≠ 0 →
      (set_vout_format G p_str p_infmt p_outfmt).2.video.i_sar_num = toU32 n ∧
      (set_vout_format G p_str p_infmt p_outfmt).2.video.i_sar_den = toU32 d) ∧
    ((gst_structure_get_fraction p_str "pixel-aspect-ratio" = none ∨
        ∃ n d, gst_structure_get_fraction p_str "pixel-aspect-ratio" = some (n, d) ∧
          (toU32 n = 0 ∨ toU32 d = 0)) →
      (set_vout_format G p_str p_infmt p_outfmt).2.video.i_sar_num = 1 ∧
      (set_vout_format G p_str p_infmt p_outfmt).2.video.i_sar_den = 1) ∧
    (∀ n d, gst_structure_get_fraction p_str "framerate" = some (n, d) →
      toU32 n ≠ 0 → toU32 d ≠ 0 →
      (set_vout_format G p_str p_infmt p_outfmt).2.video.i_frame_rate = toU32 n ∧
      (set_vout_format G p_str p_infmt p_outfmt).2.video.i_frame_rate_base = toU32 d) ∧
    ((gst_structure_get_fraction p_str "framerate" = none ∨
        ∃ n d, gst_structure_get_fraction p_str "framerate" = some (n, d) ∧
          (toU32 n = 0 ∨ toU32 d = 0)) →
      (set_vout_format G p_str p_infmt p_outfmt).2.video.i_frame_rate =
        p_infmt.video.i_frame_rate ∧
      (set_vout_format G p_str p_infmt p_outfmt).2.video.i_frame_rate_base =
        p_infmt.video.i_frame_rate_base) ∧
    (∀ x : Int, 0 ≤ x → x < 2 ^ 32 → (toU32 x : Int) = x) ∧
    (∀ x : Int, -2 ^ 31 ≤ x → x < 2 ^ 31 → (toU32 x = 0 ↔ x = 0)) := by
  rw [set_vout_format_steps G p_str p_infmt p_outfmt hrec]
  refine ⟨rfl, rfl, ?_, ?_, ?_, ?_, ?_, ?_, toU32_of_nonneg, toU32_eq_zero_iff⟩
  · intro w hw
    show (resolve_frame_rate p_str p_infmt _).i_width = _
    rw [(resolve_frame_rate_other _ _ _).1, (resolve_sar_other _ _).1]
    simp only [resolve_geometry, hw]
    split <;> rfl
  · intro h hh
    show (resolve_frame_rate p_str p_infmt _).i_height = _
    rw [(resolve_frame_rate_other _ _ _).2.1, (resolve_sar_other _ _).2.1]
    simp only [resolve_geometry, hh]
  · intro n d hp hn hd
    show (resolve_frame_rate p_str p_infmt _).i_sar_num = _ ∧
      (resolve_frame_rate p_str p_infmt _).i_sar_den = _
    rw [(resolve_frame_rate_other _ _ _).2.2.1, (resolve_frame_rate_other _ _ _).2.2.2]
    simp [resolve_sar, hp, hn, hd]
  · intro hp
    show (resolve_frame_rate p_str p_infmt _).i_sar_num = _ ∧
      (resolve_frame_rate p_str p_infmt _).i_sar_den = _
    rw [(resolve_frame_rate_other _ _ _).2.2.1, (resolve_frame_rate_other _ _ _).2.2.2]
    rcases hp with hp | ⟨n, d, hp, hz⟩
    · simp [resolve_sar, hp]
    · rcases hz with hz | hz <;> simp [resolve_sar, hp, hz]
  · intro n d hp hn hd
    simp [resolve_frame_rate, hp, hn, hd]
  · intro hp
    rcases hp with hp | ⟨n, d, hp, hz⟩
    · simp [resolve_frame_rate, hp]
    · rcases hz with hz | hz <;> simp [resolve_frame_rate, hp, hz]

/-- C12 on the descriptor I420 1920x1080 at 30000/1001 without aspect ratio:
the resolved format has that geometry and frame rate and the aspect 1:1. -/
theorem C12_set_vout_format_witness :
    (set_vout_format cbI420.GetCodecFromString (rawStructure "I420") unresolvedDec.fmt_in
      {}).1 = true ∧
    (set_vout_format cbI420.GetCodecFromString (rawStructure "I420") unresolvedDec.fmt_in
      {}).2.video =
      { i_width := 1920, i_height := 1080, i_sar_num := 1, i_sar_den := 1,
        i_frame_rate := 30000, i_frame_rate_base := 1001 } :=
  ⟨(C12_set_vout_format cbI420.GetCodecFromString (rawStructure "I420") unresolvedDec.fmt_in
      {} (by decide)).1, by decide⟩

theorem post_stream_error_fmt (d : decoder_t) :
    (post_stream_error d).fmt_out = d.fmt_out ∧ (post_stream_error d).fmt_in = d.fmt_in ∧
    (post_stream_error d).b_error = d.b_error ∧
    vinfo_of (post_stream_error d) = vinfo_of d := by
  unfold post_stream_error vinfo_of
  cases d.p_sys <;> simp

theorem bus_of_post_stream_error (d : decoder_t) (h : has_bus d) :
    bus_of (post_stream_error d) = bus_of d ++ [stream_error] := by
  unfold has_bus at h
  unfold bus_of post_stream_error
  cases hs : d.p_sys with
  | none => simp [hs] at h
  | some sys =>
    cases hb : sys.p_bus with
    | none => simp [hs, hb] at h
    | some bus => simp [hb]

theorem has_queue_post_stream_error (d : decoder_t) (h : has_queue d) :
    has_queue (post_stream_error d) := by
  unfold has_queue at h ⊢
  unfold post_stream_error
  cases hs : d.p_sys with
  | none => simp [hs] at h
  | some sys => simpa [hs] using h

theorem queue_of_queue_push_has (d : decoder_t) (b : GstBuffer) (h : has_queue d) :
    queue_of (queue_push d b) = queue_of d ++ [b] := by
  unfold has_queue at h
  unfold queue_of queue_push
  cases hs : d.p_sys with
  | none => simp [hs] at h
  | some sys =>
    cases hq : sys.p_que with
    | none => simp [hs, hq] at h
    | some q => simp [hq]

theorem queue_push_fmt (d : decoder_t) (b : GstBuffer) :
    (queue_push d b).fmt_out = d.fmt_out ∧ (queue_push d b).fmt_in = d.fmt_in ∧
    (queue_push d b).b_error = d.b_error ∧ vinfo_of (queue_push d b) = vinfo_of d ∧
    bus_of (queue_push d b) = bus_of d := by
  unfold queue_push vinfo_of bus_of
  cases d.p_sys <;> simp

theorem bus_of_eq (d : decoder_t) :
    bus_of d = (d.p_sys.bind (fun sys => sys.p_bus)).getD [] := by
  unfold bus_of
  cases d.p_sys <;> rfl

/-- `set_out_fmt` either succeeds, or fails and posts the stream error; the
queue and the bus of the decoder it works on are those of the decoder given. -/
theorem set_out_fmt_cases (cb : CbEnv) (d : decoder_t) (caps : GstCaps) :
    ∃ d', d'.p_sys.bind (fun sys => sys.p_que) = d.p_sys.bind (fun sys => sys.p_que) ∧
      d'.p_sys.bind (fun sys => sys.p_bus) = d.p_sys.bind (fun sys => sys.p_bus) ∧
      (set_out_fmt cb d caps = (false, post_stream_error d') ∨
        set_out_fmt cb d caps = (true, d')) := by
  unfold set_out_fmt
  cases hv : cb.video_info_from_caps caps with
  | none => exact ⟨d, rfl, rfl, Or.inl rfl⟩
  | some vinfo =>
    simp only []
    split_ifs with hr
    · refine ⟨_, ?_, ?_, Or.inl rfl⟩ <;> cases d.p_sys <;> rfl
    · refine ⟨_, ?_, ?_, Or.inr rfl⟩ <;> cases d.p_sys <;> rfl

theorem set_out_fmt_bus_queue (cb : CbEnv) (d : decoder_t) (caps : GstCaps) :
    (has_queue d → has_queue (set_out_fmt cb d caps).2) ∧
    (has_bus d → (set_out_fmt cb d caps).1 = true →
      bus_of (set_out_fmt cb d caps).2 = bus_of d) ∧
    (has_bus d → (set_out_fmt cb d caps).1 = false →
      bus_of (set_out_fmt cb d caps).2 = bus_of d ++ [stream_error]) := by
  obtain ⟨d', hq', hb', hc⟩ := set_out_fmt_cases cb d caps
  have hbus : bus_of d' = bus_of d := by rw [bus_of_eq, bus_of_eq, hb']
  have hhq : has_queue d → has_queue d' := by
    intro h
    unfold has_queue at h ⊢
    rw [hq']
    exact h
  have hhb : has_bus d → has_bus d' := by
    intro h
    unfold has_bus at h ⊢
    rw [hb']
    exact h
  rcases hc with hc | hc <;> rw [hc]
  · refine ⟨fun h => has_queue_post_stream_error d' (hhq h), fun _ h => by simp at h,
      fun h _ => ?_⟩
    rw [← hbus]
    exact bus_of_post_stream_error d' (hhb h)
  · exact ⟨hhq, fun _ _ => hbus, fun _ h => by simp at h⟩

/-- The pixel format after a failed `set_out_fmt`: as before when the caps
give no video info, 0 when the tag is not recognised. -/
theorem set_out_fmt_false (cb : CbEnv) (d : decoder_t) (caps : GstCaps)
    (h : (set_out_fmt cb d caps).1 = false) :
    (set_out_fmt cb d caps).2.fmt_out = d.fmt_out ∨
      (set_out_fmt cb d caps).2.fmt_out.i_codec = 0 := by
  unfold set_out_fmt at h ⊢
  cases hv : cb.video_info_from_caps caps with
  | none =>
    simp only []
    exact Or.inl (post_stream_error_fmt d).1
  | some vinfo =>
    simp only [hv] at h ⊢
    split_ifs at h ⊢ with hr
    · right
      rw [(post_stream_error_fmt _).1]
      simp only [set_vout_format] at hr ⊢
      split_ifs at hr ⊢ with hc
      · exact hc
      · simp at hr

/-- C17 as stated fails: with the output format unresolved, a unit handed
over on a pad without caps, or with caps whose format tag is not recognised,
is not added to the queue. -/
theorem C17_unit_not_queued :
    unresolvedDec.fmt_out.i_codec = 0 ∧ queue_of unresolvedDec = [unit0] ∧
    queue_of (frame_handoff_cb cbI420 unresolvedDec unit1 none) = [unit0] ∧
    queue_of (frame_handoff_cb cbI420 unresolvedDec unit1 (some [rawStructure "XXXX"])) =
      [unit0] := by
  decide

/-- C17, amended. On a decoder with a queue: when the output format is
resolved, or is resolved by this call, the queue after `frame_handoff_cb` is
the queue before with the unit added at the tail; when the format is
unresolved and the pad has no caps or `set_out_fmt` fails, the unit is not
queued, the queue is left as it was and a stream error is posted on the bus. -/
theorem C17_handoff_appends (cb : CbEnv) (d : decoder_t) (p_buf : GstBuffer)
    (pad_caps : Option GstCaps) (hq : has_queue d) :
    (d.fmt_out.i_codec ≠ 0 →
      queue_of (frame_handoff_cb cb d p_buf pad_caps) = queue_of d ++ [p_buf]) ∧
    (∀ caps, d.fmt_out.i_codec = 0 → pad_caps = some caps →
      (set_out_fmt cb d caps).1 = true →
      queue_of (frame_handoff_cb cb d p_buf pad_caps) = queue_of d ++ [p_buf]) ∧
    (d.fmt_out.i_codec = 0 →
      (pad_caps = none ∨ ∃ caps, pad_caps = some caps ∧ (set_out_fmt cb d caps).1 = false) →
      queue_of (frame_handoff_cb cb d p_buf pad_caps) = queue_of d ∧
      (has_bus d →
        bus_of (frame_handoff_cb cb d p_buf pad_caps) = bus_of d ++ [stream_error])) := by
  refine ⟨?_, ?_, ?_⟩
  · intro hres
    simp only [frame_handoff_cb, hres, if_false]
    exact queue_of_queue_push_has d p_buf hq
  · intro caps hun hc hok
    simp only [frame_handoff_cb, hun, hc, hok, if_true]
    simp only [Bool.not_true, Bool.false_eq_true, if_false]
    rw [queue_of_queue_push_has _ _ ((set_out_fmt_bus_queue cb d caps).1 hq),
      queue_of_set_out_fmt]
  · intro hun hc
    rcases hc with hc | ⟨caps, hc, hfail⟩
    · simp only [frame_handoff_cb, hun, hc, if_true]
      exact ⟨queue_of_post_stream_error d, bus_of_post_stream_error d⟩
    · simp only [frame_handoff_cb, hun, hc, hfail, if_true]
      simp only [Bool.not_false, if_true]
      refine ⟨queue_of_set_out_fmt cb d caps, fun hb => ?_⟩
      exact (set_out_fmt_bus_queue cb d caps).2.2 hb hfail

/-- C17 amended, on a decoder whose format is resolved by the call: the unit
handed over with I420 caps is added behind the queued one. -/
theorem C17_handoff_appends_witness :
    queue_of (frame_handoff_cb cbI420 unresolvedDec unit1 (some [rawStructure "I420"])) =
      queue_of unresolvedDec ++ [unit1] :=
  (C17_handoff_appends cbI420 unresolvedDec unit1 (some [rawStructure "I420"])
    rfl).2.1 _ rfl rfl (by decide)

theorem decode_output_fmt (env : DecodeEnv) (d : decoder_t) (sys : decoder_sys_t)
    (tr : List Event) :
    (decode_output env d sys tr).dec.fmt_out = d.fmt_out ∧
    (decode_output env d sys tr).dec.fmt_in = d.fmt_in ∧
    vinfo_of (decode_output env d sys tr).dec = some sys.vinfo := by
  unfold decode_output
  split
  · exact ⟨rfl, rfl, rfl⟩
  · exact ⟨rfl, rfl, rfl⟩
  · split
    · exact ⟨rfl, rfl, rfl⟩
    · simp only []
      split <;> exact ⟨rfl, rfl, rfl⟩

theorem decode_messages_fmt (env : DecodeEnv) (d : decoder_t) (sys : decoder_sys_t)
    (tr : List Event) :
    (decode_messages env d sys tr).dec.fmt_out = d.fmt_out ∧
    (decode_messages env d sys tr).dec.fmt_in = d.fmt_in ∧
    vinfo_of (decode_messages env d sys tr).dec = some sys.vinfo := by
  unfold decode_messages
  split
  · exact decode_output_fmt _ _ _ _
  · split
    · exact decode_output_fmt _ _ _ _
    · simp only []
      split
      · exact decode_output_fmt _ _ _ _
      · exact decode_output_fmt _ _ _ _
      · split_ifs
        · exact ⟨rfl, rfl, rfl⟩
        · exact decode_output_fmt _ _ _ _

/-- `DecodeBlock` writes neither the formats nor the video info. -/
theorem DecodeBlock_fmt (K : HostConsts) (env : DecodeEnv) (d : decoder_t)
    (pp : Option (Option block_t)) :
    (DecodeBlock K env d pp).dec.fmt_out = d.fmt_out ∧
    (DecodeBlock K env d pp).dec.fmt_in = d.fmt_in ∧
    vinfo_of (DecodeBlock K env d pp).dec = vinfo_of d := by
  unfold DecodeBlock
  cases pp with
  | none => exact ⟨rfl, rfl, rfl⟩
  | some slot =>
    cases hs : d.p_sys with
    | none => exact ⟨rfl, rfl, rfl⟩
    | some sys =>
      have hv : vinfo_of d = some sys.vinfo := by simp [vinfo_of, hs]
      rw [hv]
      cases slot with
      | none => exact decode_messages_fmt _ _ _ _
      | some blk =>
        simp only []
        split_ifs
        · exact ⟨rfl, rfl, rfl⟩
        · exact ⟨rfl, rfl, rfl⟩
        · exact ⟨rfl, rfl, rfl⟩
        · exact ⟨rfl, rfl, rfl⟩
        · exact decode_messages_fmt _ _ _ _
        · exact decode_messages_fmt _ _ _ _

theorem frame_handoff_cb_resolved (cb : CbEnv) (d : decoder_t) (b : GstBuffer)
    (c : Option GstCaps) (hres : d.fmt_out.i_codec ≠ 0) :
    frame_handoff_cb cb d b c = queue_push d b := by
  simp [frame_handoff_cb, hres]

/-- Once the output format is resolved, no sequence of handoffs and calls
changes it or the video info. -/
theorem run_resolved (K : HostConsts) (steps : List Step) (d : decoder_t)
    (hres : d.fmt_out.i_codec ≠ 0) :
    (run K d steps).1.fmt_out = d.fmt_out ∧ vinfo_of (run K d steps).1 = vinfo_of d := by
  induction steps generalizing d with
  | nil => exact ⟨rfl, rfl⟩
  | cons s t ih =>
    cases s with
    | handoff cb b c =>
      simp only [run]
      rw [frame_handoff_cb_resolved cb d b c hres]
      have hq := queue_push_fmt d b
      have := ih (queue_push d b) (by rw [hq.1]; exact hres)
      exact ⟨this.1.trans hq.1, this.2.trans hq.2.2.2.1⟩
    | decode env pp =>
      simp only [run]
      have hd := DecodeBlock_fmt K env d pp
      have := ih (DecodeBlock K env d pp).dec (by rw [hd.1]; exact hres)
      exact ⟨this.1.trans hd.1, this.2.trans hd.2.2⟩

/-- C18. Once the output pixel format is non-zero, `frame_handoff_cb` does
nothing but queue the unit, whatever the resolver would answer; it and every
`DecodeBlock` call, a discontinuity included, leave the output format (pixel
format, geometry, frame rate, aspect ratio) and the video info as they are,
and so does any sequence of handoffs and calls. -/
theorem C18_resolved_once (d : decoder_t) (hres : d.fmt_out.i_codec ≠ 0) :
    (∀ cb p_buf pad_caps,
      frame_handoff_cb cb d p_buf pad_caps = queue_push d p_buf ∧
      (frame_handoff_cb cb d p_buf pad_caps).fmt_out = d.fmt_out ∧
      vinfo_of (frame_handoff_cb cb d p_buf pad_caps) = vinfo_of d) ∧
    (∀ K env pp,
      (DecodeBlock K env d pp).dec.fmt_out = d.fmt_out ∧
      vinfo_of (DecodeBlock K env d pp).dec = vinfo_of d) ∧
    (∀ K steps,
      (run K d steps).1.fmt_out = d.fmt_out ∧ vinfo_of (run K d steps).1 = vinfo_of d) := by
  refine ⟨fun cb b c => ?_, fun K env pp => ?_, fun K steps => run_resolved K steps d hres⟩
  · rw [frame_handoff_cb_resolved cb d b c hres]
    exact ⟨rfl, (queue_push_fmt d b).1, (queue_push_fmt d b).2.2.2.1⟩
  · exact ⟨(DecodeBlock_fmt K env d pp).1, (DecodeBlock_fmt K env d pp).2.2⟩

/-- C18 on a resolved decoder: a handoff with caps of another geometry and a
discontinuity call leave the output format as it was. -/
theorem C18_resolved_once_witness :
    (run hostDefaults resolvedDec
      [Step.handoff cbI420 unit1 (some [gst_structure_set (rawStructure "I420") "width"
          (GValue.int 640)]),
        Step.decode okEnv (some (some discBlock))]).1.fmt_out = resolvedDec.fmt_out :=
  ((C18_resolved_once resolvedDec (by decide)).2.2 hostDefaults _).1

theorem has_bus_post_stream_error (d : decoder_t) (h : has_bus d) :
    has_bus (post_stream_error d) := by
  unfold has_bus at h ⊢
  unfold post_stream_error
  cases hs : d.p_sys with
  | none => simp [hs] at h
  | some sys =>
    cases hb : sys.p_bus with
    | none => simp [hs, hb] at h
    | some bus => simp [hb]

theorem has_bus_set_out_fmt (cb : CbEnv) (d : decoder_t) (caps : GstCaps) (h : has_bus d) :
    has_bus (set_out_fmt cb d caps).2 := by
  obtain ⟨d', -, hb', hc⟩ := set_out_fmt_cases cb d caps
  have hhb : has_bus d' := by
    unfold has_bus at h ⊢
    rw [hb']
    exact h
  rcases hc with hc | hc <;> rw [hc]
  · exact has_bus_post_stream_error d' hhb
  · exact hhb

theorem set_vout_format_unrecognised (G : Option String → Nat) (p_str : GstStructure)
    (p_infmt p_outfmt : es_format_t)
    (hun : G (gst_structure_get_string p_str "format") = 0) :
    set_vout_format G p_str p_infmt p_outfmt = (false, { p_outfmt with i_codec := 0 }) := by
  simp [set_vout_format, hun]

theorem set_out_fmt_unrecognised (cb : CbEnv) (d : decoder_t) (caps : GstCaps)
    (hun : cb.GetCodecFromString
      (gst_structure_get_string (caps.headD (gst_structure_new_empty "")) "format") = 0) :
    (set_out_fmt cb d caps).1 = false ∧
    ((cb.video_info_from_caps caps).isSome = true ∨ d.fmt_out.i_codec = 0 →
      (set_out_fmt cb d caps).2.fmt_out.i_codec = 0) := by
  unfold set_out_fmt
  cases hv : cb.video_info_from_caps caps with
  | none =>
    refine ⟨rfl, fun h => ?_⟩
    rcases h with h | h
    · simp at h
    · simp only []
      rw [(post_stream_error_fmt d).1]
      exact h
  | some vinfo =>
    simp only [set_vout_format_unrecognised _ _ _ _ hun]
    simp only [Bool.not_false, if_true]
    exact ⟨trivial, fun _ => by rw [(post_stream_error_fmt _).1]⟩

/-- A flush call on a decoder whose bus holds exactly one stream error sets
the fatal flag and returns no picture. -/
theorem DecodeBlock_stream_error (K : HostConsts) (env : DecodeEnv) (d : decoder_t)
    (hb : has_bus d) (hbus : bus_of d = [stream_error]) :
    (DecodeBlock K env d (some none)).dec.b_error = true ∧
    (DecodeBlock K env d (some none)).pic = none := by
  unfold has_bus at hb
  unfold bus_of at hbus
  cases hs : d.p_sys with
  | none => simp [hs] at hb
  | some sys =>
    cases hsb : sys.p_bus with
    | none => simp [hs, hsb] at hb
    | some bus =>
      have hbus2 : bus = [stream_error] := by simpa [hs, hsb] using hbus
      subst hbus2
      have hpop : gst_bus_pop_filtered [stream_error] decode_mask = (some stream_error, []) := by
        decide
      simp only [DecodeBlock, hs]
      rw [decode_messages_error env d sys [] _ _ stream_error hsb hpop rfl]
      exact ⟨rfl, rfl⟩

/-- C19. When the format tag of the negotiated descriptor maps to no host
pixel format, `set_vout_format` fails and stores 0 as pixel format;
`set_out_fmt` reports failure and posts a stream error on the bus of the
pipeline; the output pixel format is 0 afterwards whenever it was 0 before
(and whenever the caps gave a video info); and with nothing else on the bus
the next flush call of the driver polls that error, sets the fatal flag and
returns no picture. -/
theorem C19_unrecognised_tag (cb : CbEnv) (d : decoder_t) (caps : GstCaps)
    (hun : cb.GetCodecFromString
      (gst_structure_get_string (caps.headD (gst_structure_new_empty "")) "format") = 0) :
    (∀ p_infmt p_outfmt,
      set_vout_format cb.GetCodecFromString (caps.headD (gst_structure_new_empty ""))
        p_infmt p_outfmt = (false, { p_outfmt with i_codec := 0 })) ∧
    (set_out_fmt cb d caps).1 = false ∧
    (has_bus d → bus_of (set_out_fmt cb d caps).2 = bus_of d ++ [stream_error]) ∧
    ((cb.video_info_from_caps caps).isSome = true ∨ d.fmt_out.i_codec = 0 →
      (set_out_fmt cb d caps).2.fmt_out.i_codec = 0) ∧
    (has_bus d → bus_of d = [] → ∀ K env,
      (DecodeBlock K env (set_out_fmt cb d caps).2 (some none)).dec.b_error = true ∧
      (DecodeBlock K env (set_out_fmt cb d caps).2 (some none)).pic = none) := by
  obtain ⟨hfalse, hzero⟩ := set_out_fmt_unrecognised cb d caps hun
  refine ⟨fun i o => set_vout_format_unrecognised _ _ i o hun, hfalse,
    fun hb => (set_out_fmt_bus_queue cb d caps).2.2 hb hfalse, hzero, ?_⟩
  intro hb hempty K env
  apply DecodeBlock_stream_error K env _ (has_bus_set_out_fmt cb d caps hb)
  rw [(set_out_fmt_bus_queue cb d caps).2.2 hb hfalse, hempty]
  rfl

/-- C19 on caps tagged XXXX: `set_out_fmt` fails, the bus then holds the
stream error and the pixel format is still 0. -/
theorem C19_unrecognised_tag_witness :
    (set_out_fmt cbI420 unresolvedDec [rawStructure "XXXX"]).1 = false ∧
    bus_of (set_out_fmt cbI420 unresolvedDec [rawStructure "XXXX"]).2 = [stream_error] ∧
    (set_out_fmt cbI420 unresolvedDec [rawStructure "XXXX"]).2.fmt_out.i_codec = 0 :=
  ⟨(C19_unrecognised_tag cbI420 unresolvedDec [rawStructure "XXXX"] (by decide)).2.1,
   (C19_unrecognised_tag cbI420 unresolvedDec [rawStructure "XXXX"] (by decide)).2.2.1 rfl,
   (C19_unrecognised_tag cbI420 unresolvedDec [rawStructure "XXXX"] (by decide)).2.2.2.1
     (Or.inl rfl)⟩

/-! ## Non-fatal messages, flagged blocks and durations -/

theorem decode_messages_eos (env : DecodeEnv) (d : decoder_t) (sys : decoder_sys_t)
    (tr : List Event) (bus bus1 : GstBus) (m : GstMessage) (hb : sys.p_bus = some bus)
    (hpop : gst_bus_pop_filtered bus decode_mask = (some m, bus1))
    (hm : m.type = GstMessageType.GST_MESSAGE_EOS) :
    decode_messages env d sys tr =
      decode_output env d { sys with p_bus := some bus1 } (tr ++ [Event.message_unref m]) := by
  unfold decode_messages
  simp [hb, hpop, hm]

theorem decode_messages_warn_info (env : DecodeEnv) (d : decoder_t) (sys : decoder_sys_t)
    (tr : List Event) (bus bus1 : GstBus) (m : GstMessage) (hb : sys.p_bus = some bus)
    (hpop : gst_bus_pop_filtered bus decode_mask = (some m, bus1))
    (hm : m.type = GstMessageType.GST_MESSAGE_WARNING ∨
      m.type = GstMessageType.GST_MESSAGE_INFO) :
    decode_messages env d sys tr =
      decode_output env { d with b_error := false } { sys with p_bus := some bus1 }
        (tr ++ [Event.message_unref m]) := by
  unfold decode_messages
  rcases hm with hm | hm <;> simp [hb, hpop, hm, default_msg_handler]

/-- The fatal flag after the harvest: set by a mapping failure, otherwise as
the harvest found it. -/
theorem decode_output_flag (env : DecodeEnv) (d : decoder_t) (sys : decoder_sys_t)
    (tr : List Event) :
    (decode_output env d sys tr).dec.b_error = (d.b_error || harvest_map_fails env sys) := by
  unfold decode_output harvest_map_fails
  cases hq : sys.p_que with
  | none => simp [decode_done]
  | some q =>
    cases q with
    | nil => simp [decode_done]
    | cons u rest =>
      cases hp : env.new_picture with
      | none => simp [decode_done]
      | some p0 =>
        cases hmap : env.frame_map sys.vinfo u <;> simp [decode_done, hmap]

/-- The harvest when the head unit maps: the unit is popped and released and
the picture built from it is returned. -/
theorem decode_output_harvest (env : DecodeEnv) (d : decoder_t) (sys : decoder_sys_t)
    (tr : List Event) (u : GstBuffer) (rest : List GstBuffer) (p0 : picture_t)
    (frame : GstVideoFrame) (hq : sys.p_que = some (u :: rest))
    (hp : env.new_picture = some p0) (hmap : env.frame_map sys.vinfo u = some frame) :
    decode_output env d sys tr =
      decode_done d { sys with p_que := some rest }
        (some (gst_CopyPicture (stamp_picture p0 u) frame))
        (tr ++ [Event.queue_pop u] ++ [Event.buffer_unref u]) := by
  unfold decode_output
  simp [hq, hp, hmap]

/-- C13 as stated fails twice: a warning polled while the fatal flag is set
clears the flag; and an end-of-stream polled while the flag is clear is
followed by a harvest whose mapping failure sets it. -/
theorem C13_flag_changes :
    flaggedWarnDec.b_error = true ∧
    (DecodeBlock hostDefaults okEnv flaggedWarnDec (some none)).dec.b_error = false ∧
    Event.message_unref warningMsg ∈
      (DecodeBlock hostDefaults okEnv flaggedWarnDec (some none)).trace ∧
    eosDec.b_error = false ∧
    (DecodeBlock hostDefaults noMapEnv eosDec (some none)).dec.b_error = true ∧
    Event.message_unref eosMsg ∈ (DecodeBlock hostDefaults noMapEnv eosDec (some none)).trace := by
  decide

/-- C13, amended. For a call whose polled message is a warning, an info or an
end-of-stream: the message never sets the fatal flag (with the flag clear on
entry it is set on return only if the harvest met a unit that cannot be
mapped); an end-of-stream leaves a flag that is set as it is; and the call
goes on to the harvest (when the head unit maps it is popped and the picture
built from it is returned). -/
theorem C13_nonfatal_messages (K : HostConsts) (env : DecodeEnv) (d : decoder_t)
    (sys : decoder_sys_t) (pp : Option (Option block_t)) (m : GstMessage)
    (hsys : d.p_sys = some sys)
    (hm : m.type = GstMessageType.GST_MESSAGE_WARNING ∨
      m.type = GstMessageType.GST_MESSAGE_INFO ∨ m.type = GstMessageType.GST_MESSAGE_EOS)
    (h : Event.message_unref m ∈ (DecodeBlock K env d pp).trace) :
    (d.b_error = false →
      (DecodeBlock K env d pp).dec.b_error = harvest_map_fails env sys) ∧
    (m.type = GstMessageType.GST_MESSAGE_EOS →
      (DecodeBlock K env d pp).dec.b_error = (d.b_error || harvest_map_fails env sys)) ∧
    (∀ u rest p0 frame, sys.p_que = some (u :: rest) → env.new_picture = some p0 →
      env.frame_map sys.vinfo u = some frame →
      (DecodeBlock K env d pp).pic = some (gst_CopyPicture (stamp_picture p0 u) frame) ∧
      popped (DecodeBlock K env d pp).trace = [u] ∧
      queue_of (DecodeBlock K env d pp).dec = rest) := by
  obtain ⟨sys', bus, bus1, tr, hsys', hb, hpop, heq, hfeed⟩ :=
    DecodeBlock_polled_feed K env d pp m h
  have hss : sys' = sys := Option.some.inj (hsys'.symm.trans hsys)
  subst hss
  have hfails : harvest_map_fails env { sys' with p_bus := some bus1 } =
      harvest_map_fails env sys' := rfl
  rw [heq]
  rcases hm with hm | hm | hm
  · rw [decode_messages_warn_info env d sys' tr bus bus1 m hb hpop (Or.inl hm)]
    refine ⟨fun _ => ?_, fun he => ?_, ?_⟩
    · rw [decode_output_flag, hfails]
      simp
    · rw [hm] at he
      exact absurd he (by decide)
    · intro u rest p0 frame hq hp hmap
      rw [decode_output_harvest env _ { sys' with p_bus := some bus1 } _ u rest p0 frame hq hp
        hmap]
      simp [decode_done, popped_append, popped, hfeed, queue_of]
  · rw [decode_messages_warn_info env d sys' tr bus bus1 m hb hpop (Or.inr hm)]
    refine ⟨fun _ => ?_, fun he => ?_, ?_⟩
    · rw [decode_output_flag, hfails]
      simp
    · rw [hm] at he
      exact absurd he (by decide)
    · intro u rest p0 frame hq hp hmap
      rw [decode_output_harvest env _ { sys' with p_bus := some bus1 } _ u rest p0 frame hq hp
        hmap]
      simp [decode_done, popped_append, popped, hfeed, queue_of]
  · rw [decode_messages_eos env d sys' tr bus bus1 m hb hpop hm]
    refine ⟨fun hd => ?_, fun _ => ?_, ?_⟩
    · rw [decode_output_flag, hfails, hd]
      simp
    · rw [decode_output_flag, hfails]
    · intro u rest p0 frame hq hp hmap
      rw [decode_output_harvest env _ { sys' with p_bus := some bus1 } _ u rest p0 frame hq hp
        hmap]
      simp [decode_done, popped_append, popped, hfeed, queue_of]

/-- C13 amended, on `eosDec` with a unit that maps: the flag stays clear and
the picture of the queued unit is returned. -/
theorem C13_nonfatal_messages_witness :
    (DecodeBlock hostDefaults okEnv eosDec (some none)).dec.b_error = false ∧
    (DecodeBlock hostDefaults okEnv eosDec (some none)).pic =
      some (gst_CopyPicture (stamp_picture {} unit0) {}) :=
  ⟨(C13_nonfatal_messages hostDefaults okEnv eosDec _ (some none) eosMsg rfl
      (Or.inr (Or.inr rfl)) (by decide)).1 rfl,
   ((C13_nonfatal_messages hostDefaults okEnv eosDec _ (some none) eosMsg rfl
      (Or.inr (Or.inr rfl)) (by decide)).2.2 unit0 [] {} {} rfl rfl rfl).1⟩

theorem and_or_ne_zero_right (a b c : Nat) (h : a &&& c ≠ 0) : a &&& (b ||| c) ≠ 0 := by
  intro h0
  apply h
  apply Nat.eq_of_testBit_eq
  intro i
  have := congrArg (fun n => Nat.testBit n i) h0
  simp only [Nat.testBit_and, Nat.testBit_or, Nat.zero_testBit] at this ⊢
  cases ha : a.testBit i <;> cases hc : c.testBit i <;> simp_all

/-- C14 as stated fails: a block carrying the corruption flag alone is
released, but no reposition request is made, the two queued units stay
queued and the prerolled flag stays set. -/
theorem C14_corrupted_only :
    corruptBlock.i_flags &&& hostDefaults.BLOCK_FLAG_CORRUPTED ≠ 0 ∧
    (DecodeBlock hostDefaults okEnv twoUnitDec (some (some corruptBlock))).trace =
      [Event.block_Release corruptBlock] ∧
    queue_of (DecodeBlock hostDefaults okEnv twoUnitDec (some (some corruptBlock))).dec =
      [unit0, unit1] ∧
    (DecodeBlock hostDefaults okEnv twoUnitDec (some (some corruptBlock))).dec = twoUnitDec := by
  decide

/-- C14, amended. A block carrying the corruption flag is released once
without being wrapped or pushed, and the call returns no picture and clears
the caller slot. The reposition request, the release of every queued unit
and the clearing of the prerolled flag happen exactly when the block also
carries the discontinuity flag; with the corruption flag alone the release of
the block is the only call made and the decoder is left as it was. -/
theorem C14_corrupted_block (K : HostConsts) (env : DecodeEnv) (d : decoder_t)
    (sys : decoder_sys_t) (blk : block_t) (hsys : d.p_sys = some sys)
    (hflag : blk.i_flags &&& K.BLOCK_FLAG_CORRUPTED ≠ 0) :
    (DecodeBlock K env d (some (some blk))).pic = none ∧
    (DecodeBlock K env d (some (some blk))).pp_block = some none ∧
    (DecodeBlock K env d (some (some blk))).trace.count (Event.block_Release blk) = 1 ∧
    Event.buffer_new_wrapped blk ∉ (DecodeBlock K env d (some (some blk))).trace ∧
    pushed (DecodeBlock K env d (some (some blk))).trace = [] ∧
    (blk.i_flags &&& K.BLOCK_FLAG_DISCONTINUITY ≠ 0 →
      Event.seek_simple ∈ (DecodeBlock K env d (some (some blk))).trace ∧
      released (DecodeBlock K env d (some (some blk))).trace = queue_of d ∧
      queue_of (DecodeBlock K env d (some (some blk))).dec = [] ∧
      ∃ sys', (DecodeBlock K env d (some (some blk))).dec.p_sys = some sys' ∧
        sys'.b_prerolled = false) ∧
    (blk.i_flags &&& K.BLOCK_FLAG_DISCONTINUITY = 0 →
      (DecodeBlock K env d (some (some blk))).trace = [Event.block_Release blk] ∧
      (DecodeBlock K env d (some (some blk))).dec = d) := by
  have houter := and_or_ne_zero_right _ K.BLOCK_FLAG_DISCONTINUITY _ hflag
  have hq : queue_of d = sys.p_que.getD [] := by simp [queue_of, hsys]
  by_cases hd : blk.i_flags &&& K.BLOCK_FLAG_DISCONTINUITY = 0
  · have hres : DecodeBlock K env d (some (some blk)) =
        decode_done d sys none [Event.block_Release blk] := by
      simp [DecodeBlock, hsys, houter, hd]
    rw [hres]
    refine ⟨rfl, rfl, by simp [decode_done, List.count_cons], by simp [decode_done],
      by simp [decode_done, pushed], fun h => absurd hd h, fun _ => ⟨rfl, ?_⟩⟩
    cases d
    simp only [decode_done] at hsys ⊢
    simp only [hsys]
  · have hres : DecodeBlock K env d (some (some blk)) =
        decode_done d { sys with p_que := sys.p_que.map (fun _ => []), b_prerolled := false }
          none ([Event.seek_simple] ++
            ((sys.p_que.getD []).map
              (fun b => [Event.queue_pop b, Event.buffer_unref b])).flatten
            ++ [Event.block_Release blk]) := by
      simp [DecodeBlock, hsys, houter, hd]
    rw [hres]
    have hnb := flush_no_block_event (sys.p_que.getD []) (Event.block_Release blk)
      (fun _ => by simp) (fun _ => by simp)
    have hnw := flush_no_block_event (sys.p_que.getD []) (Event.buffer_new_wrapped blk)
      (fun _ => by simp) (fun _ => by simp)
    refine ⟨rfl, rfl, ?_, ?_, ?_, fun _ => ⟨?_, ?_, ?_, ⟨_, rfl, rfl⟩⟩, fun h => absurd h hd⟩
    · simp [decode_done, List.count_append, List.count_cons, List.count_eq_zero.mpr hnb]
    · simp [decode_done, hnw]
    · simp [decode_done, pushed_append, pushed, pushed_flush]
    · simp [decode_done]
    · rw [hq]
      simp [decode_done, released_append, released, released_flush]
    · cases hque : sys.p_que <;> simp [decode_done, queue_of, hque]

/-- C14 amended, on a block with both flags: both queued units are released. -/
theorem C14_corrupted_block_witness :
    released (DecodeBlock hostDefaults okEnv twoUnitDec
      (some (some { i_size := 10, i_buffer := 10, i_flags := 4097 }))).trace =
      queue_of twoUnitDec :=
  ((C14_corrupted_block hostDefaults okEnv twoUnitDec _
    { i_size := 10, i_buffer := 10, i_flags := 4097 } rfl (by decide)).2.2.2.2.2.1
      (by decide)).2.1

/-- The duration of the input unit built from a block. -/
theorem input_buffer_duration (K : HostConsts) (fmt : es_format_t) (blk : block_t) :
    (input_buffer K fmt blk).duration =
      if fmt.video.i_frame_rate ≠ 0 ∧ fmt.video.i_frame_rate_base ≠ 0 then
        gst_util_uint64_scale GST_SECOND fmt.video.i_frame_rate_base fmt.video.i_frame_rate
      else if blk.i_length > K.VLC_TS_INVALID then
        gst_util_uint64_scale (toU64 blk.i_length) GST_SECOND GST_MSECOND
      else GST_CLOCK_TIME_NONE := by
  unfold input_buffer
  simp only []
  split_ifs <;> rfl

/-- C15 as stated fails: a block with a duration of 1000 (1000000 in engine
units), fed to a decoder whose input format is at 25 frames a second, is
pushed with the duration 40000000 derived from the frame rate. -/
theorem C15_frame_rate_overrides :
    timedBlock.i_length > hostDefaults.VLC_TS_INVALID ∧
    gst_util_uint64_scale (toU64 timedBlock.i_length) GST_SECOND GST_MSECOND = 1000000 ∧
    pushed (DecodeBlock hostDefaults okEnv { oneUnitDec with fmt_in := fmt25 }
      (some (some timedBlock))).trace = [input_buffer hostDefaults fmt25 timedBlock] ∧
    (input_buffer hostDefaults fmt25 timedBlock).duration = 40000000 := by
  decide

/-- C15, amended. The unit pushed for a block is the input unit built from
it, and its duration is: one second times base over rate whenever the frame
rate of the input format is known (both terms non-zero), whether or not the
block has a duration; otherwise the duration of the block in engine units
when the block has one; otherwise none. -/
theorem C15_pushed_duration (K : HostConsts) (env : DecodeEnv) (d : decoder_t)
    (blk : block_t) (e : GstBuffer)
    (h : e ∈ pushed (DecodeBlock K env d (some (some blk))).trace) :
    e = input_buffer K d.fmt_in blk ∧
    (d.fmt_in.video.i_frame_rate ≠ 0 ∧ d.fmt_in.video.i_frame_rate_base ≠ 0 →
      e.duration = gst_util_uint64_scale GST_SECOND d.fmt_in.video.i_frame_rate_base
        d.fmt_in.video.i_frame_rate) ∧
    (¬ (d.fmt_in.video.i_frame_rate ≠ 0 ∧ d.fmt_in.video.i_frame_rate_base ≠ 0) →
      blk.i_length > K.VLC_TS_INVALID →
      e.duration = gst_util_uint64_scale (toU64 blk.i_length) GST_SECOND GST_MSECOND) ∧
    (¬ (d.fmt_in.video.i_frame_rate ≠ 0 ∧ d.fmt_in.video.i_frame_rate_base ≠ 0) →
      ¬ blk.i_length > K.VLC_TS_INVALID → e.duration = GST_CLOCK_TIME_NONE) := by
  have he := DecodeBlock_pushed K env d blk e h
  subst he
  refine ⟨rfl, fun hf => ?_, fun hf hl => ?_, fun hf hl => ?_⟩
  · rw [input_buffer_duration, if_pos hf]
  · rw [input_buffer_duration, if_neg hf, if_pos hl]
  · rw [input_buffer_duration, if_neg hf, if_neg hl]

/-- C15 amended, on a block with a duration and an input format without
frame rate: the pushed unit carries the duration of the block. -/
theorem C15_pushed_duration_witness :
    (input_buffer hostDefaults {} timedBlock).duration = 1000000 :=
  ((C15_pushed_duration hostDefaults okEnv oneUnitDec timedBlock _ (by decide)).2.2.1
    (by decide) (by decide)).trans (by decide)

/-! ## The frame copy -/

theorem memcpy_length (dst src : List Nat) (o s n : Nat) (hd : o + n ≤ dst.length)
    (hs : s + n ≤ src.length) : (memcpy dst o src s n).length = dst.length := by
  simp only [memcpy, List.length_append, List.length_take, List.length_drop]
  omega

theorem memcpy_getElem_outside (dst src : List Nat) (o s n i : Nat)
    (hd : o + n ≤ dst.length) (hs : s + n ≤ src.length) (hi : i < o ∨ o + n ≤ i) :
    (memcpy dst o src s n)[i]? = dst[i]? := by
  unfold memcpy
  have h1 : (dst.take o).length = o := by simp only [List.length_take]; omega
  have h2 : ((src.drop s).take n).length = n := by
    simp only [List.length_take, List.length_drop]; omega
  rcases hi with hi | hi
  · rw [List.getElem?_append_left (by omega), List.getElem?_take_of_lt hi]
  · rw [List.getElem?_append_right (by omega), List.getElem?_append_right (by omega), h1, h2,
      List.getElem?_drop]
    congr 1
    omega

theorem memcpy_getElem_inside (dst src : List Nat) (o s n j : Nat)
    (hd : o + n ≤ dst.length) (hs : s + n ≤ src.length) (hj : j < n) :
    (memcpy dst o src s n)[o + j]? = src[s + j]? := by
  unfold memcpy
  have h1 : (dst.take o).length = o := by simp only [List.length_take]; omega
  have h2 : ((src.drop s).take n).length = n := by
    simp only [List.length_take, List.length_drop]; omega
  rw [List.getElem?_append_right (by omega), h1, List.getElem?_append_left (by omega),
    List.getElem?_take_of_lt (by omega), List.getElem?_drop]
  congr 1
  omega

theorem copy_rows_succ (pitch stride w : Nat) (data px : List Nat) (m : Nat) :
    copy_rows pitch stride w data px (m + 1) =
      memcpy (copy_rows pitch stride w data px m) (m * pitch) data (m * stride) w := by
  simp [copy_rows, List.range_succ, List.foldl_append]

theorem copy_plane_rows (dst : plane_t) (src : frame_plane_t) :
    copy_plane dst src =
      { dst with
        p_pixels := copy_rows dst.i_pitch src.stride (src.comp_width * src.comp_pstride)
          src.data dst.p_pixels (min dst.i_lines src.comp_height) } := rfl

/-- The rows copied, when rows do not overlap in the destination and every
copy stays inside both buffers. -/
theorem copy_rows_spec (pitch stride w : Nat) (data px : List Nat) (hw : w ≤ pitch) (m : Nat)
    (hdst : ∀ k < m, k * pitch + w ≤ px.length)
    (hsrc : ∀ k < m, k * stride + w ≤ data.length) :
    (copy_rows pitch stride w data px m).length = px.length ∧
    (∀ k < m, ∀ j < w,
      (copy_rows pitch stride w data px m)[k * pitch + j]? = data[k * stride + j]?) ∧
    (∀ i, (∀ k < m, i < k * pitch ∨ k * pitch + w ≤ i) →
      (copy_rows pitch stride w data px m)[i]? = px[i]?) := by
  induction m with
  | zero => exact ⟨rfl, fun k hk => absurd hk (Nat.not_lt_zero k), fun i _ => rfl⟩
  | succ m ih =>
    obtain ⟨hlen, hrows, hout⟩ := ih (fun k hk => hdst k (Nat.lt_succ_of_lt hk))
      (fun k hk => hsrc k (Nat.lt_succ_of_lt hk))
    have hd := hdst m (Nat.lt_succ_self m)
    have hs := hsrc m (Nat.lt_succ_self m)
    rw [copy_rows_succ]
    refine ⟨?_, ?_, ?_⟩
    · rw [memcpy_length _ _ _ _ _ (by rw [hlen]; exact hd) hs, hlen]
    · intro k hk j hj
      rcases Nat.lt_succ_iff_lt_or_eq.mp hk with hkm | hkm
      · have hmul : (k + 1) * pitch ≤ m * pitch := Nat.mul_le_mul_right _ hkm
        have hlt : k * pitch + j < m * pitch := by
          rw [Nat.add_mul, Nat.one_mul] at hmul
          omega
        rw [memcpy_getElem_outside _ _ _ _ _ _ (by rw [hlen]; exact hd) hs (Or.inl hlt)]
        exact hrows k hkm j hj
      · subst hkm
        exact memcpy_getElem_inside _ _ _ _ _ _ (by rw [hlen]; exact hd) hs hj
    · intro i hi
      rw [memcpy_getElem_outside _ _ _ _ _ _ (by rw [hlen]; exact hd) hs
        (hi m (Nat.lt_succ_self m))]
      exact hout i (fun k hk => hi k (Nat.lt_succ_of_lt hk))

theorem memcpy_congr (px data data' : List Nat) (o s n B : Nat) (hB : s + n ≤ B)
    (h : data'.take B = data.take B) : memcpy px o data' s n = memcpy px o data s n := by
  unfold memcpy
  have key : ∀ l : List Nat, (l.drop s).take n = ((l.take B).drop s).take n := by
    intro l
    rw [List.drop_take, List.take_take]
    congr 1
    omega
  rw [key data', key data, h]

/-- The rows copied depend on the frame plane only through the bytes below
the bound `B`, when every row read ends at or before `B`. -/
theorem copy_rows_congr (pitch stride w : Nat) (data data' px : List Nat) (m B : Nat)
    (hB : ∀ k < m, k * stride + w ≤ B) (h : data'.take B = data.take B) :
    copy_rows pitch stride w data' px m = copy_rows pitch stride w data px m := by
  induction m with
  | zero => rfl
  | succ m ih =>
    rw [copy_rows_succ, copy_rows_succ, ih (fun k hk => hB k (Nat.lt_succ_of_lt hk)),
      memcpy_congr _ _ _ _ _ _ B (hB m (Nat.lt_succ_self m)) h]

/-- The planes of the picture after `gst_CopyPicture`. -/
theorem gst_CopyPicture_plane (pic : picture_t) (frame : GstVideoFrame) (i : Nat) :
    (gst_CopyPicture pic frame).p[i]? =
      (pic.p[i]?).map (fun pl =>
        if i < pic.i_planes then
          match frame.planes[i]? with
          | some fp => copy_plane pl fp
          | none => pl
        else pl) := by
  unfold gst_CopyPicture
  simp only [List.getElem?_map, List.getElem?_enum, Option.map_map]
  cases pic.p[i]? with
  | none => rfl
  | some pl =>
    simp only [Option.map_some', Function.comp_apply, List.get?_eq_getElem?]
    try congr 1

/-- C16 as stated fails: with a frame row of three bytes copied into a picture
plane whose pitch is two, the second row overwrites the third byte of the
first, so the first three bytes of destination row 0 are 1, 2, 4 while source
row 0 is 1, 2, 3. -/
theorem C16_rows_overlap :
    (gst_CopyPicture { p := [narrowPlane], i_planes := 1 } { planes := [widePlane] }).p =
      [{ p_pixels := [1, 2, 4, 5, 6, 0], i_pitch := 2, i_lines := 3 }] ∧
    (widePlane.data.drop (0 * widePlane.stride)).take 3 = [1, 2, 3] := by
  decide

/-- C16, amended. `gst_CopyPicture` replaces each plane below `i_planes` that
has a frame plane by its copy and leaves the other planes. The copy of a plane
runs over `min (lines, component height)` rows; when the row length
`w = component width * pixel stride` does not exceed the picture pitch and
every row lies inside both buffers, the pixel buffer keeps its length, byte
`j < w` of destination row `k` (offset `k * pitch + j`) is byte `j` of source
row `k` (offset `k * stride + j`) for every copied row, and every byte outside
the copied rows is unchanged. When `w` does not exceed the frame stride, the
result does not depend on the frame bytes from row `component height` on. -/
theorem C16_copy_picture (pic : picture_t) (frame : GstVideoFrame) :
    (∀ i, (gst_CopyPicture pic frame).p[i]? =
      (pic.p[i]?).map (fun pl =>
        if i < pic.i_planes then
          match frame.planes[i]? with
          | some fp => copy_plane pl fp
          | none => pl
        else pl)) ∧
    (∀ (dst : plane_t) (src : frame_plane_t),
      src.comp_width * src.comp_pstride ≤ dst.i_pitch →
      (∀ k < min dst.i_lines src.comp_height,
        k * dst.i_pitch + src.comp_width * src.comp_pstride ≤ dst.p_pixels.length) →
      (∀ k < min dst.i_lines src.comp_height,
        k * src.stride + src.comp_width * src.comp_pstride ≤ src.data.length) →
      (copy_plane dst src).i_pitch = dst.i_pitch ∧
      (copy_plane dst src).i_lines = dst.i_lines ∧
      (copy_plane dst src).p_pixels.length = dst.p_pixels.length ∧
      (∀ k < min dst.i_lines src.comp_height, ∀ j < src.comp_width * src.comp_pstride,
        (copy_plane dst src).p_pixels[k * dst.i_pitch + j]? = src.data[k * src.stride + j]?) ∧
      (∀ i, (∀ k < min dst.i_lines src.comp_height,
          i < k * dst.i_pitch ∨ k * dst.i_pitch + src.comp_width * src.comp_pstride ≤ i) →
        (copy_plane dst src).p_pixels[i]? = dst.p_pixels[i]?)) ∧
    (∀ (dst : plane_t) (src : frame_plane_t) (data' : List Nat),
      src.comp_width * src.comp_pstride ≤ src.stride →
      data'.take (src.comp_height * src.stride) = src.data.take (src.comp_height * src.stride) →
      copy_plane dst { src with data := data' } = copy_plane dst src) := by
  refine ⟨gst_CopyPicture_plane pic frame, ?_, ?_⟩
  · intro dst src hw hdst hsrc
    obtain ⟨h1, h2, h3⟩ := copy_rows_spec dst.i_pitch src.stride
      (src.comp_width * src.comp_pstride) src.data dst.p_pixels hw
      (min dst.i_lines src.comp_height) hdst hsrc
    rw [copy_plane_rows]
    exact ⟨rfl, rfl, h1, h2, h3⟩
  · intro dst src data' hw hdata
    rw [copy_plane_rows, copy_plane_rows]
    have hB : ∀ k < min dst.i_lines src.comp_height,
        k * src.stride + src.comp_width * src.comp_pstride ≤ src.comp_height * src.stride := by
      intro k hk
      have hk2 : k + 1 ≤ src.comp_height := by omega
      have := Nat.mul_le_mul_right src.stride hk2
      rw [Nat.add_mul, Nat.one_mul] at this
      omega
    simp only []
    rw [copy_rows_congr _ _ _ _ _ _ _ _ hB hdata]

/-- C16 amended, on a picture plane with a pitch of four: both frame rows of
three bytes arrive whole, the padding bytes are left as they were. -/
theorem C16_copy_picture_witness :
    (copy_plane paddedPlane widePlane).p_pixels[1 * 4 + 2]? = widePlane.data[1 * 3 + 2]? ∧
    (copy_plane paddedPlane widePlane).p_pixels = [1, 2, 3, 0, 4, 5, 6, 0] :=
  ⟨((C16_copy_picture {} {}).2.1 paddedPlane widePlane (by decide) (by decide)
      (by decide)).2.2.2.1 1 (by decide) 2 (by decide), by decide⟩

/-! ## Auto mode against explicit mode -/

theorem g_list_sort_mem {α : Type} (l : List α) (cmp : α → α → Int) (x : α) :
    x ∈ g_list_sort l cmp ↔ x ∈ l := by
  unfold g_list_sort
  exact List.mem_mergeSort

/-- The search finds something on the sorted list exactly when it finds
something on the list as enumerated. -/
theorem find_sorted_isSome (env : OpenEnv) (caps : sink_src_caps_t) :
    (selected_factory env caps).isSome =
      (g_list_find_custom env.decoders caps
        (find_decoder_func env.can_sink_any_caps env.can_src_any_caps)).isSome := by
  unfold selected_factory g_list_find_custom
  rw [Bool.eq_iff_iff, List.find?_isSome, List.find?_isSome]
  constructor
  · rintro ⟨x, hx, hp⟩
    exact ⟨x, (g_list_sort_mem _ _ x).mp hx, hp⟩
  · rintro ⟨x, hx, hp⟩
    exact ⟨x, (g_list_sort_mem _ _ x).mpr hx, hp⟩

/-- Without a compatible decoder the selection fails with `VLC_ENOMOD` in
either mode. -/
theorem open_select_no_match (env : OpenEnv) (d : decoder_t) (sys : decoder_sys_t)
    (caps : sink_src_caps_t) (tr : List Event)
    (hnone : g_list_find_custom env.decoders caps
      (find_decoder_func env.can_sink_any_caps env.can_src_any_caps) = none) :
    (open_select env d sys caps tr).ret = VlcRet.VLC_ENOMOD := by
  have hsel : selected_factory env caps = none := by
    have := find_sorted_isSome env caps
    rw [hnone] at this
    simpa using this
  unfold selected_factory at hsel
  unfold open_select
  cases hd : env.decoders with
  | nil => rfl
  | cons a l =>
    rw [hd] at hnone hsel
    simp only []
    split_ifs
    · split
      · rfl
      · simp only [hsel]
        rfl
    · simp only [hnone]
      rfl

/-- C20. For every decoder list and caps query, the search on the list as
enumerated (auto mode) finds a factory exactly when the search on the
rank-sorted list (explicit mode) finds one; and when it finds none,
`OpenDecoder` returns `VLC_ENOMOD` with `use-decodebin` set and with it unset. -/
theorem C20_auto_explicit_agree (K : HostConsts) (env : OpenEnv) (p_dec : decoder_t) :
    (∀ caps, (g_list_find_custom env.decoders caps
        (find_decoder_func env.can_sink_any_caps env.can_src_any_caps)).isSome =
      (g_list_find_custom (g_list_sort env.decoders gst_plugin_feature_rank_compare_func) caps
        (find_decoder_func env.can_sink_any_caps env.can_src_any_caps)).isSome) ∧
    (∀ p_str, vlc_to_gst_fmt K env.wrap_ok p_dec.fmt_in = some p_str →
      env.calloc_ok = true →
      g_list_find_custom env.decoders
        { p_sinkcaps := [p_str], p_srccaps := [gst_structure_new_empty "video/x-raw"] }
        (find_decoder_func env.can_sink_any_caps env.can_src_any_caps) = none →
      (OpenDecoder K { env with use_decodebin := true } p_dec).ret = VlcRet.VLC_ENOMOD ∧
      (OpenDecoder K { env with use_decodebin := false } p_dec).ret = VlcRet.VLC_ENOMOD) := by
  refine ⟨fun caps => (find_sorted_isSome env caps).symm, ?_⟩
  intro p_str hstr hc hnone
  constructor
  · simp only [OpenDecoder, hstr, hc, Bool.not_true, Bool.false_eq_true, if_false]
    exact open_select_no_match { env with use_decodebin := true } p_dec _ _ _ hnone
  · simp only [OpenDecoder, hstr, hc, Bool.not_true, Bool.false_eq_true, if_false]
    exact open_select_no_match { env with use_decodebin := false } p_dec _ _ _ hnone

/-- C20 on a registry without a compatible decoder: both modes fail with
`VLC_ENOMOD`. -/
theorem C20_auto_explicit_agree_witness :
    (OpenDecoder hostDefaults { noMatchEnv with use_decodebin := true } h264Dec).ret =
      VlcRet.VLC_ENOMOD ∧
    (OpenDecoder hostDefaults { noMatchEnv with use_decodebin := false } h264Dec).ret =
      VlcRet.VLC_ENOMOD :=
  (C20_auto_explicit_agree hostDefaults noMatchEnv h264Dec).2
    (gst_structure_set (gst_structure_new_empty "video/x-h264") "alignment" (GValue.str "au"))
    (by decide) rfl (by decide)

/-! ## The harvest without a host picture -/

/-- When `decoder_NewPicture` returns `NULL` the harvest stops at `done`
without a picture, whatever is queued: the decoder, the queue and the calls
made stay as they are. -/
theorem decode_output_no_picture (env : DecodeEnv) (d : decoder_t) (sys : decoder_sys_t)
    (tr : List Event) (hnew : env.new_picture = none) :
    decode_output env d sys tr = decode_done d sys none tr := by
  unfold decode_output
  cases hq : sys.p_que with
  | none => rfl
  | some q =>
    cases q with
    | nil => rfl
    | cons u rest => simp only [hnew]

theorem decode_messages_no_picture (env : DecodeEnv) (d : decoder_t) (sys : decoder_sys_t)
    (tr : List Event) (hnew : env.new_picture = none) :
    (decode_messages env d sys tr).pic = none ∧
    popped (decode_messages env d sys tr).trace = popped tr ∧
    released (decode_messages env d sys tr).trace = released tr ∧
    ((decode_messages env d sys tr).dec.b_error = true →
      d.b_error = true ∨ ∃ m, m.type = GstMessageType.GST_MESSAGE_ERROR ∧
        Event.message_unref m ∈ (decode_messages env d sys tr).trace) := by
  unfold decode_messages
  split
  · rw [decode_output_no_picture _ _ _ _ hnew]
    exact ⟨rfl, rfl, rfl, fun h => Or.inl h⟩
  · split
    · rw [decode_output_no_picture _ _ _ _ hnew]
      exact ⟨rfl, rfl, rfl, fun h => Or.inl h⟩
    · rename_i m bus1 hpop
      simp only []
      split
      · rw [decode_output_no_picture _ _ _ _ hnew]
        exact ⟨rfl, by simp [decode_done, popped_append, popped],
          by simp [decode_done, released_append, released], fun h => Or.inl h⟩
      · rw [decode_output_no_picture _ _ _ _ hnew]
        exact ⟨rfl, by simp [decode_done, popped_append, popped],
          by simp [decode_done, released_append, released], fun h => Or.inl h⟩
      · split_ifs with herr
        · refine ⟨rfl, by simp [decode_done, popped_append, popped],
            by simp [decode_done, released_append, released],
            fun _ => Or.inr ⟨m, ?_, by simp [decode_done]⟩⟩
          simp only [default_msg_handler] at herr
          split at herr <;> simp_all
        · rw [decode_output_no_picture _ _ _ _ hnew]
          refine ⟨rfl, by simp [decode_done, popped_append, popped],
            by simp [decode_done, released_append, released], fun h => ?_⟩
          exact absurd h herr

/-- C21. With a unit queued and `decoder_NewPicture` returning `NULL`: the
harvest step stops at `done` without a picture and leaves the decoder, the
queue and the calls made as they are (the head unit is peeked, not popped);
so a `DecodeBlock` call returns no picture; unless its block carries the
discontinuity flag (a flush, which never reaches the allocator) it pops and
releases no unit and leaves the queue as it was; and the fatal flag is set on
return only if it was set on entry, or the wrap or the push of the input
failed, or an error message was polled. -/
theorem C21_no_host_picture (K : HostConsts) (env : DecodeEnv) (d : decoder_t)
    (sys : decoder_sys_t) (u : GstBuffer) (rest : List GstBuffer)
    (pp : Option (Option block_t))
    (hsys : d.p_sys = some sys) (hq : sys.p_que = some (u :: rest))
    (hnew : env.new_picture = none) :
    (∀ d1 sys1 tr, sys1.p_que = some (u :: rest) →
      (decode_output env d1 sys1 tr).pic = none ∧
      (decode_output env d1 sys1 tr).dec = { d1 with p_sys := some sys1 } ∧
      queue_of (decode_output env d1 sys1 tr).dec = u :: rest ∧
      (decode_output env d1 sys1 tr).trace = tr) ∧
    (DecodeBlock K env d pp).pic = none ∧
    (¬ is_discontinuity K pp →
      queue_of (DecodeBlock K env d pp).dec = u :: rest ∧
      popped (DecodeBlock K env d pp).trace = [] ∧
      released (DecodeBlock K env d pp).trace = []) ∧
    ((DecodeBlock K env d pp).dec.b_error = true →
      d.b_error = true ∨ env.wrap_ok = false ∨ env.push_ok = false ∨
      ∃ m, m.type = GstMessageType.GST_MESSAGE_ERROR ∧
        Event.message_unref m ∈ (DecodeBlock K env d pp).trace) := by
  have hqd : queue_of d = u :: rest := by simp [queue_of, hsys, hq]
  have key : (DecodeBlock K env d pp).pic = none ∧
      (¬ is_discontinuity K pp →
        popped (DecodeBlock K env d pp).trace = [] ∧
        released (DecodeBlock K env d pp).trace = []) ∧
      ((DecodeBlock K env d pp).dec.b_error = true →
        d.b_error = true ∨ env.wrap_ok = false ∨ env.push_ok = false ∨
        ∃ m, m.type = GstMessageType.GST_MESSAGE_ERROR ∧
          Event.message_unref m ∈ (DecodeBlock K env d pp).trace) := by
    unfold DecodeBlock
    cases pp with
    | none => exact ⟨rfl, fun _ => ⟨rfl, rfl⟩, fun h => Or.inl h⟩
    | some slot =>
      simp only [hsys]
      cases slot with
      | none =>
        obtain ⟨h1, h2, h3, h4⟩ := decode_messages_no_picture env d sys [] hnew
        exact ⟨h1, fun _ => ⟨h2, h3⟩,
          fun h => (h4 h).elim Or.inl (fun h5 => Or.inr (Or.inr (Or.inr h5)))⟩
      | some blk =>
        simp only []
        split_ifs with c1 c2 c3 c4 c5
        · exact ⟨rfl, fun hnd => absurd ⟨blk, rfl, c2⟩ hnd, fun h => Or.inl h⟩
        · exact ⟨rfl, fun _ => ⟨rfl, rfl⟩, fun h => Or.inl h⟩
        · exact ⟨rfl, fun _ => ⟨rfl, rfl⟩, fun _ => Or.inr (Or.inl (by simpa using c4))⟩
        · exact ⟨rfl, fun _ => ⟨rfl, rfl⟩,
            fun _ => Or.inr (Or.inr (Or.inl (by simpa using c5)))⟩
        · obtain ⟨h1, h2, h3, h4⟩ := decode_messages_no_picture env d sys
            [Event.buffer_new_wrapped blk,
              Event.app_src_push_buffer (input_buffer K d.fmt_in blk)] hnew
          exact ⟨h1, fun _ => ⟨h2, h3⟩,
            fun h => (h4 h).elim Or.inl (fun h5 => Or.inr (Or.inr (Or.inr h5)))⟩
        · obtain ⟨h1, h2, h3, h4⟩ := decode_messages_no_picture env d sys
            [Event.block_Release blk] hnew
          exact ⟨h1, fun _ => ⟨h2, h3⟩,
            fun h => (h4 h).elim Or.inl (fun h5 => Or.inr (Or.inr (Or.inr h5)))⟩
  refine ⟨?_, key.1, fun hnd => ⟨?_, (key.2.1 hnd).1, (key.2.1 hnd).2⟩, key.2.2⟩
  · intro d1 sys1 tr hq1
    rw [decode_output_no_picture _ _ _ _ hnew]
    exact ⟨rfl, rfl, by simp [decode_done, queue_of, hq1], rfl⟩
  · have h := (DecodeBlock_queue K env d pp).1
    rw [(key.2.1 hnd).1, hqd] at h
    simpa using h.symm

/-- C21 on `twoUnitDec` with a host that hands out no picture: a flush call
and a call with a plain block both return no picture, keep both units queued
and leave the fatal flag clear. -/
theorem C21_no_host_picture_witness :
    (DecodeBlock hostDefaults noPictureEnv twoUnitDec (some none)).pic = none ∧
    queue_of (DecodeBlock hostDefaults noPictureEnv twoUnitDec (some none)).dec =
      [unit0, unit1] ∧
    (DecodeBlock hostDefaults noPictureEnv twoUnitDec (some none)).dec.b_error = false ∧
    (DecodeBlock hostDefaults noPictureEnv twoUnitDec (some (some plainBlock))).pic = none ∧
    queue_of (DecodeBlock hostDefaults noPictureEnv twoUnitDec (some (some plainBlock))).dec =
      [unit0, unit1] :=
  ⟨(C21_no_host_picture hostDefaults noPictureEnv twoUnitDec _ unit0 [unit1] (some none)
      rfl rfl rfl).2.1,
    ((C21_no_host_picture hostDefaults noPictureEnv twoUnitDec _ unit0 [unit1] (some none)
      rfl rfl rfl).2.2.1 (fun h => by obtain ⟨blk, hb, -⟩ := h; cases hb)).1,
    by decide, by decide, by decide⟩

/-! ## Ownership of the input block -/

theorem disposals_append (a b : List Event) :
    disposals (a ++ b) = disposals a ++ disposals b := by
  induction a with
  | nil => rfl
  | cons e t ih => cases e <;> simp [disposals, ih]

/-- A direct release occurs in a trace as often as among its disposals. -/
theorem count_release_disposals (t : List Event) (b : block_t) :
    t.count (Event.block_Release b) = (disposals t).count (Event.block_Release b) := by
  induction t with
  | nil => rfl
  | cons e t ih => cases e <;> simp [disposals, List.count_cons, ih]

/-- A wrap occurs in a trace as often as among its disposals. -/
theorem count_wrapped_disposals (t : List Event) (b : block_t) :
    t.count (Event.buffer_new_wrapped b) =
      (disposals t).count (Event.buffer_new_wrapped b) := by
  induction t with
  | nil => rfl
  | cons e t ih => cases e <;> simp [disposals, List.count_cons, ih]

/-- The harvest disposes of no block and leaves through `done`. -/
theorem decode_output_disposals (env : DecodeEnv) (d : decoder_t) (sys : decoder_sys_t)
    (tr : List Event) :
    disposals (decode_output env d sys tr).trace = disposals tr ∧
    (decode_output env d sys tr).pp_block = some none := by
  unfold decode_output
  split
  · exact ⟨rfl, rfl⟩
  · exact ⟨rfl, rfl⟩
  · split
    · exact ⟨rfl, rfl⟩
    · simp only []
      split <;> simp [decode_done, disposals_append, disposals]

/-- The message poll disposes of no block and leaves through `done`. -/
theorem decode_messages_disposals (env : DecodeEnv) (d : decoder_t) (sys : decoder_sys_t)
    (tr : List Event) :
    disposals (decode_messages env d sys tr).trace = disposals tr ∧
    (decode_messages env d sys tr).pp_block = some none := by
  unfold decode_messages
  split
  · exact decode_output_disposals _ _ _ _
  · split
    · exact decode_output_disposals _ _ _ _
    · simp only []
      split
      · simp [decode_output_disposals, disposals_append, disposals]
      · simp [decode_output_disposals, disposals_append, disposals]
      · split_ifs
        · simp [decode_done, disposals_append, disposals]
        · simp [decode_output_disposals, disposals_append, disposals]

/-- The unit built from a block carries the block as `user_data` of its
destroy notify. -/
theorem input_buffer_notify (K : HostConsts) (fmt_in : es_format_t) (blk : block_t) :
    (input_buffer K fmt_in blk).notify = some blk := by
  unfold input_buffer gst_buffer_new_wrapped_full
  simp only []
  split_ifs <;> rfl

/-- The disposals of a call with a block, path by path. -/
theorem DecodeBlock_disposals (K : HostConsts) (env : DecodeEnv) (d : decoder_t)
    (sys : decoder_sys_t) (blk : block_t) (hsys : d.p_sys = some sys) :
    (DecodeBlock K env d (some (some blk))).pp_block = some none ∧
    ((blk.i_flags &&& (K.BLOCK_FLAG_DISCONTINUITY ||| K.BLOCK_FLAG_CORRUPTED) ≠ 0 ∨
        blk.i_buffer = 0 ∨ env.wrap_ok = false) →
      disposals (DecodeBlock K env d (some (some blk))).trace = [Event.block_Release blk] ∧
      pushed (DecodeBlock K env d (some (some blk))).trace = []) ∧
    (blk.i_flags &&& (K.BLOCK_FLAG_DISCONTINUITY ||| K.BLOCK_FLAG_CORRUPTED) = 0 →
      blk.i_buffer ≠ 0 → env.wrap_ok = true →
      disposals (DecodeBlock K env d (some (some blk))).trace =
        [Event.buffer_new_wrapped blk] ∧
      pushed (DecodeBlock K env d (some (some blk))).trace =
        [input_buffer K d.fmt_in blk]) := by
  unfold DecodeBlock
  simp only [hsys]
  split_ifs with c1 c2 c3 c4 c5
  · refine ⟨rfl, fun _ => ⟨?_, ?_⟩, fun h => absurd h c1⟩
    · show disposals ([Event.seek_simple] ++
          ((sys.p_que.getD []).map
            (fun b => [Event.queue_pop b, Event.buffer_unref b])).flatten ++
          [Event.block_Release blk]) = _
      have : ∀ q : List GstBuffer, disposals
          ((q.map (fun b => [Event.queue_pop b, Event.buffer_unref b])).flatten) = [] := by
        intro q
        induction q with
        | nil => rfl
        | cons b t ih => simp [disposals, ih]
      rw [disposals_append, disposals_append, this]
      rfl
    · show pushed ([Event.seek_simple] ++
          ((sys.p_que.getD []).map
            (fun b => [Event.queue_pop b, Event.buffer_unref b])).flatten ++
          [Event.block_Release blk]) = _
      rw [pushed_append, pushed_append, pushed_flush]
      rfl
  · exact ⟨rfl, fun _ => ⟨rfl, rfl⟩, fun h => absurd h c1⟩
  · refine ⟨rfl, fun _ => ⟨rfl, rfl⟩, fun _ _ hw => ?_⟩
    simp [hw] at c4
  · refine ⟨rfl, fun h => ?_, fun _ _ _ => ⟨rfl, rfl⟩⟩
    rcases h with h | h | h
    · exact absurd h c1
    · exact absurd h c3
    · simp [h] at c4
  · refine ⟨(decode_messages_disposals _ _ _ _).2, fun h => ?_, fun _ _ _ => ?_⟩
    · rcases h with h | h | h
      · exact absurd h c1
      · exact absurd h c3
      · simp [h] at c4
    · rw [(decode_messages_disposals _ _ _ _).1, decode_messages_pushed]
      exact ⟨rfl, rfl⟩
  · refine ⟨(decode_messages_disposals _ _ _ _).2, fun _ => ?_, fun _ h => absurd ?_ h⟩
    · rw [(decode_messages_disposals _ _ _ _).1, decode_messages_pushed]
      exact ⟨rfl, rfl⟩
    · simpa using c3

/-- C22. On every path of a call with a block (flagged, no payload, wrap
failure, push failure, push) the disposals in the trace are exactly one call
on that block: a direct `block_Release` when the block is flagged, has no
payload or cannot be wrapped, and otherwise the wrap that hands it to the
engine with `block_Release` as destroy notify (the pushed unit carries the
block); the slot is `NULL` on return. A call with a `NULL` `pp_block` returns
no picture, makes no call and leaves the decoder as it is; a call with a
pointer to a `NULL` block disposes of nothing and leaves the slot `NULL`. -/
theorem C22_block_disposed_once (K : HostConsts) (env : DecodeEnv) (d : decoder_t)
    (sys : decoder_sys_t) (hsys : d.p_sys = some sys) :
    (∀ blk,
      (disposals (DecodeBlock K env d (some (some blk))).trace = [Event.block_Release blk] ∨
        disposals (DecodeBlock K env d (some (some blk))).trace =
          [Event.buffer_new_wrapped blk]) ∧
      (DecodeBlock K env d (some (some blk))).trace.count (Event.block_Release blk) +
        (DecodeBlock K env d (some (some blk))).trace.count (Event.buffer_new_wrapped blk)
          = 1 ∧
      (DecodeBlock K env d (some (some blk))).pp_block = some none ∧
      ((blk.i_flags &&& (K.BLOCK_FLAG_DISCONTINUITY ||| K.BLOCK_FLAG_CORRUPTED) ≠ 0 ∨
          blk.i_buffer = 0 ∨ env.wrap_ok = false) →
        disposals (DecodeBlock K env d (some (some blk))).trace = [Event.block_Release blk] ∧
        pushed (DecodeBlock K env d (some (some blk))).trace = []) ∧
      (blk.i_flags &&& (K.BLOCK_FLAG_DISCONTINUITY ||| K.BLOCK_FLAG_CORRUPTED) = 0 →
        blk.i_buffer ≠ 0 → env.wrap_ok = true →
        disposals (DecodeBlock K env d (some (some blk))).trace =
          [Event.buffer_new_wrapped blk] ∧
        pushed (DecodeBlock K env d (some (some blk))).trace =
          [input_buffer K d.fmt_in blk] ∧
        (input_buffer K d.fmt_in blk).notify = some blk)) ∧
    DecodeBlock K env d none = { dec := d, pic := none, pp_block := none, trace := [] } ∧
    disposals (DecodeBlock K env d (some none)).trace = [] ∧
    (DecodeBlock K env d (some none)).pp_block = some none := by
  refine ⟨fun blk => ?_, rfl, ?_, ?_⟩
  · obtain ⟨h1, h2, h3⟩ := DecodeBlock_disposals K env d sys blk hsys
    have hdisj : disposals (DecodeBlock K env d (some (some blk))).trace =
          [Event.block_Release blk] ∨
        disposals (DecodeBlock K env d (some (some blk))).trace =
          [Event.buffer_new_wrapped blk] := by
      by_cases c1 : blk.i_flags &&& (K.BLOCK_FLAG_DISCONTINUITY ||| K.BLOCK_FLAG_CORRUPTED) = 0
      · by_cases c2 : blk.i_buffer = 0
        · exact Or.inl (h2 (Or.inr (Or.inl c2))).1
        · cases hw : env.wrap_ok with
          | false => exact Or.inl (h2 (Or.inr (Or.inr hw))).1
          | true => exact Or.inr (h3 c1 c2 hw).1
      · exact Or.inl (h2 (Or.inl c1)).1
    refine ⟨hdisj, ?_, h1, h2,
      fun c1 c2 hw => ⟨(h3 c1 c2 hw).1, (h3 c1 c2 hw).2, input_buffer_notify K _ blk⟩⟩
    rw [count_release_disposals, count_wrapped_disposals]
    rcases hdisj with h | h <;> rw [h] <;> simp
  · unfold DecodeBlock
    simp only [hsys]
    exact (decode_messages_disposals env d sys []).1
  · unfold DecodeBlock
    simp only [hsys]
    exact (decode_messages_disposals env d sys []).2

/-- C22 on `twoUnitDec`: a plain block is wrapped and pushed and never
released directly, a discontinuity block, a block without payload and a block
whose wrap fails are released once and never wrapped, a block whose push
fails has been handed to the engine; the slot is `NULL` afterwards. -/
theorem C22_block_disposed_once_witness :
    (DecodeBlock hostDefaults okEnv twoUnitDec (some (some plainBlock))).trace.count
        (Event.block_Release plainBlock) +
      (DecodeBlock hostDefaults okEnv twoUnitDec (some (some plainBlock))).trace.count
        (Event.buffer_new_wrapped plainBlock) = 1 ∧
    disposals (DecodeBlock hostDefaults okEnv twoUnitDec (some (some plainBlock))).trace =
      [Event.buffer_new_wrapped plainBlock] ∧
    disposals (DecodeBlock hostDefaults okEnv twoUnitDec (some (some discBlock))).trace =
      [Event.block_Release discBlock] ∧
    disposals (DecodeBlock hostDefaults okEnv twoUnitDec (some (some emptyBlock))).trace =
      [Event.block_Release emptyBlock] ∧
    disposals (DecodeBlock hostDefaults noWrapEnv twoUnitDec (some (some plainBlock))).trace =
      [Event.block_Release plainBlock] ∧
    disposals (DecodeBlock hostDefaults noPushEnv twoUnitDec (some (some plainBlock))).trace =
      [Event.buffer_new_wrapped plainBlock] ∧
    (DecodeBlock hostDefaults okEnv twoUnitDec (some (some plainBlock))).pp_block = some none :=
  ⟨((C22_block_disposed_once hostDefaults okEnv twoUnitDec _ rfl).1 plainBlock).2.1,
    by decide, by decide, by decide, by decide, by decide, by decide⟩

end GstDecode
